import Mathlib

/-!
# Cutscene playback (`GameStateCutscene.cpp`)

A shallow embedding of `Scene` (the per-scene playback state machine) and of
`GameStateCutscene` (the loader and sequencer), followed by theorems about them.

Conventions of the embedding:

* `int` is `Int`; C++ integer division is `Int.tdiv` (truncation toward zero).
  The layout of a vertical scroller adds up heights read from the data file, so
  its additions wrap as 32-bit `int` (`wrapInt`); the tick counters of a scene
  move by 1 or 8 per frame and are kept exact.
* `float` values are kept in an abstract carrier `F`; the one float expression
  whose result is read back as an integer (the scroll offset) is a field of `Env`.
* Every collaborator outside `GameStateCutscene.cpp` (renderer, fonts, sound
  manager, parsing helpers, widgets) is a field of `Env` or of the per-call `Tick`.
* `std::queue` is a `List`: `front` is the head, `push` appends at the end.
-/

namespace Cutscene

/-! ## Data model -/

/-- Integer point, `Point` of the engine. -/
structure Point where
  x : Int
  y : Int
deriving DecidableEq, Repr

/-- Integer rectangle, `Rect` of the engine. -/
structure Rect where
  x : Int
  y : Int
  w : Int
  h : Int
deriving DecidableEq, Repr

/-- Colour with alpha, `Color` of the engine. -/
structure Color where
  r : Nat
  g : Nat
  b : Nat
  a : Nat
deriving DecidableEq, Repr

/-- Decoded image handle as returned by `render_device->loadImage`. -/
structure Image where
  w : Int
  h : Int
deriving DecidableEq, Repr

/-- Sprite created from an image: its graphics size and its destination. -/
structure Sprite where
  w : Int
  h : Int
  dest : Point
deriving DecidableEq, Repr

/-- Text label widget: the position given by the last `setPos` and its text. -/
structure WidgetLabel where
  x : Int
  y : Int
  text : String
deriving DecidableEq, Repr

/-- One directive of a scene: `type` tags which of `s` and `x` is meaningful. -/
structure SceneComponent where
  type : String
  s : String
  x : Int
deriving DecidableEq, Repr

/-- Modelled from the spec: the default constructor of `SceneComponent` is declared in
`GameStateCutscene.h`; a fresh directive has an empty type tag, an empty string
payload and a zero integer payload. -/
def SceneComponent.ctor : SceneComponent :=
  { type := "", s := "", x := 0 }

/-- Presentation settings shared by the scenes of one file. -/
structure CutsceneSettings (F : Type) where
  caption_margins_x : F
  caption_margins_y : F
  caption_background : Color
  vscroll_speed : F
deriving DecidableEq, Repr

/-- Positioned element of a vertical scroller. -/
structure VScrollComponent where
  pos : Point
  image_size : Point
  image : Option Sprite
  text : Option WidgetLabel
  separator_h : Int
deriving DecidableEq, Repr

/-- Modelled from the spec: the default constructor of `VScrollComponent` is declared in
`GameStateCutscene.h`; a fresh element has neither text nor image, and its points
and separator height are zero. -/
def VScrollComponent.ctor : VScrollComponent :=
  { pos := ⟨0, 0⟩, image_size := ⟨0, 0⟩, image := none, text := none, separator_h := 0 }

/-- Which of the two buttons owned by a scene `button_advance` points to. -/
inductive AdvanceButton where
  | button_next
  | button_close
deriving DecidableEq, Repr

/-- Modelled from the spec: `Scene::CUTSCENE_STATIC`, declared in `GameStateCutscene.h`. -/
def CUTSCENE_STATIC : Int := 0

/-- Modelled from the spec: `Scene::CUTSCENE_VSCROLL`, declared in `GameStateCutscene.h`. -/
def CUTSCENE_VSCROLL : Int := 1

/-- Modelled from the spec: `Scene::CUTSCENE_SCALE_NONE`, scale code 0 ("none"). -/
def CUTSCENE_SCALE_NONE : Int := 0

/-- Modelled from the spec: `Scene::CUTSCENE_SCALE_HEIGHT`, scale code 1 ("fit height"). -/
def CUTSCENE_SCALE_HEIGHT : Int := 1

/-- Modelled from the spec: `Scene::CUTSCENE_SCALE_SCREEN`, scale code 2 ("fit screen"). -/
def CUTSCENE_SCALE_SCREEN : Int := 2

/-- Playback state of one scene (the data members of `Scene`). -/
structure Scene (F : Type) where
  cutscene_settings : CutsceneSettings F
  frame_counter : Int
  pause_frames : Int
  caption : String
  art : Option Sprite
  art_scaled : Option Sprite
  art_size : Point
  art_scale_type : Int
  sid : Int
  caption_box : Option Point
  button_advance : Option AdvanceButton
  done : Bool
  vscroll_offset : Int
  vscroll_ticks : Int
  cutscene_type : Int
  is_last_scene : Bool
  components : List SceneComponent
  vscroll_components : List VScrollComponent
deriving DecidableEq, Repr

/-- The constructor `Scene::Scene(settings, type)` (lines 38-57). The handle `sid`
starts at the value written `-1` in the source; the file only compares it with 0. -/
def Scene.ctor {F : Type} (settings : CutsceneSettings F) (cutscene_type : Int) : Scene F :=
  { cutscene_settings := settings
    frame_counter := 0
    pause_frames := 0
    caption := ""
    art := none
    art_scaled := none
    art_size := ⟨0, 0⟩
    art_scale_type := CUTSCENE_SCALE_NONE
    sid := -1
    caption_box := none
    button_advance := none
    done := false
    vscroll_offset := 0
    vscroll_ticks := 0
    cutscene_type := cutscene_type
    is_last_scene := false
    components := []
    vscroll_components := [] }

/-! ## Collaborators -/

/-- Request sent to the sound manager. -/
inductive SndReq where
  | unload (sid : Int)
  | load (file : String) (category : String)
  | play (sid : Int) (positional : Bool) (looping : Bool)
  | stopMusic
  | loadMusic (file : String)
deriving DecidableEq, Repr

/-- The pressed and locked flags of the three actions read by `Scene::logic`. -/
structure InputState where
  pressing_MAIN1 : Bool
  pressing_ACCEPT : Bool
  pressing_CANCEL : Bool
  lock_MAIN1 : Bool
  lock_ACCEPT : Bool
  lock_CANCEL : Bool
deriving DecidableEq, Repr

/-- What one call observes of a button: the value `checkClick()` returns and the
`pressed` member read right after it. -/
structure WidgetButton where
  checkClick : Bool
  pressed : Bool
deriving DecidableEq, Repr

/-- Everything `Scene::logic` reads from outside the scene during one call; `inpt`
is the input state as it stands once `checkClick()` has run. -/
structure Tick where
  button_next : WidgetButton
  button_close : WidgetButton
  inpt : InputState
deriving DecidableEq, Repr

/-- The collaborators of the file, as functions. -/
structure Env (F : Type) where
  /-- Width of the view, `settings->view_w`. -/
  view_w : Int
  /-- Height of the view, `settings->view_h`. -/
  view_h : Int
  /-- Result of `render_device->loadImage(path, ERROR_NORMAL)`; `none` is `NULL`. -/
  loadImage : String → Option Image
  /-- Result of `Image::createSprite()`; `none` is `NULL`. -/
  createSprite : Image → Option Sprite
  /-- Height of the bounds of a caption-font label showing the given text. -/
  label_h : String → Int
  /-- Line 239: the integer read back from
  `float(ticks) * (vscroll_speed * max_frames_per_sec) / view_h`. -/
  scroll_offset : F → Int → Int
  /-- Handle returned by `snd->load(file, "Cutscenes")`. -/
  snd_load : String → Int
  /-- Padded caption size computed from margins and font metrics (lines 267-271). -/
  caption_size_padded : CutsceneSettings F → String → Point
  /-- Result of `Utils::resizeToScreen(w, h, crop, ALIGN_CENTER)`. -/
  resizeToScreen : Int → Int → Bool → Rect
  /-- Result of `Utils::alignToScreenEdge(ALIGN_CENTER, r)`. -/
  alignCenter : Rect → Rect
  /-- Result of `art->getGraphics()->resize(w, h)`; `none` is `NULL`. -/
  resizeImage : Sprite → Int → Int → Option Image
  /-- Lookup `msg->get`. -/
  msg_get : String → String
  /-- Pair returned by `Parse::popFirstString`: the first field and what is left. -/
  popFirstString : String → String × String
  /-- Pair returned by `Parse::popFirstInt`: the first field and what is left. -/
  popFirstInt : String → Int × String
  /-- Value of `Parse::toFloat(s) / 100.0f`. -/
  toPercent : String → F
  /-- Value of `Parse::toFloat`. -/
  toFloat : String → F
  /-- Value of `Parse::toRGBA`. -/
  toRGBA : String → Color
  /-- Value of `Parse::toDuration`, in ticks. -/
  toDuration : String → Int
  /-- Value of `Parse::toInt`. -/
  toInt : String → Int
  /-- A default-constructed `CutsceneSettings` (its constructor is in the header). -/
  settings_ctor : CutsceneSettings F
  /-- Music volume, `settings->music_volume`. -/
  music_volume : Int

/-- What a call of `Scene::logic` leaves behind: the returned flag (`true` is
"still running", `false` is "finished"), the scene, the input state and the
sound requests it issued, oldest first. -/
structure LogicResult (F : Type) where
  ret : Bool
  scene : Scene F
  inpt : InputState
  snd : List SndReq

/-! ## `Scene::logic` -/

/-- Lines 109-112: the control `button_advance` is pointed to. -/
def Scene.chooseAdvance {F : Type} (s : Scene F) : AdvanceButton :=
  if s.is_last_scene && (s.cutscene_type == CUTSCENE_VSCROLL || s.components.isEmpty) then
    AdvanceButton.button_close
  else
    AdvanceButton.button_next

/-- The button a `Tick` reports for a choice of advance control. -/
def Tick.button (t : Tick) : AdvanceButton → WidgetButton
  | AdvanceButton.button_next => t.button_next
  | AdvanceButton.button_close => t.button_close

/-- Local variables and input state after lines 114-133. -/
structure InputRead where
  skip : Bool
  skip_scroll : Bool
  done : Bool
  inpt : InputState
deriving DecidableEq, Repr

/-- Lines 114-133, for a scene whose `done` is false on entry. -/
def Scene.readInput (cutscene_type : Int) (b : WidgetButton) (i : InputState) : InputRead :=
  let skip0 := b.checkClick
  let skip_scroll := b.checkClick
  if !b.pressed then
    let m := i.pressing_MAIN1 && (!i.lock_MAIN1 || cutscene_type == CUTSCENE_VSCROLL)
    let i1 := if m then { i with lock_MAIN1 := true } else i
    let skip1 := if m then true else skip0
    let a := i1.pressing_ACCEPT && (!i1.lock_ACCEPT || cutscene_type == CUTSCENE_VSCROLL)
    let i2 := if a then { i1 with lock_ACCEPT := true } else i1
    let skip2 := if a then true else skip1
    let c := i2.pressing_CANCEL && !i2.lock_CANCEL
    let i3 := if c then { i2 with lock_CANCEL := true } else i2
    { skip := skip2, skip_scroll := skip_scroll, done := c, inpt := i3 }
  else
    { skip := skip0, skip_scroll := skip_scroll, done := false, inpt := i }

/-- One iteration of the loop of lines 143-176, without the final `pop`: the
front directive `c` (not a pause) is applied to the scene. When `createSprite`
gives no sprite the source reads the size through a null pointer; the model
leaves `art_size` as it was. -/
def Scene.applyComponent {F : Type} (env : Env F) (s : Scene F) (c : SceneComponent) :
    Scene F × List SndReq :=
  if c.type = "caption" then
    ({ s with caption := c.s }, [])
  else if c.type = "image" then
    let s1 := { s with art := none, art_scaled := none }
    let s2 :=
      match env.loadImage c.s with
      | some graphics =>
        match env.createSprite graphics with
        | some sp => { s1 with art := some sp, art_size := ⟨sp.w, sp.h⟩ }
        | none => s1
      | none => s1
    ({ s2 with art_scale_type := c.x }, [])
  else if c.type = "soundfx" then
    let u := if s.sid ≠ 0 then [SndReq.unload s.sid] else []
    let sid := env.snd_load c.s
    ({ s with sid := sid }, u ++ [SndReq.load c.s "Cutscenes", SndReq.play sid false false])
  else
    (s, [])

/-- The loop of lines 143-176 over the queue `q`: directives are applied and popped
until the queue is empty or its front is a pause. The scene returned holds the
queue that is left. -/
def Scene.drain {F : Type} (env : Env F) :
    List SceneComponent → Scene F → List SndReq → Scene F × List SndReq
  | [], s, out => ({ s with components := [] }, out)
  | c :: q, s, out =>
    if c.type = "pause" then
      ({ s with components := c :: q }, out)
    else
      let r := Scene.applyComponent env s c
      Scene.drain env q r.1 (out ++ r.2)

/-- The value of a C++ `int` expression whose exact result is `z`: the result is
taken modulo 2^32 into the range -2^31 .. 2^31 - 1 (what the arithmetic of the
target machines does when a signed addition overflows). -/
def wrapInt (z : Int) : Int :=
  (z + 2147483648) % 4294967296 - 2147483648

/-- The loop of lines 192-237 over the queue `q`: the elements produced, oldest
first, with `next_y` as accumulator. `next_y` and the stored positions are `int`:
every addition of the loop is wrapped by `wrapInt`, since the heights it adds up
are read from the data file and can be as large as an `int`. -/
def materialize {F : Type} (env : Env F) : List SceneComponent → Int → List VScrollComponent
  | [], _ => []
  | c :: q, next_y =>
    if c.type = "text" then
      let y := wrapInt (env.view_h.tdiv 2 + next_y)
      let x := env.view_w.tdiv 2
      let vsc : VScrollComponent :=
        { VScrollComponent.ctor with
          pos := ⟨x, y⟩
          text := some { x := x, y := y, text := c.s } }
      vsc :: materialize env q (wrapInt (next_y + env.label_h c.s))
    else if c.type = "image" then
      match env.loadImage c.s with
      | some graphics =>
        match env.createSprite graphics with
        | some sp =>
          let vsc : VScrollComponent :=
            { VScrollComponent.ctor with
              image := some sp
              image_size := ⟨sp.w, sp.h⟩
              pos := ⟨wrapInt (env.view_w.tdiv 2 - sp.w.tdiv 2),
                      wrapInt (env.view_h.tdiv 2 + next_y)⟩ }
          vsc :: materialize env q (wrapInt (next_y + sp.h))
        | none => materialize env q next_y
      | none => materialize env q next_y
    else if c.type = "separator" then
      let vsc : VScrollComponent :=
        { VScrollComponent.ctor with
          pos := ⟨0, wrapInt (wrapInt (env.view_h.tdiv 2 + next_y) + c.x.tdiv 2)⟩ }
      vsc :: materialize env q (wrapInt (next_y + c.x))
    else
      materialize env q next_y

/-- Lines 325-334: one element repositioned for the scroll offset. -/
def VScrollComponent.reposition {F : Type} (env : Env F) (vscroll_offset : Int)
    (v : VScrollComponent) : VScrollComponent :=
  match v.text with
  | some l => { v with text := some { l with x := env.view_w.tdiv 2, y := v.pos.y - vscroll_offset } }
  | none =>
    match v.image with
    | some sp =>
      { v with image := some { sp with
          dest := ⟨env.view_w.tdiv 2 - v.image_size.x.tdiv 2, v.pos.y - vscroll_offset⟩ } }
    | none => v

/-- Lines 266-291: the caption box is created or resized for a caption that is
not empty; the size stands for the box. -/
def Scene.refreshCaption {F : Type} (env : Env F) (s : Scene F) : Scene F :=
  if s.caption ≠ "" then
    { s with caption_box := some (env.caption_size_padded s.cutscene_settings s.caption) }
  else s

/-- Lines 293-321: the art is scaled, or placed at its own size. -/
def Scene.refreshArt {F : Type} (env : Env F) (s : Scene F) : Scene F :=
  match s.art with
  | some art =>
    if s.art_scale_type ≠ CUTSCENE_SCALE_NONE then
      let art_dest : Rect :=
        if s.art_scale_type = CUTSCENE_SCALE_SCREEN then
          env.resizeToScreen s.art_size.x s.art_size.y false
        else if s.art_scale_type = CUTSCENE_SCALE_HEIGHT then
          env.resizeToScreen s.art_size.x s.art_size.y true
        else ⟨0, 0, 0, 0⟩
      let scaled :=
        match env.resizeImage art art_dest.w art_dest.h with
        | some resized => env.createSprite resized
        | none => s.art_scaled
      { s with art_scaled := scaled.map fun sp => { sp with dest := ⟨art_dest.x, art_dest.y⟩ } }
    else
      let art_dest := env.alignCenter ⟨0, 0, s.art_size.x, s.art_size.y⟩
      { s with art := some { art with dest := ⟨art_dest.x, art_dest.y⟩ } }
  | none => s

/-- The method `Scene::refreshWidgets` (lines 264-341), as far as it changes data
members of the scene; the placement of the two buttons and the rendering of the
caption text into its box are left to the widgets. -/
def Scene.refreshWidgets {F : Type} (env : Env F) (s : Scene F) : Scene F :=
  if s.cutscene_type = CUTSCENE_STATIC then
    Scene.refreshArt env (Scene.refreshCaption env s)
  else if s.cutscene_type = CUTSCENE_VSCROLL then
    { s with vscroll_components :=
        s.vscroll_components.map (VScrollComponent.reposition env s.vscroll_offset) }
  else s

/-- Lines 250-258: whether the scroll has reached its end, judged on the last
element. The bounds of a label start at the `y` of its last `setPos` and are
`label_h` high. -/
def Scene.scrollEnded {F : Type} (env : Env F) (s : Scene F) : Bool :=
  match s.vscroll_components.getLast? with
  | none => false
  | some vsc =>
    if (match vsc.text with
        | some l => decide (l.y + env.label_h l.text < 0)
        | none => false) then true
    else if (vsc.pos.y + vsc.separator_h) - s.vscroll_offset < 0 then true
    else false

/-- What lines 114-133 compute for scene `s` on tick `t`. -/
def Scene.input {F : Type} (s : Scene F) (t : Tick) : InputRead :=
  Scene.readInput s.cutscene_type (t.button s.chooseAdvance) t.inpt

/-- The scene once lines 109-133 have run: the advance control is chosen and
`done` is set when cancel was taken. -/
def Scene.enter {F : Type} (s : Scene F) (t : Tick) : Scene F :=
  { s with button_advance := some s.chooseAdvance, done := (s.input t).done }

/-- Lines 136-187: the branch of `logic` for a static scene, run on the scene `s1`
left by lines 109-133 with the input read `i`. -/
def Scene.logicStatic {F : Type} (env : Env F) (s1 : Scene F) (i : InputRead) :
    LogicResult F :=
  if !i.skip && s1.pause_frames ≠ 0 && s1.frame_counter < s1.pause_frames then
    { ret := true, scene := { s1 with frame_counter := s1.frame_counter + 1 },
      inpt := i.inpt, snd := [] }
  else
    let r := Scene.drain env s1.components s1 []
    match r.1.components with
    | [] => { ret := false, scene := r.1, inpt := i.inpt, snd := r.2 }
    | p :: rest =>
      { ret := true,
        scene := Scene.refreshWidgets env
          { r.1 with frame_counter := 0, pause_frames := p.x, components := rest },
        inpt := i.inpt, snd := r.2 }

/-- Lines 190-258: the branch of `logic` for a vertical scroller, run on the scene
`s1` left by lines 109-133 with the input read `i`. -/
def Scene.logicVScroll {F : Type} (env : Env F) (s1 : Scene F) (i : InputRead) :
    LogicResult F :=
  let s2 := { s1 with
    components := []
    vscroll_components := s1.vscroll_components ++ materialize env s1.components 0 }
  let s3 := { s2 with
    vscroll_offset := env.scroll_offset s2.cutscene_settings.vscroll_speed s2.vscroll_ticks }
  if i.skip_scroll then
    { ret := false, scene := s3, inpt := i.inpt, snd := [] }
  else
    let s4 := { s3 with vscroll_ticks := s3.vscroll_ticks + (if i.skip then 8 else 1) }
    let s5 := Scene.refreshWidgets env s4
    { ret := !Scene.scrollEnded env s5, scene := s5, inpt := i.inpt, snd := [] }

/-- The method `Scene::logic` (lines 106-262). -/
def Scene.logic {F : Type} (env : Env F) (s : Scene F) (t : Tick) : LogicResult F :=
  if s.done then
    { ret := false, scene := s, inpt := t.inpt, snd := [] }
  else if s.cutscene_type = CUTSCENE_STATIC then
    Scene.logicStatic env (s.enter t) (s.input t)
  else if s.cutscene_type = CUTSCENE_VSCROLL then
    Scene.logicVScroll env (s.enter t) (s.input t)
  else
    { ret := true, scene := s.enter t, inpt := (s.input t).inpt, snd := [] }

/-- The scene after one call of `logic` per tick of the list, in order. -/
def Scene.run {F : Type} (env : Env F) (s : Scene F) : List Tick → Scene F
  | [] => s
  | t :: ts => Scene.run env (Scene.logic env s t).scene ts

/-! ## `GameStateCutscene` -/

/-- What the host is asked to switch to by `setRequestedGameState`. -/
inductive RequestedState where
  | play (game_slot : Int)
  | previous (handle : Nat)
deriving DecidableEq, Repr

/-- The sequencer (data members of `GameStateCutscene` and the two flags of its base
class that this file writes). -/
structure GameStateCutscene (F : Type) where
  previous_gamestate : Nat
  initialized : Bool
  game_slot : Int
  scenes : List (Scene F)
  music : String
  has_background : Bool
  hasMusic : Bool
  requested : Option RequestedState
deriving DecidableEq, Repr

/-- The constructor `GameStateCutscene::GameStateCutscene(game_state)` (lines 382-388);
the queue of scenes and the music name start empty, nothing is requested. -/
def GameStateCutscene.ctor {F : Type} (game_state : Nat) : GameStateCutscene F :=
  { previous_gamestate := game_state
    initialized := false
    game_slot := -1
    scenes := []
    music := ""
    has_background := false
    hasMusic := false
    requested := none }

/-- One result of `infile.next()`: the four members of the parser that `load` reads. -/
structure Record where
  new_section : Bool
  section_ : String
  key : String
  val : String
deriving DecidableEq, Repr

/-- Message passed to `infile.error`. -/
inductive ParseError where
  | invalid_key (key : String)
  | invalid_scaling (x : Int)
  | invalid_section (name : String)
deriving DecidableEq, Repr

/-- Local and member state of `load` between two records. -/
structure LoadState (F : Type) where
  cutscene_settings : CutsceneSettings F
  gs : GameStateCutscene F
  errors : List ParseError
deriving DecidableEq, Repr

/-- The statement `scenes.back()->components.push(sc)`; `none` when the queue of
scenes is empty, where `back()` is undefined. -/
def backPush {F : Type} (scenes : List (Scene F)) (sc : SceneComponent) :
    Option (List (Scene F)) :=
  scenes.getLast?.map fun b =>
    scenes.dropLast ++ [{ b with components := b.components ++ [sc] }]

/-- Lines 453-464: the scenes after the section header of a record is handled. -/
def loadHeader {F : Type} (cs : CutsceneSettings F) (scenes : List (Scene F)) (r : Record) :
    List (Scene F) :=
  if r.new_section then
    if r.section_ = "scene" then
      scenes ++ [Scene.ctor cs CUTSCENE_STATIC]
    else if r.section_ = "vscroll" then
      match scenes.getLast? with
      | none => scenes ++ [Scene.ctor cs CUTSCENE_VSCROLL]
      | some b =>
        if b.cutscene_type ≠ CUTSCENE_VSCROLL then
          scenes ++ [Scene.ctor cs CUTSCENE_VSCROLL]
        else scenes
    else scenes
  else scenes

/-- Lines 494-523: the directive built from a key of a `scene` section, and the
errors reported while building it. -/
def sceneKey {F : Type} (env : Env F) (r : Record) : SceneComponent × List ParseError :=
  let sc := SceneComponent.ctor
  if r.key = "caption" then
    ({ sc with type := r.key, s := env.msg_get r.val }, [])
  else if r.key = "image" then
    let p := env.popFirstString r.val
    let x := (env.popFirstInt p.2).1
    if x < CUTSCENE_SCALE_NONE ∨ x > CUTSCENE_SCALE_SCREEN then
      ({ sc with type := r.key, s := p.1, x := CUTSCENE_SCALE_NONE },
        [ParseError.invalid_scaling x])
    else
      ({ sc with type := r.key, s := p.1, x := x }, [])
  else if r.key = "pause" then
    ({ sc with type := r.key, x := env.toDuration r.val }, [])
  else if r.key = "soundfx" then
    ({ sc with type := r.key, s := r.val }, [])
  else
    (sc, [ParseError.invalid_key r.key])

/-- Lines 530-549: the directive built from a key of a `vscroll` section, and the
errors reported while building it. -/
def vscrollKey {F : Type} (env : Env F) (r : Record) : SceneComponent × List ParseError :=
  let sc := SceneComponent.ctor
  if r.key = "text" then
    ({ sc with type := r.key, s := env.msg_get r.val }, [])
  else if r.key = "image" then
    ({ sc with type := r.key, s := r.val }, [])
  else if r.key = "separator" then
    ({ sc with type := r.key, x := env.toInt r.val }, [])
  else
    (sc, [ParseError.invalid_key r.key])

/-- Lines 525-526 and 551-552: the directive is queued on the last scene when its
type tag is set. -/
def pushIfTyped {F : Type} (scenes : List (Scene F)) (sc : SceneComponent) :
    Option (List (Scene F)) :=
  if sc.type ≠ "" then backPush scenes sc else some scenes

/-- The body of the loop of `load` (lines 453-557) for one record; `none` when the
body calls `back()` on an empty queue. -/
def loadStep {F : Type} (env : Env F) (st : LoadState F) (r : Record) : Option (LoadState F) :=
  let scenes := loadHeader st.cutscene_settings st.gs.scenes r
  let st1 := { st with gs := { st.gs with scenes := scenes } }
  if r.section_ = "" then
    if r.key = "caption_margins" then
      let p := env.popFirstString r.val
      let q := env.popFirstString p.2
      some { st1 with cutscene_settings :=
        { st1.cutscene_settings with
          caption_margins_x := env.toPercent p.1
          caption_margins_y := env.toPercent q.1 } }
    else if r.key = "caption_background" then
      some { st1 with cutscene_settings :=
        { st1.cutscene_settings with caption_background := env.toRGBA r.val } }
    else if r.key = "vscroll_speed" then
      some { st1 with cutscene_settings :=
        { st1.cutscene_settings with vscroll_speed := env.toFloat r.val } }
    else if r.key = "menu_backgrounds" then
      some { st1 with gs := { st1.gs with has_background := true } }
    else if r.key = "music" then
      some { st1 with gs := { st1.gs with music := r.val, hasMusic := true } }
    else
      some { st1 with errors := st1.errors ++ [ParseError.invalid_key r.key] }
  else if r.section_ = "scene" then
    let k := sceneKey env r
    (pushIfTyped scenes k.1).map fun scenes2 =>
      { st1 with gs := { st1.gs with scenes := scenes2 }, errors := st1.errors ++ k.2 }
  else if r.section_ = "vscroll" then
    let k := vscrollKey env r
    (pushIfTyped scenes k.1).map fun scenes2 =>
      { st1 with gs := { st1.gs with scenes := scenes2 }, errors := st1.errors ++ k.2 }
  else
    some { st1 with errors := st1.errors ++ [ParseError.invalid_section r.section_] }

/-- The loop `while (infile.next())` of `load` over the records the parser yields. -/
def loadLoop {F : Type} (env : Env F) : List Record → LoadState F → Option (LoadState F)
  | [], st => some st
  | r :: rs, st => (loadStep env st r).bind (loadLoop env rs)

/-- Lines 563-569: the last scene is flagged. -/
def flagLast {F : Type} (scenes : List (Scene F)) : List (Scene F) :=
  match scenes.getLast? with
  | none => scenes
  | some b => scenes.dropLast ++ [{ b with is_last_scene := true }]

/-- What `load` leaves behind: the returned flag, the sequencer, the parse errors
reported, and whether the background colour of the renderer was reset. -/
structure LoadResult (F : Type) where
  ret : Bool
  gs : GameStateCutscene F
  errors : List ParseError
  background_reset : Bool
deriving DecidableEq, Repr

/-- The method `GameStateCutscene::load` (lines 440-574). `file` is `none` when
`infile.open` fails and otherwise the records `infile.next()` yields in order.
The result is `none` when the run calls `back()` on an empty queue. -/
def GameStateCutscene.load {F : Type} (env : Env F) (gs : GameStateCutscene F)
    (file : Option (List Record)) : Option (LoadResult F) :=
  match file with
  | none => some { ret := false, gs := gs, errors := [], background_reset := false }
  | some records =>
    (loadLoop env records
      { cutscene_settings := env.settings_ctor, gs := gs, errors := [] }).map fun st =>
      if st.gs.scenes.isEmpty then
        { ret := false, gs := st.gs, errors := st.errors, background_reset := false }
      else
        { ret := true, gs := { st.gs with scenes := flagLast st.gs.scenes },
          errors := st.errors, background_reset := true }

/-- What `load` needs from the parser: a record of a `scene` or `vscroll` section
either carries the header of its section (`new_section`) or continues the
section of the record before it. `prev` is the section of the record before,
empty before the first record. -/
def streamOk : String → List Record → Bool
  | _, [] => true
  | prev, r :: rs =>
    (r.new_section || r.section_ == prev || (r.section_ != "scene" && r.section_ != "vscroll"))
      && streamOk r.section_ rs

/-! ## The sequencer: `init` and `logic` -/

/-- The method `GameStateCutscene::init` (lines 395-406): the sequencer it leaves
and the requests it sends to the sound manager. -/
def GameStateCutscene.init {F : Type} (env : Env F) (gs : GameStateCutscene F) :
    GameStateCutscene F × List SndReq :=
  if gs.initialized then
    (gs, [])
  else
    ({ gs with initialized := true },
      if env.music_volume > 0 ∧ gs.music ≠ "" then
        [SndReq.stopMusic, SndReq.loadMusic gs.music]
      else [])

/-- One entry of the log of a call of `GameStateCutscene::logic`: the position, in
the queue the call started with, of the Scene whose `logic()` was called, and the
flag it returned. -/
structure SceneCall where
  index : Nat
  ret : Bool
deriving DecidableEq, Repr

/-- What the loop of line 429 leaves behind. -/
structure LoopResult (F : Type) where
  scenes : List (Scene F)
  snd : List SndReq
  calls : List SceneCall

/-- The loop of lines 429-432 over the queue: the front Scene is ticked; when it
returns false it is deleted and popped and the loop goes on with the next one.
`k` is the position of the front in the queue the call started with, and `obs k`
is what the `k`-th Scene observes when it is ticked. -/
def sceneLoop {F : Type} (env : Env F) (obs : Nat → Tick) : Nat → List (Scene F) → LoopResult F
  | _, [] => { scenes := [], snd := [], calls := [] }
  | k, s :: rest =>
    let r := Scene.logic env s (obs k)
    if r.ret then
      { scenes := r.scene :: rest, snd := r.snd, calls := [⟨k, true⟩] }
    else
      let l := sceneLoop env obs (k + 1) rest
      { scenes := l.scenes, snd := r.snd ++ l.snd, calls := ⟨k, false⟩ :: l.calls }

/-- What a call of `GameStateCutscene::logic` leaves behind: the sequencer, the
requests sent to the sound manager (oldest first) and the log of the calls of
`Scene::logic`. -/
structure SequencerResult (F : Type) where
  gs : GameStateCutscene F
  snd : List SndReq
  calls : List SceneCall

/-- The method `GameStateCutscene::logic` (lines 408-433). With an empty queue the
state to switch to is requested: gameplay resumed from `game_slot`, or the
previous state (the loading screen shown on the way is left to the renderer). -/
def GameStateCutscene.logic {F : Type} (env : Env F) (gs : GameStateCutscene F)
    (obs : Nat → Tick) : SequencerResult F :=
  let i := GameStateCutscene.init env gs
  if i.1.scenes.isEmpty then
    if i.1.game_slot ≠ -1 then
      { gs := { i.1 with requested := some (RequestedState.play i.1.game_slot) },
        snd := i.2, calls := [] }
    else
      { gs := { i.1 with requested := some (RequestedState.previous i.1.previous_gamestate) },
        snd := i.2, calls := [] }
  else
    let l := sceneLoop env obs 0 i.1.scenes
    { gs := { i.1 with scenes := l.scenes }, snd := i.2 ++ l.snd, calls := l.calls }

/-- The sequencer after one call of `logic` per frame of the list, with the sound
requests of each frame. -/
def GameStateCutscene.frames {F : Type} (env : Env F) :
    GameStateCutscene F → List (Nat → Tick) → GameStateCutscene F × List (List SndReq)
  | gs, [] => (gs, [])
  | gs, obs :: more =>
    let r := GameStateCutscene.logic env gs obs
    let m := GameStateCutscene.frames env r.gs more
    (m.1, r.snd :: m.2)

/-! ## Vocabulary of the statements -/

/-- A record whose section header makes `load` consider creating a scene. -/
def Record.opensScene (r : Record) : Prop :=
  r.new_section = true ∧ (r.section_ = "scene" ∨ r.section_ = "vscroll")

/-- The payload of the last caption directive of `pre`, or `old` when `pre` has none. -/
def lastCaption (pre : List SceneComponent) (old : String) : String :=
  match (pre.filter fun c => decide (c.type = "caption")).getLast? with
  | some c => c.s
  | none => old

/-- The integer payload of the last image directive of `pre`, or `old` when `pre` has
none. -/
def lastImageScale (pre : List SceneComponent) (old : Int) : Int :=
  match (pre.filter fun c => decide (c.type = "image")).getLast? with
  | some c => c.x
  | none => old

/-- Invariant of the loop of `load`: inside a `scene` or `vscroll` section the queue
of scenes is not empty, and no scene is flagged as last yet. -/
def LoadInv {F : Type} (prev : String) (st : LoadState F) : Prop :=
  ((prev = "scene" ∨ prev = "vscroll") → st.gs.scenes ≠ []) ∧
  ∀ s ∈ st.gs.scenes, s.is_last_scene = false

/-- A tick of scene `s` with no skip and no cancel: lines 114-133 leave `skip`
false and do not set `done`. -/
def Scene.quiet {F : Type} (s : Scene F) (t : Tick) : Prop :=
  (s.input t).skip = false ∧ (s.input t).done = false

/-- The height or gap a directive of a vertical scroller adds below its element:
the label height of a text, the height of an image that loads, the height of a
separator; `none` for a directive that yields no element. -/
def elementHeight {F : Type} (env : Env F) (c : SceneComponent) : Option Int :=
  if c.type = "text" then some (env.label_h c.s)
  else if c.type = "image" then
    match env.loadImage c.s with
    | some g => (env.createSprite g).map fun sp => sp.h
    | none => none
  else if c.type = "separator" then some c.x
  else none

/-- The heights and gaps of the elements a queue yields, in order. -/
def heights {F : Type} (env : Env F) (q : List SceneComponent) : List Int :=
  q.filterMap (elementHeight env)

/-- The directives of a queue that yield an element, in order. -/
def producers {F : Type} (env : Env F) (q : List SceneComponent) : List SceneComponent :=
  q.filter fun c => (elementHeight env c).isSome

/-- How far below the running offset the anchor of an element is stored: half the
gap for a separator, nothing for a text or an image. -/
def anchorShift (c : SceneComponent) : Int :=
  if c.type = "separator" then c.x.tdiv 2 else 0

/-- The stored anchor Y of each element, measured from the vertical centre of the
screen. -/
def anchors {F : Type} (env : Env F) (l : List VScrollComponent) : List Int :=
  l.map fun e => e.pos.y - env.view_h.tdiv 2

/-- Whether an exact value is in the range of a C++ `int`. -/
def fitsInt (z : Int) : Bool :=
  decide (-2147483648 ≤ z) && decide (z ≤ 2147483647)

/-- Whether no addition of the layout loop overflows on the queue `q` started at
the running offset `y`: for each directive that yields an element, the anchor
line `view_h/2 + y`, the stored anchor (the mid-point, for a separator) and the
advanced offset `y + height` are in the range of `int`. -/
def layoutFits {F : Type} (env : Env F) : List SceneComponent → Int → Bool
  | [], _ => true
  | c :: q, y =>
    match elementHeight env c with
    | none => layoutFits env q y
    | some ht =>
      fitsInt (env.view_h.tdiv 2 + y) && fitsInt (env.view_h.tdiv 2 + y + anchorShift c) &&
        fitsInt (y + ht) && layoutFits env q (y + ht)

/-- The stored Y of each element, in order. -/
def tops (l : List VScrollComponent) : List Int :=
  l.map fun e => e.pos.y

/-- The valid directives (text, image, separator) of the records of a `vscroll`
section, in file order. -/
def vscrollDirectives {F : Type} (env : Env F) (sec : List Record) : List SceneComponent :=
  (sec.map fun r => (vscrollKey env r).1).filter fun sc => decide (sc.type ≠ "")

/-- The records of one `vscroll` section: the first carries the header, the others
do not, and all are in section `vscroll`. -/
def isVscrollSection : List Record → Bool
  | [] => false
  | r :: rest =>
    r.new_section && r.section_ == "vscroll" &&
      rest.all fun x => !x.new_section && x.section_ == "vscroll"

/-- Every image directive queued in the scenes carries a scale code from 0 to 2. -/
def imageScalesOk {F : Type} (scenes : List (Scene F)) : Prop :=
  ∀ s ∈ scenes, ∀ c ∈ s.components, c.type = "image" → 0 ≤ c.x ∧ c.x ≤ 2

/-- A record `load` rejects: its key is not one of the keys of its section (global,
`scene` or `vscroll`), or its section is none of these. -/
def Record.invalid (r : Record) : Bool :=
  if r.section_ = "" then
    !(["caption_margins", "caption_background", "vscroll_speed", "menu_backgrounds",
        "music"].contains r.key)
  else if r.section_ = "scene" then
    !(["caption", "image", "pause", "soundfx"].contains r.key)
  else if r.section_ = "vscroll" then
    !(["text", "image", "separator"].contains r.key)
  else true

/-- The error `load` reports for a rejected record. -/
def Record.parseError (r : Record) : ParseError :=
  if r.section_ = "" ∨ r.section_ = "scene" ∨ r.section_ = "vscroll" then
    ParseError.invalid_key r.key
  else
    ParseError.invalid_section r.section_

/-- The state of the loop of `load` without its error log. -/
def LoadState.core {F : Type} (st : LoadState F) : CutsceneSettings F × GameStateCutscene F :=
  (st.cutscene_settings, st.gs)

/-- The result of `load` without its error log. -/
def LoadResult.outcome {F : Type} (res : LoadResult F) : Bool × GameStateCutscene F × Bool :=
  (res.ret, res.gs, res.background_reset)

/-- The log of `n` Scenes ticked in a row from position `k`, each returning
"finished". -/
def finishedCalls (k n : Nat) : List SceneCall :=
  (List.range n).map fun i => ⟨k + i, false⟩

/-- Whether a request concerns the background music. -/
def SndReq.isMusic : SndReq → Bool
  | SndReq.stopMusic => true
  | SndReq.loadMusic _ => true
  | _ => false

/-- The requests of a list that concern the background music, in order. -/
def musicRequests (l : List SndReq) : List SndReq :=
  l.filter SndReq.isMusic

/-- The settings after one record: a global key `caption_margins`,
`caption_background` or `vscroll_speed` sets its field, any other record leaves
the settings as they are. -/
def globalKey {F : Type} (env : Env F) (cs : CutsceneSettings F) (r : Record) :
    CutsceneSettings F :=
  if r.section_ = "" then
    if r.key = "caption_margins" then
      { cs with
        caption_margins_x := env.toPercent (env.popFirstString r.val).1
        caption_margins_y := env.toPercent (env.popFirstString (env.popFirstString r.val).2).1 }
    else if r.key = "caption_background" then
      { cs with caption_background := env.toRGBA r.val }
    else if r.key = "vscroll_speed" then
      { cs with vscroll_speed := env.toFloat r.val }
    else cs
  else cs

/-- The settings accumulated from the global keys of the records, in order,
starting from `cs`. -/
def globalSettings {F : Type} (env : Env F) (cs : CutsceneSettings F) (records : List Record) :
    CutsceneSettings F :=
  records.foldl (globalKey env) cs

/-- The settings held by each Scene of a queue, in order. -/
def settingsOf {F : Type} (scenes : List (Scene F)) : List (CutsceneSettings F) :=
  scenes.map fun s => s.cutscene_settings

/-- The number of Scenes in the queue once `load`, started on a fresh sequencer, has
handled the records (0 when the run is undefined). -/
def scenesAfter {F : Type} (env : Env F) (game_state : Nat) (records : List Record) : Nat :=
  match loadLoop env records
      { cutscene_settings := env.settings_ctor, gs := GameStateCutscene.ctor game_state,
        errors := [] } with
  | some st => st.gs.scenes.length
  | none => 0

/-- What an element of a vertical scroller shows: a text, an image, or nothing (a
separator). -/
def VScrollComponent.kind (v : VScrollComponent) : String :=
  if v.text.isSome then "text" else if v.image.isSome then "image" else "separator"

/-- A vertical scroller as `load` builds it: constructed with the settings of the
moment, then given its queue, and flagged or not as the last Scene. -/
def Scene.loaded {F : Type} (cs : CutsceneSettings F) (q : List SceneComponent)
    (is_last_scene : Bool) : Scene F :=
  { Scene.ctor cs CUTSCENE_VSCROLL with components := q, is_last_scene := is_last_scene }

/-- The invariant of the pause counters of a static scene: the counter is between
0 and the length of the pause, and no queued pause has a negative length. -/
def PauseInv {F : Type} (s : Scene F) : Prop :=
  s.cutscene_type = CUTSCENE_STATIC ∧ 0 ≤ s.frame_counter ∧
  s.frame_counter ≤ s.pause_frames ∧
  ∀ c ∈ s.components, c.type = "pause" → 0 ≤ c.x

/-- How one call may move `frame_counter` from scene `s` to scene `s2`: not at all;
by one, on a tick held by a pause, the queue staying as it is; or back to 0, a
pause of the queue being dequeued and giving `pause_frames` its length. -/
def CounterStep {F : Type} (s : Scene F) (t : Tick) (s2 : Scene F) : Prop :=
  s2.frame_counter = s.frame_counter ∨
  (s2.frame_counter = s.frame_counter + 1 ∧ s.done = false ∧ (s.input t).skip = false ∧
    s.pause_frames ≠ 0 ∧ s.frame_counter < s.pause_frames ∧ s2.components = s.components) ∨
  (s2.frame_counter = 0 ∧ ∃ pre p rest, s.components = pre ++ p :: rest ∧
    (∀ c ∈ pre, c.type ≠ "pause") ∧ p.type = "pause" ∧ s2.components = rest ∧
    s2.pause_frames = p.x)

instance (r : Record) : Decidable r.opensScene := by
  unfold Record.opensScene
  infer_instance

instance {F : Type} (s : Scene F) (t : Tick) : Decidable (s.quiet t) := by
  unfold Scene.quiet
  infer_instance

instance {F : Type} [DecidableEq F] (prev : String) (st : LoadState F) :
    Decidable (LoadInv prev st) := by
  unfold LoadInv
  infer_instance

/-! ## Sample data -/

/-- A sample environment: an 800 x 600 view, every image but `missing.png` loads as
64 x 100, every label is 20 high, and the scroll offset is `ticks * speed`. -/
def sampleEnv : Env Int :=
  { view_w := 800
    view_h := 600
    loadImage := fun path => if path = "missing.png" then none else some ⟨64, 100⟩
    createSprite := fun g => some ⟨g.w, g.h, ⟨0, 0⟩⟩
    label_h := fun _ => 20
    scroll_offset := fun speed ticks => ticks * speed
    snd_load := fun _ => 7
    caption_size_padded := fun _ _ => ⟨100, 30⟩
    resizeToScreen := fun _ _ _ => ⟨0, 0, 800, 600⟩
    alignCenter := fun r => r
    resizeImage := fun _ w h => some ⟨w, h⟩
    msg_get := fun m => m
    popFirstString := fun v => (v, "")
    popFirstInt := fun _ => (1, "")
    toPercent := fun _ => 0
    toFloat := fun _ => 1
    toRGBA := fun _ => ⟨0, 0, 0, 255⟩
    toDuration := fun _ => 60
    toInt := fun _ => 20
    settings_ctor := ⟨0, 0, ⟨0, 0, 0, 0⟩, 1⟩
    music_volume := 64 }

/-- The records of a file with one `scene` section holding an image, a pause and a
caption. -/
def sampleRecords : List Record :=
  [ ⟨true, "scene", "image", "bg.png,1"⟩,
    ⟨false, "scene", "pause", "1000ms"⟩,
    ⟨false, "scene", "caption", "Hello"⟩ ]

/-- A tick on which nothing is clicked, pressed or locked. -/
def idleTick : Tick :=
  { button_next := ⟨false, false⟩
    button_close := ⟨false, false⟩
    inpt := ⟨false, false, false, false, false, false⟩ }

/-- A tick on which only the cancel action is pressed, unlocked. -/
def cancelTick : Tick :=
  { idleTick with inpt := ⟨false, false, true, false, false, false⟩ }

/-- A tick on which only the advance control is clicked (either button). -/
def clickTick : Tick :=
  { idleTick with button_next := ⟨true, false⟩, button_close := ⟨true, false⟩ }

/-- A static scene in the middle of a pause of 5 ticks, with one caption queued. -/
def pausedScene : Scene Int :=
  { Scene.ctor sampleEnv.settings_ctor CUTSCENE_STATIC with
    pause_frames := 5
    components := [⟨"caption", "x", 0⟩] }

/-- A static scene already done, with a caption still queued and no pause set. -/
def doneScene : Scene Int :=
  { Scene.ctor sampleEnv.settings_ctor CUTSCENE_STATIC with
    done := true
    components := [⟨"caption", "x", 0⟩] }

/-- A static scene that has just dequeued a pause of 2 ticks, one caption left. -/
def waitingScene : Scene Int :=
  { Scene.ctor sampleEnv.settings_ctor CUTSCENE_STATIC with
    pause_frames := 2
    components := [⟨"caption", "Hello", 0⟩] }

/-- A vertical scroller, last of its file, with one image queued and a scroll
speed of 90 (in the units of `sampleEnv`, 90 px per tick). -/
def creditsScene : Scene Int :=
  { Scene.ctor { sampleEnv.settings_ctor with vscroll_speed := 90 } CUTSCENE_VSCROLL with
    is_last_scene := true
    components := [⟨"image", "logo.png", 0⟩] }

/-- A fresh vertical scroller whose queue is one separator of 20. -/
def separatorScene : Scene Int :=
  { Scene.ctor sampleEnv.settings_ctor CUTSCENE_VSCROLL with
    components := [⟨"separator", "", 20⟩] }

/-- A fresh vertical scroller whose queue is a separator of -20, then a text. -/
def negativeGapScene : Scene Int :=
  { Scene.ctor sampleEnv.settings_ctor CUTSCENE_VSCROLL with
    components := [⟨"separator", "", -20⟩, ⟨"text", "The End", 0⟩] }

/-- The records of a file with three `vscroll` sections of one text each. -/
def threeSections : List Record :=
  [ ⟨true, "vscroll", "text", "a"⟩,
    ⟨true, "vscroll", "text", "b"⟩,
    ⟨true, "vscroll", "text", "c"⟩ ]

/-- A tick on which the mouse button is held down on the advance control: the
control is in its pressed state, the primary button is pressed and locked by the
control, nothing is clicked. -/
def heldOnControlTick : Tick :=
  { button_next := ⟨false, true⟩
    button_close := ⟨false, true⟩
    inpt := ⟨true, false, false, true, false, false⟩ }

/-- A sequencer holding the three sample static scenes: one done, one with an
empty queue, one in the middle of a pause. -/
def sampleSequencer : GameStateCutscene Int :=
  { (GameStateCutscene.ctor 0 : GameStateCutscene Int) with
    music := "theme.ogg"
    scenes := [doneScene, { pausedScene with pause_frames := 0, components := [] }, pausedScene] }

/-- The records of a file that sets a scroll speed, opens a `vscroll` section, sets
another speed, then opens a `scene` section. -/
def speedRecords : List Record :=
  [ ⟨false, "", "vscroll_speed", "1"⟩,
    ⟨true, "vscroll", "text", "a"⟩,
    ⟨false, "", "caption_margins", "5,5"⟩,
    ⟨true, "scene", "caption", "b"⟩ ]

/-- A freshly constructed static scene whose queue is two sound effects. -/
def soundScene : Scene Int :=
  { Scene.ctor sampleEnv.settings_ctor CUTSCENE_STATIC with
    components := [⟨"soundfx", "boom.ogg", 0⟩, ⟨"soundfx", "ding.ogg", 0⟩] }

/-- A fresh vertical scroller whose queue is a separator as high as the largest
`int`, then a text. -/
def hugeGapScene : Scene Int :=
  { Scene.ctor sampleEnv.settings_ctor CUTSCENE_VSCROLL with
    components := [⟨"separator", "", 2147483647⟩, ⟨"text", "The End", 0⟩] }

/-- A fresh vertical scroller whose queue is a text, a separator of 20 and an
image. -/
def layoutScene : Scene Int :=
  { Scene.ctor sampleEnv.settings_ctor CUTSCENE_VSCROLL with
    components := [⟨"text", "Credits", 0⟩, ⟨"separator", "", 20⟩, ⟨"image", "logo.png", 0⟩] }

/-- The state of the loop of `load` before the first record, for a sequencer
constructed for slot 0. -/
def freshLoadState : LoadState Int :=
  { cutscene_settings := sampleEnv.settings_ctor, gs := GameStateCutscene.ctor 0, errors := [] }

/-- A fresh static scene with the queue `[image, pause 2, caption Hello]`. -/
def stagedScene : Scene Int :=
  { Scene.ctor sampleEnv.settings_ctor CUTSCENE_STATIC with
    components := [⟨"image", "bg.png", 1⟩, ⟨"pause", "", 2⟩, ⟨"caption", "Hello", 0⟩] }

/-- A tick on which the accept action is pressed, unlocked, while the advance
control is held down without a click. -/
def acceptOnHeldControlTick : Tick :=
  { button_next := ⟨false, true⟩
    button_close := ⟨false, true⟩
    inpt := ⟨false, true, false, false, false, false⟩ }

/-- A tick on which only the accept action is pressed, unlocked. -/
def acceptTick : Tick :=
  { idleTick with inpt := ⟨false, true, false, false, false, false⟩ }

/-! ## Theorems -/

/-! ### The loader -/

theorem backPush_of_ne_nil {F : Type} (scenes : List (Scene F)) (sc : SceneComponent)
    (h : scenes ≠ []) :
    ∃ L b, scenes = L ++ [b] ∧
      backPush scenes sc = some (L ++ [{ b with components := b.components ++ [sc] }]) := by
  rcases List.eq_nil_or_concat scenes with h0 | ⟨L, b, hL⟩
  · exact absurd h0 h
  · refine ⟨L, b, by simpa using hL, ?_⟩
    have hL2 : scenes = L ++ [b] := by simpa using hL
    subst hL2
    simp [backPush, List.getLast?_concat, List.dropLast_concat]

theorem pushIfTyped_of_ne_nil {F : Type} (scenes : List (Scene F)) (sc : SceneComponent)
    (h : scenes ≠ []) (hflag : ∀ s ∈ scenes, s.is_last_scene = false) :
    ∃ l, pushIfTyped scenes sc = some l ∧ l ≠ [] ∧ ∀ s ∈ l, s.is_last_scene = false := by
  unfold pushIfTyped
  by_cases ht : sc.type = ""
  · simp [ht]
    exact ⟨h, hflag⟩
  · obtain ⟨L, b, hL, hb⟩ := backPush_of_ne_nil scenes sc h
    simp only [ne_eq, ht, not_false_eq_true, if_true, hb]
    refine ⟨_, rfl, by simp, ?_⟩
    intro s hs
    subst hL
    rcases List.mem_append.mp hs with h1 | h1
    · exact hflag s (List.mem_append.mpr (Or.inl h1))
    · have hs2 : s = { b with components := b.components ++ [sc] } := by simpa using h1
      subst hs2
      exact hflag b (by simp)

theorem loadHeader_ne_nil_iff {F : Type} (cs : CutsceneSettings F) (scenes : List (Scene F))
    (r : Record) :
    loadHeader cs scenes r ≠ [] ↔ scenes ≠ [] ∨ r.opensScene := by
  unfold loadHeader Record.opensScene
  by_cases hn : r.new_section = true
  · by_cases h1 : r.section_ = "scene"
    · simp [hn, h1]
    · by_cases h2 : r.section_ = "vscroll"
      · rcases List.eq_nil_or_concat scenes with h0 | ⟨L, b, hL⟩
        · subst h0
          simp [hn, h2]
        · have hL2 : scenes = L ++ [b] := by simpa using hL
          subst hL2
          by_cases hb : b.cutscene_type = CUTSCENE_VSCROLL <;>
            simp [hn, h2, hb, List.getLast?_concat]
      · simp [hn, h1, h2]
  · simp [hn]

theorem loadHeader_flags {F : Type} (cs : CutsceneSettings F) (scenes : List (Scene F))
    (r : Record) (hflag : ∀ s ∈ scenes, s.is_last_scene = false) :
    ∀ s ∈ loadHeader cs scenes r, s.is_last_scene = false := by
  have hpush : ∀ ty : Int, ∀ s ∈ scenes ++ [Scene.ctor cs ty], s.is_last_scene = false := by
    intro ty s hs
    rcases List.mem_append.mp hs with h1 | h1
    · exact hflag s h1
    · have hs2 : s = Scene.ctor cs ty := by simpa using h1
      subst hs2
      rfl
  unfold loadHeader
  split
  · split
    · exact hpush _
    · split
      · split
        · exact hpush _
        · split
          · exact hpush _
          · exact hflag
      · exact hflag
  · exact hflag

theorem loadStep_inv {F : Type} (env : Env F) (prev : String) (st : LoadState F) (r : Record)
    (hr : r.new_section = true ∨ r.section_ = prev ∨
      (r.section_ ≠ "scene" ∧ r.section_ ≠ "vscroll")) (hinv : LoadInv prev st) :
    ∃ st2, loadStep env st r = some st2 ∧ LoadInv r.section_ st2 ∧
      (st2.gs.scenes ≠ [] ↔ st.gs.scenes ≠ [] ∨ r.opensScene) := by
  have hne := loadHeader_ne_nil_iff st.cutscene_settings st.gs.scenes r
  have hfl := loadHeader_flags st.cutscene_settings st.gs.scenes r hinv.2
  have hsec : (r.section_ = "scene" ∨ r.section_ = "vscroll") →
      loadHeader st.cutscene_settings st.gs.scenes r ≠ [] := by
    intro hs
    rcases hr with hn | hp | ⟨hp1, hp2⟩
    · exact hne.mpr (Or.inr ⟨hn, hs⟩)
    · exact hne.mpr (Or.inl (hinv.1 (hp ▸ hs)))
    · rcases hs with hs | hs
      · exact absurd hs hp1
      · exact absurd hs hp2
  unfold loadStep
  by_cases h0 : r.section_ = ""
  · simp only [h0, if_true]
    split_ifs <;>
      exact ⟨_, rfl, ⟨fun hs => absurd hs (by decide), hfl⟩, hne⟩
  · by_cases h1 : r.section_ = "scene"
    · obtain ⟨l, hl, hl2, hl3⟩ := pushIfTyped_of_ne_nil _ (sceneKey env r).1 (hsec (Or.inl h1)) hfl
      simp only [h0, h1, if_true, if_false, hl, Option.map_some']
      have hpos : st.gs.scenes ≠ [] ∨ r.opensScene := hne.mp (hsec (Or.inl h1))
      exact ⟨_, rfl, ⟨fun _ => hl2, hl3⟩, ⟨fun _ => hpos, fun _ => hl2⟩⟩
    · by_cases h2 : r.section_ = "vscroll"
      · obtain ⟨l, hl, hl2, hl3⟩ :=
          pushIfTyped_of_ne_nil _ (vscrollKey env r).1 (hsec (Or.inr h2)) hfl
        have hpos : st.gs.scenes ≠ [] ∨ r.opensScene := hne.mp (hsec (Or.inr h2))
        have h2s : ¬ ("vscroll" = "scene") := by decide
        have h20 : ¬ ("vscroll" = "") := by decide
        simp only [h2, h2s, h20, if_true, if_false, hl, Option.map_some']
        exact ⟨_, rfl, ⟨fun _ => hl2, hl3⟩, ⟨fun _ => hpos, fun _ => hl2⟩⟩
      · simp only [h0, h1, h2, if_false]
        exact ⟨_, rfl, ⟨fun hs => absurd hs (by simp [h1, h2]), hfl⟩, hne⟩

theorem loadLoop_inv {F : Type} (env : Env F) (records : List Record) :
    ∀ (prev : String) (st : LoadState F), streamOk prev records = true → LoadInv prev st →
      ∃ st2, loadLoop env records st = some st2 ∧
        (∀ s ∈ st2.gs.scenes, s.is_last_scene = false) ∧
        (st2.gs.scenes ≠ [] ↔ st.gs.scenes ≠ [] ∨ ∃ r ∈ records, r.opensScene) := by
  induction records with
  | nil =>
    intro prev st _ hinv
    exact ⟨st, rfl, hinv.2, by simp⟩
  | cons r rs ih =>
    intro prev st hok hinv
    simp only [streamOk, Bool.and_eq_true, Bool.or_eq_true, beq_iff_eq, bne_iff_ne, ne_eq,
      or_assoc] at hok
    obtain ⟨st1, h1, hinv1, hiff1⟩ := loadStep_inv env prev st r hok.1 hinv
    obtain ⟨st2, h2, hfl2, hiff2⟩ := ih r.section_ st1 hok.2 hinv1
    refine ⟨st2, by simp [loadLoop, h1, h2], hfl2, ?_⟩
    rw [hiff2, hiff1]
    simp only [List.mem_cons, exists_eq_or_imp]
    tauto

/-- C1: for the records of a file that opened (a stream in which every record of a
`scene` or `vscroll` section carries the header or continues the section of the
record before it), `load` on a freshly constructed sequencer returns; it returns true exactly when some record opened a `scene` or
`vscroll` section, that is when a Scene was created; when it returns true the
queue is `init ++ [last]` with `last` flagged `is_last_scene` and no scene of
`init` flagged; when it returns false the queue is empty. -/
theorem load_true_iff_scene_created {F : Type} (env : Env F) (game_state : Nat)
    (records : List Record) (hok : streamOk "" records = true) :
    ∃ res, GameStateCutscene.load env (GameStateCutscene.ctor game_state) (some records)
        = some res ∧
      (res.ret = true ↔ ∃ r ∈ records, r.opensScene) ∧
      (res.ret = true → ∃ init last, res.gs.scenes = init ++ [last] ∧
        last.is_last_scene = true ∧ ∀ s ∈ init, s.is_last_scene = false) ∧
      (res.ret = false → res.gs.scenes = []) := by
  have hinv : LoadInv ""
      ({ cutscene_settings := env.settings_ctor, gs := GameStateCutscene.ctor game_state,
         errors := [] } : LoadState F) := by
    refine ⟨fun h => absurd h (by decide), ?_⟩
    intro s hs
    simp [GameStateCutscene.ctor] at hs
  obtain ⟨st, hst, hfl, hiff⟩ := loadLoop_inv env records "" _ hok hinv
  have hiff2 : st.gs.scenes ≠ [] ↔ ∃ r ∈ records, r.opensScene := by
    rw [hiff]
    simp [GameStateCutscene.ctor]
  simp only [GameStateCutscene.load, hst, Option.map_some']
  rcases List.eq_nil_or_concat st.gs.scenes with h0 | ⟨L, b, hL⟩
  · refine ⟨_, rfl, ?_⟩
    have hnone : ¬ ∃ r ∈ records, r.opensScene := fun h => (hiff2.mpr h) h0
    simp [h0, hnone]
  · have hL2 : st.gs.scenes = L ++ [b] := by simpa using hL
    have hne : st.gs.scenes ≠ [] := by simp [hL2]
    refine ⟨_, rfl, ?_⟩
    have hemp : st.gs.scenes.isEmpty = false := by simp [hL2]
    simp only [hemp, Bool.false_eq_true, if_false, true_iff, forall_true_left]
    refine ⟨hiff2.mp hne, ⟨L, { b with is_last_scene := true }, ?_, rfl, ?_⟩, by simp⟩
    · simp [flagLast, hL2, List.getLast?_concat, List.dropLast_concat]
    · intro s hs
      exact hfl s (by rw [hL2]; exact List.mem_append.mpr (Or.inl hs))

/-- Witness of C1 on the records of a one-scene file. -/
theorem load_true_iff_scene_created_witness :
    streamOk "" sampleRecords = true ∧
    ∃ res, GameStateCutscene.load sampleEnv (GameStateCutscene.ctor 0) (some sampleRecords)
        = some res ∧
      (res.ret = true ↔ ∃ r ∈ sampleRecords, r.opensScene) ∧
      (res.ret = true → ∃ init last, res.gs.scenes = init ++ [last] ∧
        last.is_last_scene = true ∧ ∀ s ∈ init, s.is_last_scene = false) ∧
      (res.ret = false → res.gs.scenes = []) :=
  ⟨by decide, load_true_iff_scene_created sampleEnv 0 sampleRecords (by decide)⟩

/-! ### One call of `Scene::logic` -/

theorem logic_done {F : Type} (env : Env F) (s : Scene F) (t : Tick) (h : s.done = true) :
    Scene.logic env s t = { ret := false, scene := s, inpt := t.inpt, snd := [] } := by
  simp [Scene.logic, h]

theorem logic_static {F : Type} (env : Env F) (s : Scene F) (t : Tick)
    (hty : s.cutscene_type = CUTSCENE_STATIC) (hdone : s.done = false) :
    Scene.logic env s t = Scene.logicStatic env (s.enter t) (s.input t) := by
  unfold Scene.logic
  rw [if_neg (by simp [hdone]), if_pos hty]

theorem logic_vscroll {F : Type} (env : Env F) (s : Scene F) (t : Tick)
    (hty : s.cutscene_type = CUTSCENE_VSCROLL) (hdone : s.done = false) :
    Scene.logic env s t = Scene.logicVScroll env (s.enter t) (s.input t) := by
  have hne : ¬ (s.cutscene_type = CUTSCENE_STATIC) := by rw [hty]; decide
  unfold Scene.logic
  rw [if_neg (by simp [hdone]), if_neg hne, if_pos hty]

theorem logicStatic_paused {F : Type} (env : Env F) (s1 : Scene F) (i : InputRead)
    (hskip : i.skip = false) (hpf : s1.pause_frames ≠ 0)
    (hfc : s1.frame_counter < s1.pause_frames) :
    Scene.logicStatic env s1 i =
      { ret := true, scene := { s1 with frame_counter := s1.frame_counter + 1 },
        inpt := i.inpt, snd := [] } := by
  unfold Scene.logicStatic
  rw [if_pos (by simp [hskip, hpf, hfc])]

theorem logicStatic_free {F : Type} (env : Env F) (s1 : Scene F) (i : InputRead)
    (hfree : i.skip = true ∨ s1.pause_frames = 0 ∨ s1.pause_frames ≤ s1.frame_counter) :
    Scene.logicStatic env s1 i =
      (match (Scene.drain env s1.components s1 []).1.components with
       | [] => { ret := false, scene := (Scene.drain env s1.components s1 []).1,
                 inpt := i.inpt, snd := (Scene.drain env s1.components s1 []).2 }
       | p :: rest =>
         { ret := true
           scene := Scene.refreshWidgets env
             { (Scene.drain env s1.components s1 []).1 with
               frame_counter := 0, pause_frames := p.x, components := rest }
           inpt := i.inpt
           snd := (Scene.drain env s1.components s1 []).2 }) := by
  unfold Scene.logicStatic
  rw [if_neg]
  intro h
  simp only [Bool.and_eq_true, Bool.not_eq_true', decide_eq_true_eq, ne_eq] at h
  rcases hfree with h1 | h1 | h1
  · rw [h.1.1] at h1; exact Bool.false_ne_true h1
  · exact h.1.2 h1
  · exact absurd h.2 (not_lt.mpr h1)

theorem lastCaption_cons (c : SceneComponent) (pre : List SceneComponent) (old : String) :
    lastCaption (c :: pre) old = lastCaption pre (if c.type = "caption" then c.s else old) := by
  unfold lastCaption
  by_cases h : c.type = "caption"
  · simp only [List.filter_cons, h, decide_True, if_true, List.getLast?_cons]
    cases (List.filter (fun c => decide (c.type = "caption")) pre).getLast? <;> rfl
  · simp [List.filter_cons, h]

theorem lastImageScale_cons (c : SceneComponent) (pre : List SceneComponent) (old : Int) :
    lastImageScale (c :: pre) old = lastImageScale pre (if c.type = "image" then c.x else old) := by
  unfold lastImageScale
  by_cases h : c.type = "image"
  · simp only [List.filter_cons, h, decide_True, if_true, List.getLast?_cons]
    cases (List.filter (fun c => decide (c.type = "image")) pre).getLast? <;> rfl
  · simp [List.filter_cons, h]

/-- What a directive other than a pause leaves untouched, and what it sets. -/
theorem applyComponent_fields {F : Type} (env : Env F) (s : Scene F) (c : SceneComponent) :
    (Scene.applyComponent env s c).1.caption = (if c.type = "caption" then c.s else s.caption) ∧
    (Scene.applyComponent env s c).1.art_scale_type
      = (if c.type = "image" then c.x else s.art_scale_type) ∧
    (Scene.applyComponent env s c).1.frame_counter = s.frame_counter ∧
    (Scene.applyComponent env s c).1.pause_frames = s.pause_frames ∧
    (Scene.applyComponent env s c).1.done = s.done ∧
    (Scene.applyComponent env s c).1.cutscene_type = s.cutscene_type ∧
    (Scene.applyComponent env s c).1.is_last_scene = s.is_last_scene := by
  unfold Scene.applyComponent
  by_cases h1 : c.type = "caption"
  · have h2 : ¬ (c.type = "image") := by rw [h1]; decide
    simp [h1]
  · by_cases h2 : c.type = "image"
    · rw [if_neg h1, if_pos h2]
      split
      · split <;> simp [h1, h2]
      · simp [h1, h2]
    · by_cases h3 : c.type = "soundfx"
      · simp [h1, h2, h3]
      · simp [h1, h2, h3]

/-- The loop of lines 143-176 on a queue `pre ++ rest` whose part `pre` holds no
pause and whose part `rest` is empty or starts with one. -/
theorem drain_split {F : Type} (env : Env F) (rest : List SceneComponent)
    (hrest : ∀ p ∈ rest.head?, p.type = "pause") :
    ∀ (pre : List SceneComponent) (s : Scene F) (out : List SndReq),
      (∀ c ∈ pre, c.type ≠ "pause") →
      (Scene.drain env (pre ++ rest) s out).1.components = rest ∧
      (Scene.drain env (pre ++ rest) s out).1.caption = lastCaption pre s.caption ∧
      (Scene.drain env (pre ++ rest) s out).1.art_scale_type
        = lastImageScale pre s.art_scale_type ∧
      (Scene.drain env (pre ++ rest) s out).1.frame_counter = s.frame_counter ∧
      (Scene.drain env (pre ++ rest) s out).1.pause_frames = s.pause_frames ∧
      (Scene.drain env (pre ++ rest) s out).1.done = s.done ∧
      (Scene.drain env (pre ++ rest) s out).1.cutscene_type = s.cutscene_type ∧
      (Scene.drain env (pre ++ rest) s out).1.is_last_scene = s.is_last_scene := by
  intro pre
  induction pre with
  | nil =>
    intro s out _
    cases rest with
    | nil => simp [Scene.drain, lastCaption, lastImageScale]
    | cons p q =>
      have hp : p.type = "pause" := hrest p (by simp)
      simp [Scene.drain, hp, lastCaption, lastImageScale]
  | cons c pre ih =>
    intro s out hpre
    have hc : c.type ≠ "pause" := hpre c (by simp)
    have hpre2 : ∀ d ∈ pre, d.type ≠ "pause" := fun d hd => hpre d (by simp [hd])
    obtain ⟨a1, a2, a3, a4, a5, a6, a7⟩ := applyComponent_fields env s c
    have h := ih (Scene.applyComponent env s c).1 (out ++ (Scene.applyComponent env s c).2) hpre2
    simp only [List.cons_append, Scene.drain, hc, if_false]
    rw [lastCaption_cons, lastImageScale_cons, ← a1, ← a2, ← a3, ← a4, ← a5, ← a6, ← a7]
    exact h

theorem refreshCaption_fields {F : Type} (env : Env F) (s : Scene F) :
    (Scene.refreshCaption env s).components = s.components ∧
    (Scene.refreshCaption env s).caption = s.caption ∧
    (Scene.refreshCaption env s).art_scale_type = s.art_scale_type ∧
    (Scene.refreshCaption env s).frame_counter = s.frame_counter ∧
    (Scene.refreshCaption env s).pause_frames = s.pause_frames ∧
    (Scene.refreshCaption env s).done = s.done ∧
    (Scene.refreshCaption env s).cutscene_type = s.cutscene_type ∧
    (Scene.refreshCaption env s).is_last_scene = s.is_last_scene := by
  unfold Scene.refreshCaption
  split <;> simp

theorem refreshArt_fields {F : Type} (env : Env F) (s : Scene F) :
    (Scene.refreshArt env s).components = s.components ∧
    (Scene.refreshArt env s).caption = s.caption ∧
    (Scene.refreshArt env s).art_scale_type = s.art_scale_type ∧
    (Scene.refreshArt env s).frame_counter = s.frame_counter ∧
    (Scene.refreshArt env s).pause_frames = s.pause_frames ∧
    (Scene.refreshArt env s).done = s.done ∧
    (Scene.refreshArt env s).cutscene_type = s.cutscene_type ∧
    (Scene.refreshArt env s).is_last_scene = s.is_last_scene := by
  unfold Scene.refreshArt
  split
  · split <;> simp
  · simp

/-- Fields that `refreshWidgets` never writes. -/
theorem refreshWidgets_fields {F : Type} (env : Env F) (s : Scene F) :
    (Scene.refreshWidgets env s).components = s.components ∧
    (Scene.refreshWidgets env s).caption = s.caption ∧
    (Scene.refreshWidgets env s).art_scale_type = s.art_scale_type ∧
    (Scene.refreshWidgets env s).frame_counter = s.frame_counter ∧
    (Scene.refreshWidgets env s).pause_frames = s.pause_frames ∧
    (Scene.refreshWidgets env s).done = s.done ∧
    (Scene.refreshWidgets env s).cutscene_type = s.cutscene_type ∧
    (Scene.refreshWidgets env s).is_last_scene = s.is_last_scene := by
  unfold Scene.refreshWidgets
  split
  · obtain ⟨a1, a2, a3, a4, a5, a6, a7, a8⟩ := refreshArt_fields env (Scene.refreshCaption env s)
    obtain ⟨b1, b2, b3, b4, b5, b6, b7, b8⟩ := refreshCaption_fields env s
    exact ⟨a1.trans b1, a2.trans b2, a3.trans b3, a4.trans b4, a5.trans b5, a6.trans b6,
      a7.trans b7, a8.trans b8⟩
  · split <;> simp

/-! ### Cancel, skip and pauses of a static scene -/

/-- C2, as stated, fails: a static scene that is not done and is in an active
pause (`frame_counter = 0 < pause_frames = 5`), called on a tick where cancel is
pressed and taken, returns "running" (true) from that call; `done` is set and
only the call after returns "finished". -/
theorem cancel_mid_pause_returns_running :
    pausedScene.cutscene_type = CUTSCENE_STATIC ∧ pausedScene.done = false ∧
    pausedScene.pause_frames ≠ 0 ∧ pausedScene.frame_counter < pausedScene.pause_frames ∧
    cancelTick.inpt.pressing_CANCEL = true ∧
    (Scene.logic sampleEnv pausedScene cancelTick).ret = true ∧
    (Scene.logic sampleEnv pausedScene cancelTick).scene.done = true := by
  decide

/-- C2, amended: for a static scene that is not done and is in an active pause, a
call on a tick where cancel is taken (pressed, unlocked, advance control not held
down) and no skip is triggered returns "running", counts the tick and sets
`done`; the next call returns "finished" whatever its input. -/
theorem cancel_mid_pause_finishes_next_call {F : Type} (env : Env F) (s : Scene F) (t : Tick)
    (hty : s.cutscene_type = CUTSCENE_STATIC) (hdone : s.done = false)
    (hpf : s.pause_frames ≠ 0) (hfc : s.frame_counter < s.pause_frames)
    (hcancel : (s.input t).done = true) (hskip : (s.input t).skip = false) :
    (Scene.logic env s t).ret = true ∧
    (Scene.logic env s t).scene.done = true ∧
    (Scene.logic env s t).scene.frame_counter = s.frame_counter + 1 ∧
    ∀ t2 : Tick, (Scene.logic env (Scene.logic env s t).scene t2).ret = false := by
  have h := logic_static env s t hty hdone
  rw [logicStatic_paused env (s.enter t) (s.input t) hskip hpf hfc] at h
  have hd : (Scene.logic env s t).scene.done = true := by
    rw [h]; exact hcancel
  refine ⟨by rw [h], hd, by rw [h]; rfl, ?_⟩
  intro t2
  rw [logic_done env _ t2 hd]

/-- Witness of the amended C2 on the sample paused scene and a cancel tick. -/
theorem cancel_mid_pause_finishes_next_call_witness :
    (Scene.logic sampleEnv pausedScene cancelTick).ret = true ∧
    (Scene.logic sampleEnv pausedScene cancelTick).scene.done = true ∧
    (Scene.logic sampleEnv pausedScene cancelTick).scene.frame_counter
      = pausedScene.frame_counter + 1 ∧
    ∀ t2 : Tick,
      (Scene.logic sampleEnv (Scene.logic sampleEnv pausedScene cancelTick).scene t2).ret
        = false :=
  cancel_mid_pause_finishes_next_call sampleEnv pausedScene cancelTick
    (by decide) (by decide) (by decide) (by decide) (by decide) (by decide)

/-- C5, as stated, fails in three ways, each on a static scene with
`pause_frames > frame_counter`: a click on the advance control skips the pause
and the drained queue ends the scene; a scene already done returns "finished";
and with `pause_frames = 0` (and a negative counter) no pause is active. -/
theorem paused_scene_can_finish :
    (pausedScene.frame_counter < pausedScene.pause_frames ∧
      (Scene.logic sampleEnv pausedScene clickTick).ret = false) ∧
    (({ pausedScene with done := true } : Scene Int).frame_counter
        < ({ pausedScene with done := true } : Scene Int).pause_frames ∧
      (Scene.logic sampleEnv { pausedScene with done := true } idleTick).ret = false) ∧
    (({ pausedScene with frame_counter := -1, pause_frames := 0 } : Scene Int).frame_counter
        < ({ pausedScene with frame_counter := -1, pause_frames := 0 } : Scene Int).pause_frames ∧
      (Scene.logic sampleEnv { pausedScene with frame_counter := -1, pause_frames := 0 }
        idleTick).ret = false) := by
  decide

/-- C5, amended: for a static scene that is not done, with `pause_frames ≠ 0` and
`pause_frames > frame_counter` at the start of a tick, and for every input of that
tick that triggers no skip, `logic` returns "running" (true). -/
theorem paused_scene_keeps_running {F : Type} (env : Env F) (s : Scene F) (t : Tick)
    (hty : s.cutscene_type = CUTSCENE_STATIC) (hdone : s.done = false)
    (hpf : s.pause_frames ≠ 0) (hfc : s.pause_frames > s.frame_counter)
    (hskip : (s.input t).skip = false) :
    (Scene.logic env s t).ret = true := by
  rw [logic_static env s t hty hdone,
    logicStatic_paused env (s.enter t) (s.input t) hskip hpf hfc]

/-- Witness of the amended C5 on the sample paused scene and an idle tick. -/
theorem paused_scene_keeps_running_witness :
    (Scene.logic sampleEnv pausedScene idleTick).ret = true :=
  paused_scene_keeps_running sampleEnv pausedScene idleTick
    (by decide) (by decide) (by decide) (by decide) (by decide)

/-- The flag `skip` after lines 114-133: a click on the advance control, or, with
the control not held down, a press of the primary button or of accept that is
unlocked (or any such press in a vertical scroller). -/
theorem input_skip_iff {F : Type} (s : Scene F) (t : Tick) :
    (s.input t).skip = true ↔
      (t.button s.chooseAdvance).checkClick = true ∨
      ((t.button s.chooseAdvance).pressed = false ∧
        ((t.inpt.pressing_MAIN1 = true ∧
            (t.inpt.lock_MAIN1 = false ∨ s.cutscene_type = CUTSCENE_VSCROLL)) ∨
         (t.inpt.pressing_ACCEPT = true ∧
            (t.inpt.lock_ACCEPT = false ∨ s.cutscene_type = CUTSCENE_VSCROLL)))) := by
  unfold Scene.input Scene.readInput
  cases hp : (t.button s.chooseAdvance).pressed <;>
  cases hc : (t.button s.chooseAdvance).checkClick <;>
  cases hm : t.inpt.pressing_MAIN1 <;> cases ha : t.inpt.pressing_ACCEPT <;>
  cases hlm : t.inpt.lock_MAIN1 <;> cases hla : t.inpt.lock_ACCEPT <;>
  by_cases hv : s.cutscene_type = CUTSCENE_VSCROLL <;>
  simp [hv, hp, hc, hm, ha, hlm, hla]

/-- A static scene whose queue is empty returns "finished" (false) from a call on
which the skip flag of lines 114-128 is set, whatever `pause_frames` and
`frame_counter` are. -/
theorem logic_static_empty_skip {F : Type} (env : Env F) (s : Scene F) (t : Tick)
    (hty : s.cutscene_type = CUTSCENE_STATIC) (hq : s.components = [])
    (hskip : (s.input t).skip = true) :
    (Scene.logic env s t).ret = false := by
  cases hdone : s.done with
  | true => rw [logic_done env s t hdone]
  | false =>
    rw [logic_static env s t hty hdone, logicStatic_free env _ _ (Or.inl hskip)]
    have hq2 : (s.enter t).components = [] := hq
    rw [hq2]
    simp [Scene.drain]

/-- C8, as stated, fails: on a static scene with an empty queue in the middle of a
pause, a tick on which the accept action is pressed and unlocked while the
advance control is held down (pressed, not clicked) sets no skip (line 120 reads
the keys only when the control is not pressed): the call counts the tick and
returns "running". -/
theorem accept_on_held_control_keeps_pause :
    ({ pausedScene with components := [] } : Scene Int).cutscene_type = CUTSCENE_STATIC ∧
    ({ pausedScene with components := [] } : Scene Int).components = [] ∧
    acceptOnHeldControlTick.inpt.pressing_ACCEPT = true ∧
    acceptOnHeldControlTick.inpt.lock_ACCEPT = false ∧
    (Scene.logic sampleEnv { pausedScene with components := [] } acceptOnHeldControlTick).ret
      = true ∧
    (Scene.logic sampleEnv { pausedScene with components := []
      } acceptOnHeldControlTick).scene.frame_counter = 1 := by
  decide

/-- C8, amended: a static scene whose queue is empty returns "finished" (false)
from a call on a tick on which the advance control is clicked, or on which the
advance control is not held down and the primary pointer button or the accept
action is pressed and unlocked, whatever `pause_frames` and `frame_counter`
are. -/
theorem skip_on_empty_queue_finishes {F : Type} (env : Env F) (s : Scene F) (t : Tick)
    (hty : s.cutscene_type = CUTSCENE_STATIC) (hq : s.components = [])
    (hskip : (t.button s.chooseAdvance).checkClick = true ∨
      ((t.button s.chooseAdvance).pressed = false ∧
        ((t.inpt.pressing_MAIN1 = true ∧ t.inpt.lock_MAIN1 = false) ∨
         (t.inpt.pressing_ACCEPT = true ∧ t.inpt.lock_ACCEPT = false)))) :
    (Scene.logic env s t).ret = false := by
  apply logic_static_empty_skip env s t hty hq
  rw [input_skip_iff]
  rcases hskip with h | ⟨hp, hm | ha⟩
  · exact Or.inl h
  · exact Or.inr ⟨hp, Or.inl ⟨hm.1, Or.inl hm.2⟩⟩
  · exact Or.inr ⟨hp, Or.inr ⟨ha.1, Or.inl ha.2⟩⟩

/-- Witness of the amended C8: an empty static scene in the middle of a pause, the
accept action pressed and unlocked with the advance control not held down. -/
theorem skip_on_empty_queue_finishes_witness :
    (Scene.logic sampleEnv { pausedScene with components := [] } acceptTick).ret = false :=
  skip_on_empty_queue_finishes sampleEnv { pausedScene with components := [] } acceptTick
    (by decide) (by decide) (Or.inr ⟨by decide, Or.inr ⟨by decide, by decide⟩⟩)

/-- A call on a static scene that is not done and not held by a pause: the outcome
in terms of what the loop of lines 143-176 leaves. -/
theorem logic_static_free {F : Type} (env : Env F) (s : Scene F) (t : Tick)
    (hty : s.cutscene_type = CUTSCENE_STATIC) (hdone : s.done = false)
    (hfree : (s.input t).skip = true ∨ s.pause_frames = 0 ∨ s.pause_frames ≤ s.frame_counter) :
    ((Scene.drain env s.components (s.enter t) []).1.components = [] →
      (Scene.logic env s t).ret = false ∧
      (Scene.logic env s t).scene = (Scene.drain env s.components (s.enter t) []).1) ∧
    (∀ p rest, (Scene.drain env s.components (s.enter t) []).1.components = p :: rest →
      (Scene.logic env s t).ret = true ∧
      (Scene.logic env s t).scene = Scene.refreshWidgets env
        { (Scene.drain env s.components (s.enter t) []).1 with
          frame_counter := 0, pause_frames := p.x, components := rest }) := by
  rw [logic_static env s t hty hdone, logicStatic_free env (s.enter t) (s.input t) hfree]
  have hc : (s.enter t).components = s.components := rfl
  rw [hc]
  constructor
  · intro h
    rw [h]
    exact ⟨rfl, rfl⟩
  · intro p rest h
    rw [h]
    exact ⟨rfl, rfl⟩

/-- A call on a static scene that is not done and not held by a pause, with the
queue split at its first pause: what the call leaves. -/
theorem logic_static_split {F : Type} (env : Env F) (s : Scene F) (t : Tick)
    (pre rest : List SceneComponent)
    (hty : s.cutscene_type = CUTSCENE_STATIC) (hdone : s.done = false)
    (hfree : (s.input t).skip = true ∨ s.pause_frames = 0 ∨ s.pause_frames ≤ s.frame_counter)
    (hq : s.components = pre ++ rest)
    (hpre : ∀ c ∈ pre, c.type ≠ "pause") (hrest : ∀ p ∈ rest.head?, p.type = "pause") :
    (Scene.logic env s t).scene.caption = lastCaption pre s.caption ∧
    (Scene.logic env s t).scene.art_scale_type = lastImageScale pre s.art_scale_type ∧
    (Scene.logic env s t).scene.done = (s.input t).done ∧
    (Scene.logic env s t).scene.cutscene_type = s.cutscene_type ∧
    (Scene.logic env s t).scene.is_last_scene = s.is_last_scene ∧
    (rest = [] →
      (Scene.logic env s t).scene.components = [] ∧ (Scene.logic env s t).ret = false) ∧
    (∀ p rest2, rest = p :: rest2 →
      (Scene.logic env s t).scene.components = rest2 ∧
      (Scene.logic env s t).scene.frame_counter = 0 ∧
      (Scene.logic env s t).scene.pause_frames = p.x ∧
      (Scene.logic env s t).ret = true) := by
  obtain ⟨hnil, hcons⟩ := logic_static_free env s t hty hdone hfree
  obtain ⟨d1, d2, d3, _, _, d6, d7, d8⟩ := drain_split env rest hrest pre (s.enter t) [] hpre
  rw [← hq] at d1 d2 d3 d6 d7 d8
  cases rest with
  | nil =>
    obtain ⟨hr, hs⟩ := hnil d1
    rw [hs]
    refine ⟨d2, d3, d6, d7, d8, fun _ => ⟨d1, hr⟩, ?_⟩
    intro p rest2 h
    cases h
  | cons p0 rest0 =>
    obtain ⟨hr, hs⟩ := hcons p0 rest0 d1
    obtain ⟨r1, r2, r3, r4, r5, r6, r7, r8⟩ := refreshWidgets_fields env
      { (Scene.drain env s.components (s.enter t) []).1 with
        frame_counter := 0, pause_frames := p0.x, components := rest0 }
    rw [hs]
    refine ⟨r2.trans d2, r3.trans d3, r6.trans d6, r7.trans d7, r8.trans d8, ?_, ?_⟩
    · intro h
      cases h
    · intro p rest2 h
      cases h
      exact ⟨r1, r4, r5, hr⟩

/-- C7, as stated, fails on a scene that is already done: no pause holds the tick
(`pause_frames = 0`), the queue is `[caption x] ++ []`, yet the call applies
nothing: the caption stays empty instead of becoming `x`, and the queue is not
emptied. -/
theorem done_scene_applies_nothing :
    doneScene.cutscene_type = CUTSCENE_STATIC ∧ doneScene.pause_frames = 0 ∧
    doneScene.components = [⟨"caption", "x", 0⟩] ++ [] ∧
    (Scene.logic sampleEnv doneScene idleTick).scene.caption
      ≠ lastCaption [⟨"caption", "x", 0⟩] doneScene.caption ∧
    (Scene.logic sampleEnv doneScene idleTick).scene.components ≠ [] := by
  decide

/-- C7, amended: for a static scene that is not done, on a tick not held by a pause
(skip is set, or `pause_frames = 0`, or `frame_counter >= pause_frames`), with
queue `pre ++ rest` where `pre` holds no pause and `rest` is empty or starts with
one: after the call the caption is the payload of the last caption of `pre`
(unchanged without one) and `art_scale_type` is the `x` of the last image of `pre`
(unchanged without one); if `rest` is empty the queue ends empty and the call
returns "finished"; if `rest = p :: rest2` the queue ends as `rest2`,
`frame_counter = 0`, `pause_frames = p.x` and the call returns "running". -/
theorem static_drain_until_pause {F : Type} (env : Env F) (s : Scene F) (t : Tick)
    (pre rest : List SceneComponent)
    (hty : s.cutscene_type = CUTSCENE_STATIC) (hdone : s.done = false)
    (hfree : (s.input t).skip = true ∨ s.pause_frames = 0 ∨ s.frame_counter ≥ s.pause_frames)
    (hq : s.components = pre ++ rest)
    (hpre : ∀ c ∈ pre, c.type ≠ "pause") (hrest : ∀ p ∈ rest.head?, p.type = "pause") :
    (Scene.logic env s t).scene.caption = lastCaption pre s.caption ∧
    (Scene.logic env s t).scene.art_scale_type = lastImageScale pre s.art_scale_type ∧
    (rest = [] →
      (Scene.logic env s t).scene.components = [] ∧ (Scene.logic env s t).ret = false) ∧
    (∀ p rest2, rest = p :: rest2 →
      (Scene.logic env s t).scene.components = rest2 ∧
      (Scene.logic env s t).scene.frame_counter = 0 ∧
      (Scene.logic env s t).scene.pause_frames = p.x ∧
      (Scene.logic env s t).ret = true) := by
  obtain ⟨h1, h2, _, _, _, h6, h7⟩ :=
    logic_static_split env s t pre rest hty hdone hfree hq hpre hrest
  exact ⟨h1, h2, h6, h7⟩

/-- Witness of the amended C7: a fresh static scene with the queue
`[caption a, image (scale 2), caption b] ++ [pause 60, caption c]`, idle tick. -/
theorem static_drain_until_pause_witness :
    (Scene.logic sampleEnv
      { Scene.ctor sampleEnv.settings_ctor CUTSCENE_STATIC with
        components := [⟨"caption", "a", 0⟩, ⟨"image", "bg.png", 2⟩, ⟨"caption", "b", 0⟩]
          ++ [⟨"pause", "", 60⟩, ⟨"caption", "c", 0⟩] } idleTick).scene.caption = "b" ∧
    (Scene.logic sampleEnv
      { Scene.ctor sampleEnv.settings_ctor CUTSCENE_STATIC with
        components := [⟨"caption", "a", 0⟩, ⟨"image", "bg.png", 2⟩, ⟨"caption", "b", 0⟩]
          ++ [⟨"pause", "", 60⟩, ⟨"caption", "c", 0⟩] } idleTick).scene.pause_frames = 60 := by
  have h := static_drain_until_pause sampleEnv
    { Scene.ctor sampleEnv.settings_ctor CUTSCENE_STATIC with
      components := [⟨"caption", "a", 0⟩, ⟨"image", "bg.png", 2⟩, ⟨"caption", "b", 0⟩]
        ++ [⟨"pause", "", 60⟩, ⟨"caption", "c", 0⟩] } idleTick
    [⟨"caption", "a", 0⟩, ⟨"image", "bg.png", 2⟩, ⟨"caption", "b", 0⟩]
    [⟨"pause", "", 60⟩, ⟨"caption", "c", 0⟩]
    rfl rfl (Or.inr (Or.inl rfl)) rfl (by decide) (by decide)
  exact ⟨h.1, (h.2.2.2 _ _ rfl).2.2.1⟩

/-! ### A pause counts its ticks, then the queue resumes -/

/-- One held tick with no skip and no cancel: the call returns "running" and only
counts the tick (and points `button_advance` at the control chosen). -/
theorem logic_paused_quiet {F : Type} (env : Env F) (s : Scene F) (t : Tick)
    (hty : s.cutscene_type = CUTSCENE_STATIC) (hdone : s.done = false)
    (hpf : s.pause_frames ≠ 0) (hfc : s.frame_counter < s.pause_frames) (hq : s.quiet t) :
    (Scene.logic env s t).ret = true ∧
    (Scene.logic env s t).scene =
      { s with frame_counter := s.frame_counter + 1, button_advance := some s.chooseAdvance } := by
  rw [logic_static env s t hty hdone,
    logicStatic_paused env (s.enter t) (s.input t) hq.1 hpf hfc]
  refine ⟨rfl, ?_⟩
  simp only [Scene.enter, hq.2]
  rw [← hdone]

/-- A run of held ticks with no skip and no cancel only advances `frame_counter`
(and points `button_advance` somewhere). -/
theorem run_paused {F : Type} (env : Env F) (ticks : List Tick) :
    ∀ s : Scene F, s.cutscene_type = CUTSCENE_STATIC → s.done = false →
      s.pause_frames ≠ 0 → s.frame_counter + ticks.length ≤ s.pause_frames →
      (∀ u ∈ ticks, s.quiet u) →
      ∃ b, Scene.run env s ticks =
        { s with frame_counter := s.frame_counter + ticks.length, button_advance := b } := by
  induction ticks with
  | nil =>
    intro s _ _ _ _ _
    exact ⟨s.button_advance, by simp [Scene.run]⟩
  | cons u us ih =>
    intro s hty hdone hpf hle hq
    have hlen : ((u :: us).length : Int) = (us.length : Int) + 1 := by simp
    rw [hlen] at hle
    have hlt : s.frame_counter < s.pause_frames := by
      have : (0 : Int) ≤ (us.length : Int) := Int.natCast_nonneg _
      omega
    obtain ⟨_, hs⟩ := logic_paused_quiet env s u hty hdone hpf hlt (hq u (by simp))
    obtain ⟨b, hb⟩ := ih
      { s with frame_counter := s.frame_counter + 1, button_advance := some s.chooseAdvance }
      hty hdone hpf (by show s.frame_counter + 1 + (us.length : Int) ≤ s.pause_frames; omega)
      (fun v hv => hq v (by simp [hv]))
    refine ⟨b, ?_⟩
    simp only [Scene.run, hs, hb]
    rw [hlen]
    have : s.frame_counter + 1 + (us.length : Int) = s.frame_counter + ((us.length : Int) + 1) := by
      omega
    rw [this]
/-- C6, as stated, fails on a scene whose pause was dequeued by a call that also
took a cancel: the fresh scene with queue `[image, pause 2, caption Hello]`,
called on a tick with cancel pressed, has just dequeued its pause
(`frame_counter = 0`, `pause_frames = 2`) and is done; the next call, on a tick
with no skip and no cancel, returns "finished" instead of "running" and does not
count the tick. -/
theorem cancelled_pause_does_not_count :
    (Scene.logic sampleEnv stagedScene cancelTick).scene.cutscene_type = CUTSCENE_STATIC ∧
    (Scene.logic sampleEnv stagedScene cancelTick).scene.frame_counter = 0 ∧
    (Scene.logic sampleEnv stagedScene cancelTick).scene.pause_frames = 2 ∧
    (Scene.logic sampleEnv stagedScene cancelTick).scene.components
      = [⟨"caption", "Hello", 0⟩] ∧
    ((Scene.logic sampleEnv stagedScene cancelTick).scene.input idleTick).skip = false ∧
    ((Scene.logic sampleEnv stagedScene cancelTick).scene.input idleTick).done = false ∧
    (Scene.logic sampleEnv (Scene.logic sampleEnv stagedScene cancelTick).scene idleTick).ret
      = false ∧
    (Scene.logic sampleEnv (Scene.logic sampleEnv stagedScene cancelTick).scene
      idleTick).scene.frame_counter = 0 := by
  decide

/-- C6, amended: a static scene that is not done (no cancel taken: `done` false)
and has just dequeued a pause of `n > 0` ticks (`frame_counter = 0`,
`pause_frames = n`), over `n` ticks
with no skip and no cancel: call `k + 1` (for `k < n`) returns "running" and leaves
the scene as it was at the start but for `frame_counter = k + 1` (the queue,
caption and art are untouched; `button_advance` points at the control chosen).
The call after these `n`, whatever its input, drains the queue `pre ++ rest` up to
its next pause: caption and scale type are those left by `pre`; without a pause
the queue ends empty and the call returns "finished", with a pause `p` it is
dequeued, `frame_counter = 0`, `pause_frames = p.x` and the call returns
"running". In particular, for a fresh scene with queue `[image, pause m, caption]`
the first call (no cancel) sets `pause_frames = m` and the scale type of the
image, and the call after `m` paused ticks sets the caption and returns
"finished". -/
theorem pause_counts_then_resumes {F : Type} (env : Env F) (s : Scene F) (n : Nat)
    (ticks : List Tick) (t : Tick) (pre rest : List SceneComponent)
    (hty : s.cutscene_type = CUTSCENE_STATIC) (hdone : s.done = false)
    (hfc : s.frame_counter = 0) (hpf : s.pause_frames = n) (hn : 0 < n)
    (hlen : ticks.length = n) (hquiet : ∀ u ∈ ticks, s.quiet u)
    (hq : s.components = pre ++ rest)
    (hpre : ∀ c ∈ pre, c.type ≠ "pause") (hrest : ∀ p ∈ rest.head?, p.type = "pause") :
    (∀ (k : Nat) (u : Tick), k < n → ticks[k]? = some u →
      (Scene.logic env (Scene.run env s (ticks.take k)) u).ret = true ∧
      (Scene.logic env (Scene.run env s (ticks.take k)) u).scene =
        { s with frame_counter := (k : Int) + 1, button_advance := some s.chooseAdvance }) ∧
    ((Scene.logic env (Scene.run env s ticks) t).scene.caption = lastCaption pre s.caption ∧
     (Scene.logic env (Scene.run env s ticks) t).scene.art_scale_type
       = lastImageScale pre s.art_scale_type ∧
     (rest = [] →
       (Scene.logic env (Scene.run env s ticks) t).scene.components = [] ∧
       (Scene.logic env (Scene.run env s ticks) t).ret = false) ∧
     (∀ p rest2, rest = p :: rest2 →
       (Scene.logic env (Scene.run env s ticks) t).scene.components = rest2 ∧
       (Scene.logic env (Scene.run env s ticks) t).scene.frame_counter = 0 ∧
       (Scene.logic env (Scene.run env s ticks) t).scene.pause_frames = p.x ∧
       (Scene.logic env (Scene.run env s ticks) t).ret = true)) ∧
    (∀ (s0 : Scene F) (i p c : SceneComponent) (m : Nat) (t0 : Tick) (ticks1 : List Tick)
        (t1 : Tick),
      s0.cutscene_type = CUTSCENE_STATIC → s0.done = false → s0.pause_frames = 0 →
      s0.components = [i, p, c] → i.type = "image" → p.type = "pause" → p.x = m → 0 < m →
      c.type = "caption" → (s0.input t0).done = false →
      ticks1.length = m → (∀ u ∈ ticks1, (Scene.logic env s0 t0).scene.quiet u) →
      (Scene.logic env s0 t0).ret = true ∧
      (Scene.logic env s0 t0).scene.pause_frames = m ∧
      (Scene.logic env s0 t0).scene.art_scale_type = i.x ∧
      (Scene.logic env (Scene.run env (Scene.logic env s0 t0).scene ticks1) t1).ret = false ∧
      (Scene.logic env (Scene.run env (Scene.logic env s0 t0).scene ticks1) t1).scene.caption
        = c.s) := by
  have key : ∀ (z : Scene F) (m : Nat) (us : List Tick),
      z.cutscene_type = CUTSCENE_STATIC → z.done = false → z.frame_counter = 0 →
      z.pause_frames = m → 0 < m → us.length ≤ m → (∀ u ∈ us, z.quiet u) →
      ∃ b, Scene.run env z us =
        { z with frame_counter := (us.length : Int), button_advance := b } := by
    intro z m us h1 h2 h3 h4 h5 h6 h7
    have hpf0 : z.pause_frames ≠ 0 := by rw [h4]; exact_mod_cast (Nat.pos_iff_ne_zero.mp h5)
    obtain ⟨b, hb⟩ := run_paused env us z h1 h2 hpf0
      (by rw [h3, h4]; simp only [zero_add]; exact_mod_cast h6) h7
    refine ⟨b, ?_⟩
    rw [hb, h3, zero_add]
  have after : ∀ (z : Scene F) (m : Nat) (us : List Tick) (v : Tick)
      (pr rs : List SceneComponent),
      z.cutscene_type = CUTSCENE_STATIC → z.done = false → z.frame_counter = 0 →
      z.pause_frames = m → 0 < m → us.length = m → (∀ u ∈ us, z.quiet u) →
      z.components = pr ++ rs → (∀ c ∈ pr, c.type ≠ "pause") →
      (∀ p ∈ rs.head?, p.type = "pause") →
      ((Scene.logic env (Scene.run env z us) v).scene.caption = lastCaption pr z.caption ∧
       (Scene.logic env (Scene.run env z us) v).scene.art_scale_type
         = lastImageScale pr z.art_scale_type ∧
       (rs = [] →
         (Scene.logic env (Scene.run env z us) v).scene.components = [] ∧
         (Scene.logic env (Scene.run env z us) v).ret = false) ∧
       (∀ p rest2, rs = p :: rest2 →
         (Scene.logic env (Scene.run env z us) v).scene.components = rest2 ∧
         (Scene.logic env (Scene.run env z us) v).scene.frame_counter = 0 ∧
         (Scene.logic env (Scene.run env z us) v).scene.pause_frames = p.x ∧
         (Scene.logic env (Scene.run env z us) v).ret = true)) := by
    intro z m us v pr rs h1 h2 h3 h4 h5 h6 h7 h8 h9 h10
    obtain ⟨b, hb⟩ := key z m us h1 h2 h3 h4 h5 (le_of_eq h6) h7
    rw [hb]
    obtain ⟨a1, a2, _, _, _, a6, a7⟩ := logic_static_split env
      { z with frame_counter := (us.length : Int), button_advance := b } v pr rs h1 h2
      (Or.inr (Or.inr (by show z.pause_frames ≤ (us.length : Int); rw [h4, h6]))) h8 h9 h10
    exact ⟨a1, a2, a6, a7⟩
  refine ⟨?_, after s n ticks t pre rest hty hdone hfc hpf hn hlen hquiet hq hpre hrest, ?_⟩
  · intro k u hk hu
    have hklen : (ticks.take k).length = k := by
      rw [List.length_take, hlen]; omega
    obtain ⟨b, hb⟩ := key s n (ticks.take k) hty hdone hfc hpf hn (by rw [hklen]; omega)
      (fun v hv => hquiet v (List.mem_of_mem_take hv))
    rw [hb, hklen]
    have hu2 : u ∈ ticks := List.getElem?_mem hu
    have hpf0 : s.pause_frames ≠ 0 := by rw [hpf]; exact_mod_cast (Nat.pos_iff_ne_zero.mp hn)
    obtain ⟨r1, r2⟩ := logic_paused_quiet env
      { s with frame_counter := (k : Int), button_advance := b } u hty hdone hpf0
      (by show (k : Int) < s.pause_frames; rw [hpf]; exact_mod_cast hk) (hquiet u hu2)
    exact ⟨r1, r2⟩
  · intro s0 i p c m t0 ticks1 t1 h1 h2 h3 h4 h5 h6 h7 h8 h9 h10 h11 h12
    have hi : ∀ d ∈ [i], d.type ≠ "pause" := by
      intro d hd
      have : d = i := by simpa using hd
      rw [this, h5]; decide
    obtain ⟨_, a2, a3, a4, _, _, a7⟩ := logic_static_split env s0 t0 [i] [p, c] h1 h2
      (Or.inr (Or.inl h3)) (by rw [h4]; rfl) hi (by intro q hq; have : q = p := by simpa using hq.symm
                                                    rw [this]; exact h6)
    obtain ⟨b1, b2, b3, b4⟩ := a7 p [c] rfl
    have hc : ∀ d ∈ [c], d.type ≠ "pause" := by
      intro d hd
      have : d = c := by simpa using hd
      rw [this, h9]; decide
    obtain ⟨c1, _, c3, _⟩ := after (Scene.logic env s0 t0).scene m ticks1 t1 [c] []
      (a4.trans h1) (a3.trans h10) b2 (b3.trans (by rw [h7])) h8 h11 h12 (by rw [b1]; rfl) hc
      (by intro q hq; simp at hq)
    refine ⟨b4, b3.trans (by rw [h7]), ?_, (c3 rfl).2, ?_⟩
    · rw [a2]; simp [lastImageScale, h5]
    · rw [c1]; simp [lastCaption, h9]
/-- Witness of C6: after the two ticks of its pause the sample scene shows its
caption and finishes. -/
theorem pause_counts_then_resumes_witness :
    (Scene.logic sampleEnv (Scene.run sampleEnv waitingScene [idleTick, idleTick])
      idleTick).scene.caption = "Hello" ∧
    (Scene.logic sampleEnv (Scene.run sampleEnv waitingScene [idleTick, idleTick])
      idleTick).ret = false := by
  have h := (pause_counts_then_resumes sampleEnv waitingScene 2 [idleTick, idleTick] idleTick
    [⟨"caption", "Hello", 0⟩] [] (by decide) (by decide) (by decide) (by decide) (by decide)
    (by decide) (by intro u hu; simp at hu; subst hu; exact ⟨by decide, by decide⟩)
    (by decide) (by decide) (by decide)).2.1
  exact ⟨h.1, (h.2.2.1 rfl).2⟩

/-! ### The advance control of a vertical scroller -/

/-- C10: a vertical scroller that is not done returns "finished" (false) from a call
on which its advance control is clicked, whatever its scroll position, queue and
elements are. -/
theorem vscroll_click_finishes {F : Type} (env : Env F) (s : Scene F) (t : Tick)
    (hty : s.cutscene_type = CUTSCENE_VSCROLL) (hdone : s.done = false)
    (hclick : (t.button s.chooseAdvance).checkClick = true) :
    (Scene.logic env s t).ret = false := by
  have hs : (s.input t).skip_scroll = true := by
    unfold Scene.input Scene.readInput
    split <;> exact hclick
  rw [logic_vscroll env s t hty hdone]
  unfold Scene.logicVScroll
  simp only [hs, if_true]

/-- Witness of C10: the sample scroller, advance control clicked on its first tick. -/
theorem vscroll_click_finishes_witness :
    (Scene.logic sampleEnv creditsScene clickTick).ret = false :=
  vscroll_click_finishes sampleEnv creditsScene clickTick (by decide) (by decide) (by decide)

/-! ### Layout of a vertical scroller -/

theorem wrapInt_of_fits (z : Int) (h : fitsInt z = true) : wrapInt z = z := by
  simp only [fitsInt, Bool.and_eq_true, decide_eq_true_eq] at h
  unfold wrapInt
  omega

theorem materialize_cons_none {F : Type} (env : Env F) (c : SceneComponent)
    (q : List SceneComponent) (y : Int) (h : elementHeight env c = none) :
    materialize env (c :: q) y = materialize env q y := by
  simp only [materialize]
  by_cases h1 : c.type = "text"
  · simp [elementHeight, h1] at h
  · by_cases h2 : c.type = "image"
    · rw [if_neg h1, if_pos h2]
      simp only [elementHeight, if_neg h1, if_pos h2] at h
      cases hl : env.loadImage c.s with
      | none => rfl
      | some g =>
        simp only [hl] at h ⊢
        cases hs : env.createSprite g with
        | none => rfl
        | some sp => simp [hs] at h
    · by_cases h3 : c.type = "separator"
      · simp [elementHeight, h1, h2, h3] at h
      · rw [if_neg h1, if_neg h2, if_neg h3]

/-- A directive that yields an element: the element is stored at the anchor line
`view_h/2 + y`, moved by half the gap for a separator, and the loop goes on from
`y` advanced by the height, every sum taken as an `int`. -/
theorem materialize_cons_some {F : Type} (env : Env F) (c : SceneComponent)
    (q : List SceneComponent) (y ht : Int) (h : elementHeight env c = some ht) :
    ∃ vsc, materialize env (c :: q) y = vsc :: materialize env q (wrapInt (y + ht)) ∧
      vsc.pos.y = (if c.type = "separator"
                   then wrapInt (wrapInt (env.view_h.tdiv 2 + y) + c.x.tdiv 2)
                   else wrapInt (env.view_h.tdiv 2 + y)) := by
  simp only [materialize]
  by_cases h1 : c.type = "text"
  · have hns : ¬ (c.type = "separator") := by rw [h1]; decide
    simp only [elementHeight, if_pos h1, Option.some.injEq] at h
    subst h
    rw [if_pos h1, if_neg hns]
    exact ⟨_, rfl, rfl⟩
  · by_cases h2 : c.type = "image"
    · have hns : ¬ (c.type = "separator") := by rw [h2]; decide
      simp only [elementHeight, if_neg h1, if_pos h2] at h
      rw [if_neg h1, if_pos h2, if_neg hns]
      cases hl : env.loadImage c.s with
      | none => simp [hl] at h
      | some g =>
        simp only [hl] at h ⊢
        cases hs : env.createSprite g with
        | none => simp [hs] at h
        | some sp =>
          simp only [hs, Option.map_some', Option.some.injEq] at h
          subst h
          exact ⟨_, rfl, rfl⟩
    · by_cases h3 : c.type = "separator"
      · simp only [elementHeight, if_neg h1, if_neg h2, if_pos h3, Option.some.injEq] at h
        subst h
        rw [if_neg h1, if_neg h2, if_pos h3, if_pos h3]
        exact ⟨_, rfl, rfl⟩
      · simp [elementHeight, h1, h2, h3] at h

/-- The same, when the sums of this step do not overflow: the stored anchor and
the advanced offset are the exact sums. -/
theorem materialize_cons_fits {F : Type} (env : Env F) (c : SceneComponent)
    (q : List SceneComponent) (y ht : Int) (h : elementHeight env c = some ht)
    (f1 : fitsInt (env.view_h.tdiv 2 + y) = true)
    (f2 : fitsInt (env.view_h.tdiv 2 + y + anchorShift c) = true)
    (f3 : fitsInt (y + ht) = true) :
    ∃ vsc, materialize env (c :: q) y = vsc :: materialize env q (y + ht) ∧
      vsc.pos.y = env.view_h.tdiv 2 + y + anchorShift c := by
  obtain ⟨vsc, hm, hv⟩ := materialize_cons_some env c q y ht h
  refine ⟨vsc, by rw [hm, wrapInt_of_fits _ f3], ?_⟩
  rw [hv]
  unfold anchorShift at f2 ⊢
  by_cases h3 : c.type = "separator"
  · rw [if_pos h3] at f2
    rw [if_pos h3, if_pos h3, wrapInt_of_fits _ f1, wrapInt_of_fits _ f2]
  · rw [if_neg h3, if_neg h3, wrapInt_of_fits _ f1, add_zero]

theorem anchorShift_bounds {F : Type} (env : Env F) (c : SceneComponent) (ht : Int)
    (h : elementHeight env c = some ht) (hpos : 0 ≤ ht) :
    0 ≤ anchorShift c ∧ anchorShift c ≤ ht := by
  unfold anchorShift
  by_cases h3 : c.type = "separator"
  · have h1 : ¬ (c.type = "text") := by rw [h3]; decide
    have h2 : ¬ (c.type = "image") := by rw [h3]; decide
    simp only [elementHeight, if_neg h1, if_neg h2, if_pos h3, Option.some.injEq] at h
    subst h
    rw [if_pos h3, Int.tdiv_eq_ediv hpos (by norm_num)]
    omega
  · simp only [h3, if_false]
    exact ⟨le_refl 0, hpos⟩

theorem layoutFits_cons_none {F : Type} (env : Env F) (c : SceneComponent)
    (q : List SceneComponent) (y : Int) (h : elementHeight env c = none) :
    layoutFits env (c :: q) y = layoutFits env q y := by
  simp only [layoutFits, h]

theorem layoutFits_cons_some {F : Type} (env : Env F) (c : SceneComponent)
    (q : List SceneComponent) (y ht : Int) (h : elementHeight env c = some ht)
    (hf : layoutFits env (c :: q) y = true) :
    fitsInt (env.view_h.tdiv 2 + y) = true ∧
    fitsInt (env.view_h.tdiv 2 + y + anchorShift c) = true ∧
    fitsInt (y + ht) = true ∧ layoutFits env q (y + ht) = true := by
  simp only [layoutFits, h, Bool.and_eq_true] at hf
  exact ⟨hf.1.1.1, hf.1.1.2, hf.1.2, hf.2⟩

/-- The anchor of element `N` of a materialised queue whose layout does not
overflow: the running offset at the start, plus the heights and gaps of the
elements before it, plus its shift. -/
theorem materialize_anchor {F : Type} (env : Env F) (q : List SceneComponent) :
    ∀ (y : Int) (N : Nat) (a : Int), layoutFits env q y = true →
      (anchors env (materialize env q y))[N]? = some a →
      ∃ d, (producers env q)[N]? = some d ∧
        a = y + ((heights env q).take N).sum + anchorShift d := by
  induction q with
  | nil =>
    intro y N a _ h
    simp [materialize, anchors] at h
  | cons c q ih =>
    intro y N a hf h
    cases hc : elementHeight env c with
    | none =>
      rw [materialize_cons_none env c q y hc] at h
      rw [layoutFits_cons_none env c q y hc] at hf
      obtain ⟨d, hd, ha⟩ := ih y N a hf h
      refine ⟨d, ?_, ?_⟩
      · simpa [producers, List.filter_cons, hc] using hd
      · simpa [heights, List.filterMap_cons, hc] using ha
    | some ht =>
      obtain ⟨f1, f2, f3, f4⟩ := layoutFits_cons_some env c q y ht hc hf
      obtain ⟨vsc, hm, hv⟩ := materialize_cons_fits env c q y ht hc f1 f2 f3
      rw [hm] at h
      have hp : producers env (c :: q) = c :: producers env q := by
        simp [producers, List.filter_cons, hc]
      have hh : heights env (c :: q) = ht :: heights env q := by
        simp [heights, List.filterMap_cons, hc]
      rw [hp, hh]
      cases N with
      | zero =>
        simp only [anchors, List.map_cons, List.getElem?_cons_zero, Option.some.injEq] at h
        refine ⟨c, by simp, ?_⟩
        rw [← h, hv]
        simp only [List.take_zero, List.sum_nil]
        omega
      | succ M =>
        have h2 : (anchors env (materialize env q (y + ht)))[M]? = some a := by
          simpa [anchors] using h
        obtain ⟨d, hd, ha⟩ := ih (y + ht) M a f4 h2
        refine ⟨d, by simpa using hd, ?_⟩
        rw [ha, List.take_succ_cons, List.sum_cons]
        omega

/-- With no negative height or gap and no overflow, the anchors of a materialised
queue start at the running offset or below and never decrease. -/
theorem materialize_monotone {F : Type} (env : Env F) (q : List SceneComponent) :
    ∀ y : Int, layoutFits env q y = true → (∀ ht ∈ heights env q, 0 ≤ ht) →
      (∀ a ∈ anchors env (materialize env q y), y ≤ a) ∧
      List.Pairwise (fun a b => a ≤ b) (anchors env (materialize env q y)) := by
  induction q with
  | nil =>
    intro y _ _
    simp [materialize, anchors]
  | cons c q ih =>
    intro y hf hpos
    cases hc : elementHeight env c with
    | none =>
      rw [materialize_cons_none env c q y hc]
      rw [layoutFits_cons_none env c q y hc] at hf
      exact ih y hf (by simpa [heights, List.filterMap_cons, hc] using hpos)
    | some ht =>
      obtain ⟨f1, f2, f3, f4⟩ := layoutFits_cons_some env c q y ht hc hf
      obtain ⟨vsc, hm, hv⟩ := materialize_cons_fits env c q y ht hc f1 f2 f3
      have hh : heights env (c :: q) = ht :: heights env q := by
        simp [heights, List.filterMap_cons, hc]
      rw [hh] at hpos
      have hht : 0 ≤ ht := hpos ht (by simp)
      obtain ⟨b1, b2⟩ := anchorShift_bounds env c ht hc hht
      obtain ⟨i1, i2⟩ := ih (y + ht) f4 (fun k hk => hpos k (by simp [hk]))
      have hanch : anchors env (materialize env (c :: q) y)
          = (y + anchorShift c) :: anchors env (materialize env q (y + ht)) := by
        rw [hm]
        simp only [anchors, List.map_cons, hv]
        congr 1
        omega
      rw [hanch]
      constructor
      · intro a ha
        rcases List.mem_cons.mp ha with h0 | h0
        · rw [h0]; omega
        · have := i1 a h0
          omega
      · rw [List.pairwise_cons]
        refine ⟨?_, i2⟩
        intro a ha
        have := i1 a ha
        omega

theorem reposition_pos {F : Type} (env : Env F) (off : Int) (v : VScrollComponent) :
    (VScrollComponent.reposition env off v).pos = v.pos := by
  unfold VScrollComponent.reposition
  split
  · rfl
  · split <;> rfl

theorem anchors_reposition {F : Type} (env : Env F) (off : Int) (l : List VScrollComponent) :
    anchors env (l.map (VScrollComponent.reposition env off)) = anchors env l := by
  simp [anchors, List.map_map, Function.comp_def, reposition_pos]

/-- The elements a call leaves in a vertical scroller that is not done: those it
had, then those materialised from the queue, all at their stored positions. -/
theorem logic_vscroll_anchors {F : Type} (env : Env F) (s : Scene F) (t : Tick)
    (hty : s.cutscene_type = CUTSCENE_VSCROLL) (hdone : s.done = false) :
    anchors env (Scene.logic env s t).scene.vscroll_components
      = anchors env s.vscroll_components ++ anchors env (materialize env s.components 0) := by
  have hne : ¬ (CUTSCENE_VSCROLL = CUTSCENE_STATIC) := by decide
  rw [logic_vscroll env s t hty hdone]
  unfold Scene.logicVScroll
  split
  · simp [anchors, Scene.enter]
  · simp only [Scene.refreshWidgets, Scene.enter, hty, hne, if_false, if_true]
    rw [anchors_reposition]
    simp [anchors]

/-- C9, as stated, fails: for the queue `[separator 20]` the only element is
anchored 10 below the centre although no element precedes it (the sum of the
heights before it is 0); for `[separator -20, text]` the anchors are -10, then
-20, which decreases; and for `[separator 2147483647, text]`, where no height is
negative, the running offset overflows `int` and the text is stored above the
separator (anchors 1073741823, then -2147483649). -/
theorem separator_anchor_is_not_prefix_sum :
    anchors sampleEnv (Scene.logic sampleEnv separatorScene idleTick).scene.vscroll_components
      = [10] ∧
    ((heights sampleEnv separatorScene.components).take 0).sum = 0 ∧
    anchors sampleEnv (Scene.logic sampleEnv negativeGapScene idleTick).scene.vscroll_components
      = [-10, -20] ∧
    heights sampleEnv hugeGapScene.components = [2147483647, 20] ∧
    anchors sampleEnv (Scene.logic sampleEnv hugeGapScene idleTick).scene.vscroll_components
      = [1073741823, -2147483649] := by
  decide

/-- C9, amended: after a call on a vertical scroller that is not done, when no
addition of the layout overflows `int` (`layoutFits`), the anchor of the `N`-th
element materialised by the call, measured from the vertical centre of the
screen, is the sum of the heights and gaps of the elements materialised before
it, plus half the gap (truncated) when the element is itself a separator; and
when moreover no height or gap is negative these anchors never decrease in list
order. -/
theorem vscroll_anchor_is_prefix_sum {F : Type} (env : Env F) (s : Scene F) (t : Tick)
    (hty : s.cutscene_type = CUTSCENE_VSCROLL) (hdone : s.done = false)
    (hfit : layoutFits env s.components 0 = true) :
    (∀ (N : Nat) (a : Int),
      ((anchors env (Scene.logic env s t).scene.vscroll_components).drop
        s.vscroll_components.length)[N]? = some a →
      ∃ d, (producers env s.components)[N]? = some d ∧
        a = ((heights env s.components).take N).sum
          + (if d.type = "separator" then d.x.tdiv 2 else 0)) ∧
    ((∀ ht ∈ heights env s.components, 0 ≤ ht) →
      List.Pairwise (fun a b => a ≤ b)
        ((anchors env (Scene.logic env s t).scene.vscroll_components).drop
          s.vscroll_components.length)) := by
  have hlen : (anchors env s.vscroll_components).length = s.vscroll_components.length := by
    simp [anchors]
  have hd : (anchors env (Scene.logic env s t).scene.vscroll_components).drop
      s.vscroll_components.length = anchors env (materialize env s.components 0) := by
    rw [logic_vscroll_anchors env s t hty hdone, ← hlen, List.drop_left]
  rw [hd]
  constructor
  · intro N a h
    obtain ⟨d, h1, h2⟩ := materialize_anchor env s.components 0 N a hfit h
    exact ⟨d, h1, by rw [h2, zero_add]; rfl⟩
  · intro hpos
    exact (materialize_monotone env s.components 0 hfit hpos).2

/-- Witness of the amended C9 on the queue `[text, separator 20, image]` (heights
20, 20 and 100): the separator, element 1, is anchored at 20 + 10, the image,
element 2, at 20 + 20, and the three anchors never decrease. -/
theorem vscroll_anchor_is_prefix_sum_witness :
    (∃ d, (producers sampleEnv layoutScene.components)[1]? = some d ∧
      (30 : Int) = ((heights sampleEnv layoutScene.components).take 1).sum
        + (if d.type = "separator" then d.x.tdiv 2 else 0)) ∧
    (∃ d, (producers sampleEnv layoutScene.components)[2]? = some d ∧
      (40 : Int) = ((heights sampleEnv layoutScene.components).take 2).sum
        + (if d.type = "separator" then d.x.tdiv 2 else 0)) ∧
    List.Pairwise (fun a b => a ≤ b)
      ((anchors sampleEnv (Scene.logic sampleEnv layoutScene idleTick).scene.vscroll_components).drop
        layoutScene.vscroll_components.length) :=
  ⟨(vscroll_anchor_is_prefix_sum sampleEnv layoutScene idleTick (by decide) (by decide)
      (by decide)).1 1 30 (by decide),
   (vscroll_anchor_is_prefix_sum sampleEnv layoutScene idleTick (by decide) (by decide)
      (by decide)).1 2 40 (by decide),
   (vscroll_anchor_is_prefix_sum sampleEnv layoutScene idleTick (by decide) (by decide)
      (by decide)).2 (by decide)⟩

/-! ### End of the scroll -/

/-- C3, the code at the failing input: the sample scroller (one image, 64 x 100,
anchored at y = 300; 90 px per tick) is called on idle ticks. The fifth call
computes `vscroll_offset = 360`; the image then spans y = -60 .. 40, its bottom
edge `300 - 360 + 100 = 40` is not below 0, and the call returns "finished". -/
theorem scroll_ends_with_image_on_screen :
    (Scene.run sampleEnv creditsScene [idleTick, idleTick, idleTick, idleTick]).cutscene_type
      = CUTSCENE_VSCROLL ∧
    (Scene.run sampleEnv creditsScene [idleTick, idleTick, idleTick, idleTick]).done = false ∧
    (Scene.logic sampleEnv
      (Scene.run sampleEnv creditsScene [idleTick, idleTick, idleTick, idleTick])
      idleTick).scene.vscroll_offset = 360 ∧
    (Scene.logic sampleEnv
      (Scene.run sampleEnv creditsScene [idleTick, idleTick, idleTick, idleTick])
      idleTick).scene.vscroll_components.map (fun v => (v.pos.y, v.image_size.y, v.text))
      = [(300, 100, none)] ∧
    (0 : Int) ≤ 300 - 360 + 100 ∧
    (Scene.logic sampleEnv
      (Scene.run sampleEnv creditsScene [idleTick, idleTick, idleTick, idleTick])
      idleTick).ret = false := by
  decide

/-! ### Adjacent `vscroll` sections -/

theorem vscrollDirectives_cons {F : Type} (env : Env F) (r : Record) (rest : List Record) :
    vscrollDirectives env (r :: rest)
      = vscrollDirectives env [r] ++ vscrollDirectives env rest := by
  simp only [vscrollDirectives, List.map_cons, List.map_nil, List.filter_cons, List.filter_nil]
  split <;> simp

/-- One record of a `vscroll` section, once its header is handled and has left
`L ++ [b]`: its valid directive, if any, is queued on `b`. -/
theorem loadStep_vscroll {F : Type} (env : Env F) (st : LoadState F) (r : Record)
    (L : List (Scene F)) (b : Scene F) (hsec : r.section_ = "vscroll")
    (hH : loadHeader st.cutscene_settings st.gs.scenes r = L ++ [b]) :
    ∃ st2, loadStep env st r = some st2 ∧
      st2.gs.scenes = L ++ [{ b with components := b.components ++ vscrollDirectives env [r] }] ∧
      st2.cutscene_settings = st.cutscene_settings := by
  have h0 : ¬ (r.section_ = "") := by rw [hsec]; decide
  have h1 : ¬ (r.section_ = "scene") := by rw [hsec]; decide
  unfold loadStep
  simp only [if_neg h0, if_neg h1, if_pos hsec, hH]
  by_cases ht : (vscrollKey env r).1.type = ""
  · have e : pushIfTyped (L ++ [b]) (vscrollKey env r).1 = some (L ++ [b]) := by
      simp [pushIfTyped, ht]
    simp only [e, Option.map_some']
    refine ⟨_, rfl, ?_, rfl⟩
    simp [vscrollDirectives, ht]
  · have e : pushIfTyped (L ++ [b]) (vscrollKey env r).1
        = some (L ++ [{ b with components := b.components ++ [(vscrollKey env r).1] }]) := by
      simp [pushIfTyped, ht, backPush, List.getLast?_concat, List.dropLast_concat]
    simp only [e, Option.map_some']
    refine ⟨_, rfl, ?_, rfl⟩
    simp [vscrollDirectives, ht]

/-- The records of a `vscroll` section after its first: their valid directives are
queued, in order, on the last scene. -/
theorem loadLoop_vscroll_body {F : Type} (env : Env F) (rest : List Record) :
    ∀ (st : LoadState F) (L : List (Scene F)) (b : Scene F),
      (∀ x ∈ rest, x.new_section = false ∧ x.section_ = "vscroll") →
      st.gs.scenes = L ++ [b] →
      ∃ st2, loadLoop env rest st = some st2 ∧
        st2.gs.scenes = L ++ [{ b with components := b.components ++ vscrollDirectives env rest }] ∧
        st2.cutscene_settings = st.cutscene_settings := by
  induction rest with
  | nil =>
    intro st L b _ hs
    refine ⟨st, rfl, ?_, rfl⟩
    simp [vscrollDirectives, hs]
  | cons r rest ih =>
    intro st L b hall hs
    obtain ⟨hn, hsec⟩ := hall r (by simp)
    have hH : loadHeader st.cutscene_settings st.gs.scenes r = L ++ [b] := by
      simp [loadHeader, hn, hs]
    obtain ⟨st1, e1, s1, c1⟩ := loadStep_vscroll env st r L b hsec hH
    obtain ⟨st2, e2, s2, c2⟩ := ih st1 L _ (fun x hx => hall x (by simp [hx])) s1
    refine ⟨st2, by simp [loadLoop, e1, e2], ?_, c2.trans c1⟩
    rw [s2, vscrollDirectives_cons env r rest]
    simp [List.append_assoc]

/-- A whole `vscroll` section whose header leaves `L ++ [b]`: the valid directives
of the section are queued, in order, on `b`. -/
theorem loadLoop_vscroll_section {F : Type} (env : Env F) (sec : List Record)
    (st : LoadState F) (L : List (Scene F)) (b : Scene F)
    (hsec : isVscrollSection sec = true)
    (hH : ∀ r ∈ sec.head?, loadHeader st.cutscene_settings st.gs.scenes r = L ++ [b]) :
    ∃ st2, loadLoop env sec st = some st2 ∧
      st2.gs.scenes = L ++ [{ b with components := b.components ++ vscrollDirectives env sec }] ∧
      st2.cutscene_settings = st.cutscene_settings := by
  cases sec with
  | nil => simp [isVscrollSection] at hsec
  | cons r rest =>
    simp only [isVscrollSection, Bool.and_eq_true, beq_iff_eq, List.all_eq_true,
      Bool.not_eq_true'] at hsec
    obtain ⟨⟨_, hs⟩, hall⟩ := hsec
    obtain ⟨st1, e1, s1, c1⟩ := loadStep_vscroll env st r L b hs (hH r (by simp))
    obtain ⟨st2, e2, s2, c2⟩ := loadLoop_vscroll_body env rest st1 L _ hall s1
    refine ⟨st2, by simp [loadLoop, e1, e2], ?_, c2.trans c1⟩
    rw [s2, vscrollDirectives_cons env r rest]
    simp [List.append_assoc]

theorem loadLoop_append {F : Type} (env : Env F) (xs ys : List Record) :
    ∀ st : LoadState F,
      loadLoop env (xs ++ ys) st = (loadLoop env xs st).bind (loadLoop env ys) := by
  induction xs with
  | nil => intro st; rfl
  | cons r xs ih =>
    intro st
    simp only [List.cons_append, loadLoop]
    cases loadStep env st r with
    | none => rfl
    | some st1 => simpa using ih st1

/-- Two adjacent `vscroll` sections whose first header leaves `L ++ [b]` with `b` a
vertical scroller: the second header creates nothing, and `b` receives the valid
directives of the first section, then those of the second. -/
theorem loadLoop_two_sections {F : Type} (env : Env F) (A B : List Record)
    (st : LoadState F) (L : List (Scene F)) (b : Scene F)
    (hA : isVscrollSection A = true) (hB : isVscrollSection B = true)
    (hb : b.cutscene_type = CUTSCENE_VSCROLL)
    (hH : ∀ r ∈ A.head?, loadHeader st.cutscene_settings st.gs.scenes r = L ++ [b]) :
    ∃ st2, loadLoop env (A ++ B) st = some st2 ∧
      st2.gs.scenes = L ++ [{ b with components :=
        b.components ++ (vscrollDirectives env A ++ vscrollDirectives env B) }] ∧
      st2.cutscene_settings = st.cutscene_settings := by
  obtain ⟨st1, e1, s1, c1⟩ := loadLoop_vscroll_section env A st L b hA hH
  have hH2 : ∀ r ∈ B.head?, loadHeader st1.cutscene_settings st1.gs.scenes r
      = L ++ [{ b with components := b.components ++ vscrollDirectives env A }] := by
    intro r hr
    cases B with
    | nil => simp at hr
    | cons r0 rest =>
      have : r = r0 := by simpa using hr.symm
      subst this
      simp only [isVscrollSection, Bool.and_eq_true, beq_iff_eq] at hB
      simp [loadHeader, hB.1.1, hB.1.2, s1, List.getLast?_concat, hb]
  obtain ⟨st2, e2, s2, c2⟩ := loadLoop_vscroll_section env B st1 L _ hB hH2
  refine ⟨st2, by rw [loadLoop_append, e1]; exact e2, ?_, c2.trans c1⟩
  rw [s2]
  simp [List.append_assoc]
/-- C4, as stated, fails: in a file of three `vscroll` sections the second and
third are consecutive, yet the one Scene they feed does not hold their
directives alone: it holds those of the first section before them. -/
theorem third_section_joins_earlier_directives :
    isVscrollSection [⟨true, "vscroll", "text", "b"⟩] = true ∧
    isVscrollSection [⟨true, "vscroll", "text", "c"⟩] = true ∧
    (GameStateCutscene.load sampleEnv (GameStateCutscene.ctor 0) (some threeSections)).map
      (fun res => res.gs.scenes.map fun s => s.components)
      = some [[⟨"text", "a", 0⟩, ⟨"text", "b", 0⟩, ⟨"text", "c", 0⟩]] ∧
    vscrollDirectives sampleEnv [⟨true, "vscroll", "text", "b"⟩]
      ++ vscrollDirectives sampleEnv [⟨true, "vscroll", "text", "c"⟩]
      = [⟨"text", "b", 0⟩, ⟨"text", "c", 0⟩] := by
  decide

/-- C4, amended: wherever two `vscroll` sections `A` and `B` are consecutive, `load`
feeds both into one vertical scroller and creates no Scene for `B`. When the last
Scene before `A` is a vertical scroller, that Scene receives, after what it
holds, the valid directives of `A` then those of `B`; otherwise (no Scene yet, or
a last Scene of another type) `A` creates one Scene, which holds the valid
directives of `A` then those of `B`. In particular a file made of the two
sections loads as exactly one Scene with the concatenation as its queue. -/
theorem adjacent_vscroll_sections_merge {F : Type} (env : Env F) (st : LoadState F)
    (A B : List Record) (hA : isVscrollSection A = true) (hB : isVscrollSection B = true) :
    (∀ L b, st.gs.scenes = L ++ [b] → b.cutscene_type = CUTSCENE_VSCROLL →
      ∃ st2, loadLoop env (A ++ B) st = some st2 ∧
        st2.gs.scenes = L ++ [{ b with components :=
          b.components ++ (vscrollDirectives env A ++ vscrollDirectives env B) }]) ∧
    ((∀ b ∈ st.gs.scenes.getLast?, b.cutscene_type ≠ CUTSCENE_VSCROLL) →
      ∃ st2, loadLoop env (A ++ B) st = some st2 ∧
        st2.gs.scenes = st.gs.scenes ++
          [{ Scene.ctor st.cutscene_settings CUTSCENE_VSCROLL with
             components := vscrollDirectives env A ++ vscrollDirectives env B }]) ∧
    (∀ game_state : Nat, ∃ res,
      GameStateCutscene.load env (GameStateCutscene.ctor game_state) (some (A ++ B)) = some res ∧
      res.ret = true ∧
      res.gs.scenes =
        [{ Scene.ctor env.settings_ctor CUTSCENE_VSCROLL with
           components := vscrollDirectives env A ++ vscrollDirectives env B
           is_last_scene := true }]) := by
  have hhead : ∀ r ∈ A.head?, r.new_section = true ∧ r.section_ = "vscroll" := by
    intro r hr
    cases A with
    | nil => simp at hr
    | cons r0 rest =>
      have : r = r0 := by simpa using hr.symm
      subst this
      simp only [isVscrollSection, Bool.and_eq_true, beq_iff_eq] at hA
      exact hA.1
  have fresh : ∀ z : LoadState F, (∀ b ∈ z.gs.scenes.getLast?, b.cutscene_type ≠ CUTSCENE_VSCROLL) →
      ∃ st2, loadLoop env (A ++ B) z = some st2 ∧
        st2.gs.scenes = z.gs.scenes ++
          [{ Scene.ctor z.cutscene_settings CUTSCENE_VSCROLL with
             components := vscrollDirectives env A ++ vscrollDirectives env B }] := by
    intro z hz
    have hH : ∀ r ∈ A.head?, loadHeader z.cutscene_settings z.gs.scenes r
        = z.gs.scenes ++ [Scene.ctor z.cutscene_settings CUTSCENE_VSCROLL] := by
      intro r hr
      obtain ⟨hn, hs⟩ := hhead r hr
      have hns : ¬ (r.section_ = "scene") := by rw [hs]; decide
      unfold loadHeader
      rw [if_pos hn, if_neg hns, if_pos hs]
      cases hl : z.gs.scenes.getLast? with
      | none => rfl
      | some b =>
        have := hz b (by rw [hl]; rfl)
        simp [this]
    obtain ⟨st2, e, s2, _⟩ := loadLoop_two_sections env A B z z.gs.scenes
      (Scene.ctor z.cutscene_settings CUTSCENE_VSCROLL) hA hB rfl hH
    refine ⟨st2, e, ?_⟩
    rw [s2]
    simp [Scene.ctor]
  refine ⟨?_, fresh st, ?_⟩
  · intro L b hs hb
    have hH : ∀ r ∈ A.head?, loadHeader st.cutscene_settings st.gs.scenes r = L ++ [b] := by
      intro r hr
      obtain ⟨hn, hs2⟩ := hhead r hr
      simp [loadHeader, hn, hs2, hs, List.getLast?_concat, hb]
    obtain ⟨st2, e, s2, _⟩ := loadLoop_two_sections env A B st L b hA hB hb hH
    exact ⟨st2, e, s2⟩
  · intro game_state
    obtain ⟨st2, e, s2⟩ := fresh
      { cutscene_settings := env.settings_ctor, gs := GameStateCutscene.ctor game_state,
        errors := [] } (by simp [GameStateCutscene.ctor])
    simp only [GameStateCutscene.load, e, Option.map_some']
    refine ⟨_, rfl, ?_⟩
    simp [s2, GameStateCutscene.ctor, flagLast]

/-- Witness of the amended C4: a file made of two `vscroll` sections of one text
each. -/
theorem adjacent_vscroll_sections_merge_witness :
    ∃ res, GameStateCutscene.load sampleEnv (GameStateCutscene.ctor 0)
        (some ([⟨true, "vscroll", "text", "b"⟩] ++ [⟨true, "vscroll", "text", "c"⟩])) = some res ∧
      res.ret = true ∧
      res.gs.scenes =
        [{ Scene.ctor sampleEnv.settings_ctor CUTSCENE_VSCROLL with
           components := vscrollDirectives sampleEnv [⟨true, "vscroll", "text", "b"⟩]
             ++ vscrollDirectives sampleEnv [⟨true, "vscroll", "text", "c"⟩]
           is_last_scene := true }] :=
  (adjacent_vscroll_sections_merge sampleEnv
    { cutscene_settings := sampleEnv.settings_ctor, gs := GameStateCutscene.ctor 0, errors := [] }
    [⟨true, "vscroll", "text", "b"⟩] [⟨true, "vscroll", "text", "c"⟩]
    (by decide) (by decide)).2.2 0

/-! ### Scroll speed of a vertical scroller -/

theorem refreshWidgets_vscroll_ticks {F : Type} (env : Env F) (s : Scene F) :
    (Scene.refreshWidgets env s).vscroll_ticks = s.vscroll_ticks := by
  unfold Scene.refreshWidgets
  split
  · unfold Scene.refreshArt Scene.refreshCaption
    split <;> split <;> (try split) <;> simp_all
  · split <;> rfl

/-- The scroll counter after a call on a vertical scroller that is not done, with
no click on its advance control. -/
theorem logic_vscroll_ticks {F : Type} (env : Env F) (s : Scene F) (t : Tick)
    (hty : s.cutscene_type = CUTSCENE_VSCROLL) (hdone : s.done = false)
    (hclick : (t.button s.chooseAdvance).checkClick = false) :
    (Scene.logic env s t).scene.vscroll_ticks
      = s.vscroll_ticks + (if (s.input t).skip then 8 else 1) := by
  have hs : (s.input t).skip_scroll = false := by
    unfold Scene.input Scene.readInput
    split <;> exact hclick
  rw [logic_vscroll env s t hty hdone]
  unfold Scene.logicVScroll
  simp only [hs, Bool.false_eq_true, if_false]
  rw [refreshWidgets_vscroll_ticks]
  rfl

/-- C11, as stated, fails: with the mouse button held down on the advance control
(the control is pressed, the primary button is held, nothing is clicked) a
vertical scroller that is not done advances `vscroll_ticks` by 1, not by 8; and a
scroller that is done does not advance it at all. -/
theorem held_button_on_control_advances_by_one :
    creditsScene.cutscene_type = CUTSCENE_VSCROLL ∧ creditsScene.done = false ∧
    (heldOnControlTick.button creditsScene.chooseAdvance).checkClick = false ∧
    heldOnControlTick.inpt.pressing_MAIN1 = true ∧
    (Scene.logic sampleEnv creditsScene heldOnControlTick).scene.vscroll_ticks
      = creditsScene.vscroll_ticks + 1 ∧
    (Scene.logic sampleEnv { creditsScene with done := true } idleTick).scene.vscroll_ticks
      = creditsScene.vscroll_ticks := by
  decide

/-- C11, amended: for a vertical scroller that is not done, on a tick without a click
on the advance control: if the advance control is not held down and the primary
pointer button or the accept action is held, `vscroll_ticks` increases by exactly
8, whatever the lock flags are; otherwise it increases by exactly 1. -/
theorem vscroll_ticks_advance {F : Type} (env : Env F) (s : Scene F) (t : Tick)
    (hty : s.cutscene_type = CUTSCENE_VSCROLL) (hdone : s.done = false)
    (hclick : (t.button s.chooseAdvance).checkClick = false) :
    (((t.button s.chooseAdvance).pressed = false ∧
        (t.inpt.pressing_MAIN1 = true ∨ t.inpt.pressing_ACCEPT = true)) →
      (Scene.logic env s t).scene.vscroll_ticks = s.vscroll_ticks + 8) ∧
    (¬ ((t.button s.chooseAdvance).pressed = false ∧
        (t.inpt.pressing_MAIN1 = true ∨ t.inpt.pressing_ACCEPT = true)) →
      (Scene.logic env s t).scene.vscroll_ticks = s.vscroll_ticks + 1) := by
  have hiff := input_skip_iff s t
  rw [logic_vscroll_ticks env s t hty hdone hclick]
  constructor
  · intro h
    have hsk : (s.input t).skip = true := by
      rw [hiff]
      refine Or.inr ⟨h.1, ?_⟩
      rcases h.2 with h2 | h2
      · exact Or.inl ⟨h2, Or.inr hty⟩
      · exact Or.inr ⟨h2, Or.inr hty⟩
    rw [hsk]
    rfl
  · intro h
    have hsk : (s.input t).skip = false := by
      cases hsk : (s.input t).skip with
      | false => rfl
      | true =>
        exfalso
        rcases hiff.mp hsk with h1 | ⟨h1, h2⟩
        · rw [hclick] at h1
          exact Bool.false_ne_true h1
        · apply h
          refine ⟨h1, ?_⟩
          rcases h2 with h3 | h3
          · exact Or.inl h3.1
          · exact Or.inr h3.1
    rw [hsk]
    rfl

/-- Witness of the amended C11: the sample scroller on an idle tick advances by 1. -/
theorem vscroll_ticks_advance_witness :
    (Scene.logic sampleEnv creditsScene idleTick).scene.vscroll_ticks
      = creditsScene.vscroll_ticks + 1 :=
  (vscroll_ticks_advance sampleEnv creditsScene idleTick (by decide) (by decide)
    (by decide)).2 (by decide)

/-! ### Scale codes of images -/

theorem sceneKey_image {F : Type} (env : Env F) (r : Record) (hk : r.key = "image") :
    (sceneKey env r).1 =
      { type := "image", s := (env.popFirstString r.val).1,
        x := if CUTSCENE_SCALE_NONE ≤ (env.popFirstInt (env.popFirstString r.val).2).1 ∧
                (env.popFirstInt (env.popFirstString r.val).2).1 ≤ CUTSCENE_SCALE_SCREEN
             then (env.popFirstInt (env.popFirstString r.val).2).1
             else CUTSCENE_SCALE_NONE } := by
  have h1 : ¬ (r.key = "caption") := by rw [hk]; decide
  unfold sceneKey
  rw [if_neg h1, if_pos hk]
  by_cases hv : (env.popFirstInt (env.popFirstString r.val).2).1 < CUTSCENE_SCALE_NONE ∨
      (env.popFirstInt (env.popFirstString r.val).2).1 > CUTSCENE_SCALE_SCREEN
  · have hn : ¬ (CUTSCENE_SCALE_NONE ≤ (env.popFirstInt (env.popFirstString r.val).2).1 ∧
        (env.popFirstInt (env.popFirstString r.val).2).1 ≤ CUTSCENE_SCALE_SCREEN) := by
      intro h
      rcases hv with h2 | h2 <;> omega
    simp only [hv, hn, if_true, if_false, SceneComponent.ctor, hk]
  · have hn : CUTSCENE_SCALE_NONE ≤ (env.popFirstInt (env.popFirstString r.val).2).1 ∧
        (env.popFirstInt (env.popFirstString r.val).2).1 ≤ CUTSCENE_SCALE_SCREEN := by
      constructor <;> omega
    simp only [hv, hn, if_true, if_false, SceneComponent.ctor, hk, and_self]

theorem sceneKey_image_range {F : Type} (env : Env F) (r : Record)
    (h : (sceneKey env r).1.type = "image") :
    0 ≤ (sceneKey env r).1.x ∧ (sceneKey env r).1.x ≤ 2 := by
  by_cases hk : r.key = "image"
  · rw [sceneKey_image env r hk]
    simp only [CUTSCENE_SCALE_NONE, CUTSCENE_SCALE_SCREEN]
    split <;> omega
  · exfalso
    unfold sceneKey at h
    by_cases h1 : r.key = "caption"
    · rw [if_pos h1] at h
      exact hk h
    · rw [if_neg h1, if_neg hk] at h
      by_cases h3 : r.key = "pause"
      · rw [if_pos h3] at h
        exact hk h
      · rw [if_neg h3] at h
        by_cases h4 : r.key = "soundfx"
        · rw [if_pos h4] at h
          exact hk h
        · rw [if_neg h4] at h
          simp [SceneComponent.ctor] at h

theorem vscrollKey_image_range {F : Type} (env : Env F) (r : Record)
    (_h : (vscrollKey env r).1.type = "image") :
    0 ≤ (vscrollKey env r).1.x ∧ (vscrollKey env r).1.x ≤ 2 := by
  unfold vscrollKey
  by_cases h1 : r.key = "text"
  · rw [if_pos h1]; simp [SceneComponent.ctor]
  · rw [if_neg h1]
    by_cases h2 : r.key = "image"
    · rw [if_pos h2]; simp [SceneComponent.ctor]
    · rw [if_neg h2]
      by_cases h3 : r.key = "separator"
      · exfalso
        unfold vscrollKey at _h
        rw [if_neg h1, if_neg h2, if_pos h3] at _h
        exact h2 _h
      · rw [if_neg h3]; simp [SceneComponent.ctor]

theorem imageScalesOk_append {F : Type} (scenes : List (Scene F)) (s : Scene F)
    (h : imageScalesOk scenes) (hs : ∀ c ∈ s.components, c.type = "image" → 0 ≤ c.x ∧ c.x ≤ 2) :
    imageScalesOk (scenes ++ [s]) := by
  intro z hz
  rcases List.mem_append.mp hz with h1 | h1
  · exact h z h1
  · have : z = s := by simpa using h1
    rw [this]
    exact hs

theorem imageScalesOk_loadHeader {F : Type} (cs : CutsceneSettings F) (scenes : List (Scene F))
    (r : Record) (h : imageScalesOk scenes) : imageScalesOk (loadHeader cs scenes r) := by
  have hnew : ∀ ty : Int, imageScalesOk (scenes ++ [Scene.ctor cs ty]) := by
    intro ty
    apply imageScalesOk_append scenes _ h
    intro c hc
    simp [Scene.ctor] at hc
  unfold loadHeader
  split
  · split
    · exact hnew _
    · split
      · split
        · exact hnew _
        · split
          · exact hnew _
          · exact h
      · exact h
  · exact h

theorem imageScalesOk_pushIfTyped {F : Type} (scenes l : List (Scene F)) (sc : SceneComponent)
    (h : imageScalesOk scenes) (hsc : sc.type = "image" → 0 ≤ sc.x ∧ sc.x ≤ 2)
    (hl : pushIfTyped scenes sc = some l) : imageScalesOk l := by
  unfold pushIfTyped at hl
  by_cases ht : sc.type = ""
  · simp [ht] at hl
    rw [← hl]
    exact h
  · rcases List.eq_nil_or_concat scenes with h0 | ⟨L, b, hL⟩
    · simp [ht, h0, backPush] at hl
    · have hL2 : scenes = L ++ [b] := by simpa using hL
      subst hL2
      simp only [ne_eq, ht, not_false_eq_true, if_true, backPush, List.getLast?_concat,
        List.dropLast_concat, Option.map_some', Option.some.injEq] at hl
      rw [← hl]
      apply imageScalesOk_append L _ (fun z hz => h z (List.mem_append.mpr (Or.inl hz)))
      intro c hc
      rcases List.mem_append.mp hc with h1 | h1
      · exact h b (by simp) c h1
      · have : c = sc := by simpa using h1
        rw [this]
        exact hsc

theorem imageScalesOk_loadStep {F : Type} (env : Env F) (st st2 : LoadState F) (r : Record)
    (h : imageScalesOk st.gs.scenes) (hst : loadStep env st r = some st2) :
    imageScalesOk st2.gs.scenes := by
  have hH := imageScalesOk_loadHeader st.cutscene_settings st.gs.scenes r h
  unfold loadStep at hst
  by_cases h0 : r.section_ = ""
  · simp only [h0, if_true] at hst
    split_ifs at hst <;> (simp only [Option.some.injEq] at hst; rw [← hst]; exact hH)
  · rw [if_neg h0] at hst
    by_cases h1 : r.section_ = "scene"
    · rw [if_pos h1] at hst
      cases hp : pushIfTyped (loadHeader st.cutscene_settings st.gs.scenes r) (sceneKey env r).1 with
      | none => simp [hp] at hst
      | some l =>
        simp only [hp, Option.map_some', Option.some.injEq] at hst
        rw [← hst]
        exact imageScalesOk_pushIfTyped _ l _ hH (sceneKey_image_range env r) hp
    · rw [if_neg h1] at hst
      by_cases h2 : r.section_ = "vscroll"
      · rw [if_pos h2] at hst
        cases hp : pushIfTyped (loadHeader st.cutscene_settings st.gs.scenes r)
            (vscrollKey env r).1 with
        | none => simp [hp] at hst
        | some l =>
          simp only [hp, Option.map_some', Option.some.injEq] at hst
          rw [← hst]
          exact imageScalesOk_pushIfTyped _ l _ hH (vscrollKey_image_range env r) hp
      · rw [if_neg h2] at hst
        simp only [Option.some.injEq] at hst
        rw [← hst]
        exact hH

theorem imageScalesOk_loadLoop {F : Type} (env : Env F) (records : List Record) :
    ∀ st st2 : LoadState F, imageScalesOk st.gs.scenes → loadLoop env records st = some st2 →
      imageScalesOk st2.gs.scenes := by
  induction records with
  | nil =>
    intro st st2 h hst
    simp only [loadLoop, Option.some.injEq] at hst
    rw [← hst]
    exact h
  | cons r rs ih =>
    intro st st2 h hst
    simp only [loadLoop] at hst
    cases h1 : loadStep env st r with
    | none => simp [h1] at hst
    | some st1 =>
      rw [h1] at hst
      exact ih st1 st2 (imageScalesOk_loadStep env st st1 r h h1) hst
theorem imageScalesOk_flagLast {F : Type} (scenes : List (Scene F)) (h : imageScalesOk scenes) :
    imageScalesOk (flagLast scenes) := by
  unfold flagLast
  rcases List.eq_nil_or_concat scenes with h0 | ⟨L, b, hL⟩
  · subst h0
    exact h
  · have hL2 : scenes = L ++ [b] := by simpa using hL
    subst hL2
    simp only [List.getLast?_concat, List.dropLast_concat]
    apply imageScalesOk_append L _ (fun z hz => h z (List.mem_append.mpr (Or.inl hz)))
    exact h b (by simp)

/-- C12: an `image` key of a `scene` section with parsed scale code `v` builds an
image directive whose `x` is `v` when `v` is one of the scale codes 0..2 and
`CUTSCENE_SCALE_NONE` otherwise; in both cases the directive is queued on the
last Scene and the loop goes on with the next record; and after `load` every
image directive in the queue of a static Scene has a scale code from 0 to 2. -/
theorem image_scale_code_clamped {F : Type} (env : Env F) :
    (∀ r : Record, r.key = "image" →
      (sceneKey env r).1 =
        { type := "image", s := (env.popFirstString r.val).1,
          x := if CUTSCENE_SCALE_NONE ≤ (env.popFirstInt (env.popFirstString r.val).2).1 ∧
                  (env.popFirstInt (env.popFirstString r.val).2).1 ≤ CUTSCENE_SCALE_SCREEN
               then (env.popFirstInt (env.popFirstString r.val).2).1
               else CUTSCENE_SCALE_NONE }) ∧
    (∀ (st : LoadState F) (r : Record) (rs : List Record) (L : List (Scene F)) (b : Scene F),
      r.section_ = "scene" → r.key = "image" →
      loadHeader st.cutscene_settings st.gs.scenes r = L ++ [b] →
      ∃ st2, loadStep env st r = some st2 ∧
        st2.gs.scenes = L ++ [{ b with components := b.components ++ [(sceneKey env r).1] }] ∧
        loadLoop env (r :: rs) st = loadLoop env rs st2) ∧
    (∀ (game_state : Nat) (records : List Record) (res : LoadResult F),
      GameStateCutscene.load env (GameStateCutscene.ctor game_state) (some records) = some res →
      ∀ s ∈ res.gs.scenes, s.cutscene_type = CUTSCENE_STATIC →
        ∀ c ∈ s.components, c.type = "image" → 0 ≤ c.x ∧ c.x ≤ 2) := by
  refine ⟨sceneKey_image env, ?_, ?_⟩
  · intro st r rs L b hsec hk hH
    have h0 : ¬ (r.section_ = "") := by rw [hsec]; decide
    have hty : (sceneKey env r).1.type ≠ "" := by
      rw [sceneKey_image env r hk]
      show ("image" : String) ≠ ""
      decide
    have e : pushIfTyped (L ++ [b]) (sceneKey env r).1
        = some (L ++ [{ b with components := b.components ++ [(sceneKey env r).1] }]) := by
      simp [pushIfTyped, hty, backPush, List.getLast?_concat, List.dropLast_concat]
    have hstep : loadStep env st r = some
        { st with
          gs := { st.gs with scenes :=
            L ++ [{ b with components := b.components ++ [(sceneKey env r).1] }] }
          errors := st.errors ++ (sceneKey env r).2 } := by
      unfold loadStep
      simp only [if_neg h0, if_pos hsec, hH, e, Option.map_some']
    exact ⟨_, hstep, rfl, by simp [loadLoop, hstep]⟩
  · intro game_state records res hres s hs _ c hc himg
    simp only [GameStateCutscene.load] at hres
    cases hl : loadLoop env records
        { cutscene_settings := env.settings_ctor, gs := GameStateCutscene.ctor game_state,
          errors := [] } with
    | none => simp [hl] at hres
    | some st =>
      have hinv : imageScalesOk st.gs.scenes :=
        imageScalesOk_loadLoop env records _ st
          (by intro z hz; simp [GameStateCutscene.ctor] at hz) hl
      simp only [hl, Option.map_some', Option.some.injEq] at hres
      by_cases he : st.gs.scenes.isEmpty = true
      · simp only [he, if_true] at hres
        rw [← hres] at hs
        exact hinv s hs c hc himg
      · simp only [he, Bool.false_eq_true, if_false] at hres
        rw [← hres] at hs
        exact imageScalesOk_flagLast _ hinv s hs c hc himg

/-- Witness of C12: a scale code of 1 is kept by the `image` key of a `scene`
section. -/
theorem image_scale_code_clamped_witness :
    (sceneKey sampleEnv ⟨true, "scene", "image", "bg.png,1"⟩).1
      = { type := "image", s := "bg.png,1", x := 1 } :=
  ((image_scale_code_clamped sampleEnv).1 ⟨true, "scene", "image", "bg.png,1"⟩ rfl).trans
    (by decide)

/-! ### Rejected records -/

theorem sceneKey_invalid {F : Type} (env : Env F) (r : Record)
    (h : (["caption", "image", "pause", "soundfx"].contains r.key) = false) :
    sceneKey env r = (SceneComponent.ctor, [ParseError.invalid_key r.key]) := by
  simp only [List.contains_cons, List.contains_nil, Bool.or_false, Bool.or_eq_false_iff,
    beq_eq_false_iff_ne, ne_eq] at h
  obtain ⟨h1, h2, h3, h4⟩ := h
  unfold sceneKey
  rw [if_neg h1, if_neg h2, if_neg h3, if_neg h4]

theorem vscrollKey_invalid {F : Type} (env : Env F) (r : Record)
    (h : (["text", "image", "separator"].contains r.key) = false) :
    vscrollKey env r = (SceneComponent.ctor, [ParseError.invalid_key r.key]) := by
  simp only [List.contains_cons, List.contains_nil, Bool.or_false, Bool.or_eq_false_iff,
    beq_eq_false_iff_ne, ne_eq] at h
  obtain ⟨h1, h2, h3⟩ := h
  unfold vscrollKey
  rw [if_neg h1, if_neg h2, if_neg h3]

/-- A rejected record leaves the state of the loop as the handling of its section
header left it, with one error more. -/
theorem loadStep_invalid {F : Type} (env : Env F) (st : LoadState F) (r : Record)
    (h : r.invalid = true) :
    loadStep env st r = some
      { st with
        gs := { st.gs with scenes := loadHeader st.cutscene_settings st.gs.scenes r }
        errors := st.errors ++ [r.parseError] } := by
  unfold Record.invalid at h
  unfold loadStep Record.parseError
  by_cases h0 : r.section_ = ""
  · rw [if_pos h0] at h
    simp only [List.contains_cons, List.contains_nil, Bool.or_false, Bool.not_eq_true',
      Bool.or_eq_false_iff, beq_eq_false_iff_ne, ne_eq] at h
    obtain ⟨k1, k2, k3, k4, k5⟩ := h
    rw [if_pos h0, if_neg k1, if_neg k2, if_neg k3, if_neg k4, if_neg k5, if_pos (Or.inl h0)]
  · rw [if_neg h0] at h
    rw [if_neg h0]
    by_cases h1 : r.section_ = "scene"
    · rw [if_pos h1] at h
      rw [if_pos h1, if_pos (Or.inr (Or.inl h1)),
        sceneKey_invalid env r (by simpa using h)]
      simp [pushIfTyped, SceneComponent.ctor]
    · rw [if_neg h1] at h
      rw [if_neg h1]
      by_cases h2 : r.section_ = "vscroll"
      · rw [if_pos h2] at h
        rw [if_pos h2, if_pos (Or.inr (Or.inr h2)),
          vscrollKey_invalid env r (by simpa using h)]
        simp [pushIfTyped, SceneComponent.ctor]
      · rw [if_neg h2, if_neg (by simp [h0, h1, h2])]

/-- Handling a section header only appends: the scenes there stay as they are, a
Scene it creates has an empty queue, and without a header nothing is created. -/
theorem loadHeader_appends {F : Type} (cs : CutsceneSettings F) (scenes : List (Scene F))
    (r : Record) :
    ∃ created, loadHeader cs scenes r = scenes ++ created ∧
      (∀ s ∈ created, s.components = [] ∧ s.cutscene_settings = cs) ∧
      created.length ≤ 1 ∧
      (r.new_section = false → created = []) := by
  unfold loadHeader
  by_cases hn : r.new_section = true
  · have hnf : ¬ (r.new_section = false) := by simp [hn]
    have mk : ∀ ty : Int, ∃ created, scenes ++ [Scene.ctor cs ty] = scenes ++ created ∧
        (∀ s ∈ created, s.components = [] ∧ s.cutscene_settings = cs) ∧
        created.length ≤ 1 ∧ (r.new_section = false → created = []) := by
      intro ty
      refine ⟨[Scene.ctor cs ty], rfl, ?_, by simp, fun h => absurd h hnf⟩
      intro s hs
      have : s = Scene.ctor cs ty := by simpa using hs
      rw [this]
      exact ⟨rfl, rfl⟩
    have keep : ∃ created, scenes = scenes ++ created ∧
        (∀ s ∈ created, s.components = [] ∧ s.cutscene_settings = cs) ∧
        created.length ≤ 1 ∧ (r.new_section = false → created = []) :=
      ⟨[], by simp, by simp, by simp, fun _ => rfl⟩
    rw [if_pos hn]
    split
    · exact mk _
    · split
      · split
        · exact mk _
        · split
          · exact mk _
          · exact keep
      · exact keep
  · rw [if_neg hn]
    exact ⟨[], by simp, by simp, by simp, fun _ => rfl⟩

/-- The loop body does not read the error log. -/
theorem loadStep_core {F : Type} (env : Env F) (st st2 : LoadState F) (r : Record)
    (h : st.core = st2.core) :
    (loadStep env st r).map LoadState.core = (loadStep env st2 r).map LoadState.core := by
  obtain ⟨cs, gs, e⟩ := st
  obtain ⟨cs2, gs2, e2⟩ := st2
  simp only [LoadState.core, Prod.mk.injEq] at h
  obtain ⟨h1, h2⟩ := h
  subst h1 h2
  unfold loadStep
  split_ifs <;> simp [LoadState.core, Option.map_map, Function.comp_def]

theorem loadLoop_core {F : Type} (env : Env F) (records : List Record) :
    ∀ st st2 : LoadState F, st.core = st2.core →
      (loadLoop env records st).map LoadState.core
        = (loadLoop env records st2).map LoadState.core := by
  induction records with
  | nil =>
    intro st st2 h
    simp [loadLoop, h]
  | cons r rs ih =>
    intro st st2 h
    have hs := loadStep_core env st st2 r h
    simp only [loadLoop]
    cases h1 : loadStep env st r with
    | none =>
      rw [h1] at hs
      cases h2 : loadStep env st2 r with
      | none => rfl
      | some b => rw [h2] at hs; simp at hs
    | some a =>
      rw [h1] at hs
      cases h2 : loadStep env st2 r with
      | none => rw [h2] at hs; simp at hs
      | some b =>
        rw [h2] at hs
        simp only [Option.map_some', Option.some.injEq] at hs
        simpa using ih a b hs
theorem load_outcome {F : Type} (env : Env F) (gs : GameStateCutscene F) (records : List Record) :
    (GameStateCutscene.load env gs (some records)).map LoadResult.outcome
      = ((loadLoop env records
            { cutscene_settings := env.settings_ctor, gs := gs, errors := [] }).map
          LoadState.core).map
        (fun c => if c.2.scenes.isEmpty then (false, c.2, false)
                  else (true, { c.2 with scenes := flagLast c.2.scenes }, true)) := by
  simp only [GameStateCutscene.load, Option.map_map]
  congr 1
  funext st
  simp only [Function.comp_def, LoadState.core]
  split <;> rfl

/-- What the section header of a record creates (lines 453-464): the header of a
`scene` section a static Scene, the header of a `vscroll` section a vertical
scroller unless the last Scene is one already, anything else nothing; the Scene
created is constructed with the settings of the moment and an empty queue, and
the Scenes there stay as they are. -/
theorem loadHeader_created {F : Type} (cs : CutsceneSettings F) (scenes : List (Scene F))
    (r : Record) :
    ∃ created, loadHeader cs scenes r = scenes ++ created ∧
      (∀ s ∈ created, s.components = []) ∧ created.length ≤ 1 ∧
      (r.new_section = true → r.section_ = "scene" →
        created = [Scene.ctor cs CUTSCENE_STATIC]) ∧
      (r.new_section = true → r.section_ = "vscroll" →
        (∀ b, scenes.getLast? = some b → b.cutscene_type ≠ CUTSCENE_VSCROLL) →
        created = [Scene.ctor cs CUTSCENE_VSCROLL]) ∧
      (r.new_section = true → r.section_ = "vscroll" →
        (∃ b, scenes.getLast? = some b ∧ b.cutscene_type = CUTSCENE_VSCROLL) →
        created = []) ∧
      (r.new_section = true → r.section_ ≠ "scene" → r.section_ ≠ "vscroll" →
        created = []) ∧
      (r.new_section = false → created = []) := by
  unfold loadHeader
  have one : ∀ ty : Int, ∀ s ∈ [Scene.ctor cs ty], s.components = [] := by
    intro ty s hs
    rw [List.mem_singleton.mp hs]
    rfl
  by_cases hn : r.new_section = true
  · have hnf : ¬ (r.new_section = false) := by simp [hn]
    rw [if_pos hn]
    by_cases h1 : r.section_ = "scene"
    · have hsv : ¬ (r.section_ = "vscroll") := by rw [h1]; decide
      rw [if_pos h1]
      exact ⟨[Scene.ctor cs CUTSCENE_STATIC], rfl, one _, Nat.le_refl 1, fun _ _ => rfl,
        fun _ h2 => absurd h2 hsv, fun _ h2 => absurd h2 hsv, fun _ hns => absurd h1 hns,
        fun h => absurd h hnf⟩
    · rw [if_neg h1]
      by_cases h2 : r.section_ = "vscroll"
      · rw [if_pos h2]
        cases hl : scenes.getLast? with
        | none =>
          refine ⟨[Scene.ctor cs CUTSCENE_VSCROLL], rfl, one _, Nat.le_refl 1,
            fun _ h => absurd h h1, fun _ _ _ => rfl, ?_, fun _ _ h => absurd h2 h,
            fun h => absurd h hnf⟩
          rintro _ _ ⟨b, hb, _⟩
          cases hb
        | some b =>
          by_cases hb : b.cutscene_type = CUTSCENE_VSCROLL
          · have e : (if b.cutscene_type ≠ CUTSCENE_VSCROLL
                then scenes ++ [Scene.ctor cs CUTSCENE_VSCROLL] else scenes) = scenes ++ [] := by
              rw [if_neg (by simp [hb]), List.append_nil]
            refine ⟨[], e, by simp, by simp, fun _ h => absurd h h1, ?_, fun _ _ _ => rfl,
              fun _ _ _ => rfl, fun _ => rfl⟩
            intro _ _ hall
            exact absurd hb (hall b rfl)
          · have e : (if b.cutscene_type ≠ CUTSCENE_VSCROLL
                then scenes ++ [Scene.ctor cs CUTSCENE_VSCROLL] else scenes)
                = scenes ++ [Scene.ctor cs CUTSCENE_VSCROLL] := by
              rw [if_pos hb]
            refine ⟨[Scene.ctor cs CUTSCENE_VSCROLL], e, one _, Nat.le_refl 1,
              fun _ h => absurd h h1, fun _ _ _ => rfl, ?_, fun _ _ h => absurd h2 h,
              fun h => absurd h hnf⟩
            rintro _ _ ⟨b2, hb2, hty⟩
            cases hb2
            exact absurd hty hb
      · rw [if_neg h2]
        exact ⟨[], (List.append_nil _).symm, by simp, by simp, fun _ h => absurd h h1,
          fun _ h => absurd h h2, fun _ h => absurd h h2, fun _ _ _ => rfl, fun _ => rfl⟩
  · rw [if_neg hn]
    exact ⟨[], (List.append_nil _).symm, by simp, by simp, fun h => absurd h hn,
      fun h => absurd h hn, fun h => absurd h hn, fun h => absurd h hn, fun _ => rfl⟩

/-- C13, as stated, fails: a file whose only key is a rejected key of a `scene`
section loads (one Scene is created by its header and `load` returns true),
whereas without that key the parser yields no record, no Scene is created and
`load` returns false. -/
theorem rejected_first_key_still_creates_scene :
    (⟨true, "scene", "bogus", "x"⟩ : Record).invalid = true ∧
    (GameStateCutscene.load sampleEnv (GameStateCutscene.ctor 0)
        (some [⟨true, "scene", "bogus", "x"⟩])).map
      (fun res => (res.ret, res.gs.scenes.length, res.errors))
      = some (true, 1, [ParseError.invalid_key "bogus"]) ∧
    (GameStateCutscene.load sampleEnv (GameStateCutscene.ctor 0) (some [])).map
      (fun res => (res.ret, res.gs.scenes.length, res.errors))
      = some (false, 0, []) := by
  decide

/-- C13, amended: a record whose key is not valid for its section, or whose section
is none of global, `scene`, `vscroll`, makes `load` report one parse error, queue
no component on any Scene and leave the settings unchanged; the loop goes on
from the state it had, changed only by what the section header the record
carries creates. The header of a `scene` section creates one static Scene, the
header of a `vscroll` section one vertical scroller unless the last Scene is a
vertical scroller already (the section then joins it and nothing is created);
the Scene is constructed with the settings of the moment and its queue is empty.
A record without a header, or with the header of another section, creates
nothing. When the record carries no header the load goes on exactly as if the
record had not been present: the result and the Scenes are the same, so the
record never makes `load` fail. -/
theorem rejected_record_is_skipped {F : Type} (env : Env F) (st : LoadState F) (r : Record)
    (h : r.invalid = true) :
    (∃ created, loadStep env st r = some
        { st with
          gs := { st.gs with scenes := st.gs.scenes ++ created }
          errors := st.errors ++ [r.parseError] } ∧
      (∀ s ∈ created, s.components = []) ∧ created.length ≤ 1 ∧
      (r.new_section = true → r.section_ = "scene" →
        created = [Scene.ctor st.cutscene_settings CUTSCENE_STATIC]) ∧
      (r.new_section = true → r.section_ = "vscroll" →
        (∀ b, st.gs.scenes.getLast? = some b → b.cutscene_type ≠ CUTSCENE_VSCROLL) →
        created = [Scene.ctor st.cutscene_settings CUTSCENE_VSCROLL]) ∧
      (r.new_section = true → r.section_ = "vscroll" →
        (∃ b, st.gs.scenes.getLast? = some b ∧ b.cutscene_type = CUTSCENE_VSCROLL) →
        created = []) ∧
      (r.new_section = true → r.section_ ≠ "scene" → r.section_ ≠ "vscroll" →
        created = []) ∧
      (r.new_section = false → created = [])) ∧
    (r.new_section = false →
      ∀ (gs : GameStateCutscene F) (pre post : List Record),
        (GameStateCutscene.load env gs (some (pre ++ r :: post))).map LoadResult.outcome
          = (GameStateCutscene.load env gs (some (pre ++ post))).map LoadResult.outcome) := by
  constructor
  · obtain ⟨created, hc, hrest⟩ := loadHeader_created st.cutscene_settings st.gs.scenes r
    refine ⟨created, ?_, hrest⟩
    rw [loadStep_invalid env st r h, hc]
  · intro hn gs pre post
    rw [load_outcome, load_outcome]
    congr 1
    rw [loadLoop_append, loadLoop_append]
    cases loadLoop env pre
        { cutscene_settings := env.settings_ctor, gs := gs, errors := [] } with
    | none => rfl
    | some st1 =>
      have hH : loadHeader st1.cutscene_settings st1.gs.scenes r = st1.gs.scenes := by
        unfold loadHeader
        rw [if_neg (by simp [hn])]
      simp only [Option.some_bind, loadLoop, loadStep_invalid env st1 r h, hH]
      exact loadLoop_core env post _ st1 rfl

/-- Witness of the amended C13: an unknown key in the middle of the `scene` section
of the sample file changes nothing of the outcome; an unknown key that opens a
`scene` section, read first, is reported and leaves the one static Scene its
header creates; and an unknown key that opens a `vscroll` section, read first,
the one vertical scroller its header creates. -/
theorem rejected_record_is_skipped_witness :
    (GameStateCutscene.load sampleEnv (GameStateCutscene.ctor 0)
        (some ([⟨true, "scene", "image", "bg.png,1"⟩] ++
          ⟨false, "scene", "bogus", "x"⟩ :: [⟨false, "scene", "caption", "Hello"⟩]))).map
      LoadResult.outcome
    = (GameStateCutscene.load sampleEnv (GameStateCutscene.ctor 0)
        (some ([⟨true, "scene", "image", "bg.png,1"⟩] ++
          [⟨false, "scene", "caption", "Hello"⟩]))).map LoadResult.outcome ∧
    (loadStep sampleEnv freshLoadState ⟨true, "scene", "bogus", "x"⟩).map
        (fun st => (st.gs.scenes, st.errors))
      = some ([Scene.ctor sampleEnv.settings_ctor CUTSCENE_STATIC],
          [ParseError.invalid_key "bogus"]) ∧
    (loadStep sampleEnv freshLoadState ⟨true, "vscroll", "bogus", "x"⟩).map
        (fun st => (st.gs.scenes, st.errors))
      = some ([Scene.ctor sampleEnv.settings_ctor CUTSCENE_VSCROLL],
          [ParseError.invalid_key "bogus"]) := by
  refine ⟨?_, ?_, ?_⟩
  · exact (rejected_record_is_skipped sampleEnv freshLoadState
      ⟨false, "scene", "bogus", "x"⟩ (by decide)).2 rfl (GameStateCutscene.ctor 0)
      [⟨true, "scene", "image", "bg.png,1"⟩] [⟨false, "scene", "caption", "Hello"⟩]
  · obtain ⟨created, hc, _, _, hscene, _⟩ :=
      (rejected_record_is_skipped sampleEnv freshLoadState
        ⟨true, "scene", "bogus", "x"⟩ (by decide)).1
    rw [hc, hscene rfl rfl]
    rfl
  · obtain ⟨created, hc, _, _, _, hvs, _⟩ :=
      (rejected_record_is_skipped sampleEnv freshLoadState
        ⟨true, "vscroll", "bogus", "x"⟩ (by decide)).1
    rw [hc, hvs rfl rfl (fun b hb => by cases hb)]
    rfl

/-! ### The sequencer -/

theorem finishedCalls_succ (k n : Nat) :
    finishedCalls k (n + 1) = ⟨k, false⟩ :: finishedCalls (k + 1) n := by
  simp only [finishedCalls, List.range_succ_eq_map, List.map_cons, List.map_map, Nat.add_zero]
  congr 1
  apply List.map_congr_left
  intro i _
  simp only [Function.comp_apply, SceneCall.mk.injEq, and_true]
  omega

/-- The loop of line 429, split at the first Scene that keeps running: the Scenes
before it return "finished" and are removed; it is ticked once, returns "running"
and becomes the front; the Scenes behind it are not ticked. -/
theorem sceneLoop_split {F : Type} (env : Env F) (obs : Nat → Tick) (scenes : List (Scene F)) :
    ∀ k : Nat, ∃ removed kept, scenes = removed ++ kept ∧
      (∀ (i : Nat) (s : Scene F), removed[i]? = some s →
        (Scene.logic env s (obs (k + i))).ret = false) ∧
      (kept = [] →
        (sceneLoop env obs k scenes).scenes = [] ∧
        (sceneLoop env obs k scenes).calls = finishedCalls k removed.length) ∧
      (∀ f tail, kept = f :: tail →
        (Scene.logic env f (obs (k + removed.length))).ret = true ∧
        (sceneLoop env obs k scenes).scenes
          = (Scene.logic env f (obs (k + removed.length))).scene :: tail ∧
        (sceneLoop env obs k scenes).calls
          = finishedCalls k removed.length ++ [⟨k + removed.length, true⟩]) := by
  induction scenes with
  | nil =>
    intro k
    refine ⟨[], [], rfl, ?_, ?_, ?_⟩
    · intro i s h
      simp at h
    · intro _
      exact ⟨rfl, rfl⟩
    · intro f tail h
      cases h
  | cons s rest ih =>
    intro k
    cases hr : (Scene.logic env s (obs k)).ret with
    | true =>
      refine ⟨[], s :: rest, rfl, ?_, ?_, ?_⟩
      · intro i z h
        simp at h
      · intro h
        cases h
      · intro f tail h
        cases h
        have e : sceneLoop env obs k (s :: rest) =
            { scenes := (Scene.logic env s (obs k)).scene :: rest,
              snd := (Scene.logic env s (obs k)).snd, calls := [⟨k, true⟩] } := by
          simp [sceneLoop, hr]
        rw [e]
        exact ⟨hr, rfl, rfl⟩
    | false =>
      obtain ⟨removed, kept, hsplit, hfin, hnil, hcons⟩ := ih (k + 1)
      have e : sceneLoop env obs k (s :: rest) =
          { scenes := (sceneLoop env obs (k + 1) rest).scenes,
            snd := (Scene.logic env s (obs k)).snd ++ (sceneLoop env obs (k + 1) rest).snd,
            calls := ⟨k, false⟩ :: (sceneLoop env obs (k + 1) rest).calls } := by
        simp [sceneLoop, hr]
      refine ⟨s :: removed, kept, by rw [hsplit]; rfl, ?_, ?_, ?_⟩
      · intro i z h
        cases i with
        | zero =>
          simp only [List.getElem?_cons_zero, Option.some.injEq] at h
          rw [← h]
          exact hr
        | succ j =>
          simp only [List.getElem?_cons_succ] at h
          have := hfin j z h
          rw [show k + (j + 1) = k + 1 + j by omega]
          exact this
      · intro h
        obtain ⟨h1, h2⟩ := hnil h
        rw [e, List.length_cons, finishedCalls_succ]
        exact ⟨h1, by rw [h2]⟩
      · intro f tail h
        obtain ⟨h1, h2, h3⟩ := hcons f tail h
        rw [e, List.length_cons, finishedCalls_succ,
          show k + (removed.length + 1) = k + 1 + removed.length by omega]
        exact ⟨h1, h2, by rw [h3]; rfl⟩

theorem init_fields {F : Type} (env : Env F) (gs : GameStateCutscene F) :
    (GameStateCutscene.init env gs).1.scenes = gs.scenes ∧
    (GameStateCutscene.init env gs).1.game_slot = gs.game_slot ∧
    (GameStateCutscene.init env gs).1.previous_gamestate = gs.previous_gamestate ∧
    (GameStateCutscene.init env gs).1.requested = gs.requested ∧
    (GameStateCutscene.init env gs).1.music = gs.music ∧
    (GameStateCutscene.init env gs).1.initialized = true := by
  unfold GameStateCutscene.init
  split
  · simp_all
  · simp

/-- C14: a call of `GameStateCutscene::logic` on an empty queue requests the
hand-off state (gameplay loaded from `game_slot` when it is not -1, the previous
state otherwise) and ticks no Scene. On a queue that is not empty it requests
nothing; the queue splits as `removed ++ kept`, every Scene of `removed` was
ticked once, in order, and returned "finished"; if `kept` is empty the queue ends
empty; otherwise the front `f` of `kept` was ticked once, last, and returned
"running", the queue ends as `f` (after its tick) followed by the Scenes behind
it, untouched, and nothing else was ticked. -/
theorem sequencer_logic_pops_finished {F : Type} (env : Env F) (gs : GameStateCutscene F)
    (obs : Nat → Tick) :
    (gs.scenes = [] →
      (GameStateCutscene.logic env gs obs).gs.requested
        = some (if gs.game_slot ≠ -1 then RequestedState.play gs.game_slot
                else RequestedState.previous gs.previous_gamestate) ∧
      (GameStateCutscene.logic env gs obs).calls = [] ∧
      (GameStateCutscene.logic env gs obs).gs.scenes = []) ∧
    (gs.scenes ≠ [] →
      (GameStateCutscene.logic env gs obs).gs.requested = gs.requested ∧
      ∃ removed kept, gs.scenes = removed ++ kept ∧
        (∀ (i : Nat) (s : Scene F), removed[i]? = some s →
          (Scene.logic env s (obs i)).ret = false) ∧
        (kept = [] →
          (GameStateCutscene.logic env gs obs).gs.scenes = [] ∧
          (GameStateCutscene.logic env gs obs).calls = finishedCalls 0 removed.length) ∧
        (∀ f tail, kept = f :: tail →
          (Scene.logic env f (obs removed.length)).ret = true ∧
          (GameStateCutscene.logic env gs obs).gs.scenes
            = (Scene.logic env f (obs removed.length)).scene :: tail ∧
          (GameStateCutscene.logic env gs obs).calls
            = finishedCalls 0 removed.length ++ [⟨removed.length, true⟩])) := by
  obtain ⟨i1, i2, i3, i4, _, _⟩ := init_fields env gs
  constructor
  · intro he
    have hemp : (GameStateCutscene.init env gs).1.scenes.isEmpty = true := by
      rw [i1, he]; rfl
    unfold GameStateCutscene.logic
    simp only [hemp, if_true]
    by_cases hslot : gs.game_slot ≠ -1
    · rw [if_pos (by rw [i2]; exact hslot), if_pos hslot]
      exact ⟨by rw [i2], rfl, by rw [i1, he]⟩
    · rw [if_neg (by rw [i2]; exact hslot), if_neg hslot]
      exact ⟨by rw [i3], rfl, by rw [i1, he]⟩
  · intro hne
    have hemp : (GameStateCutscene.init env gs).1.scenes.isEmpty = false := by
      rw [i1]
      cases hs : gs.scenes with
      | nil => exact absurd hs hne
      | cons a l => rfl
    obtain ⟨removed, kept, hsplit, hfin, hnil, hcons⟩ := sceneLoop_split env obs gs.scenes 0
    simp only [Nat.zero_add] at hfin hcons
    have e : GameStateCutscene.logic env gs obs =
        { gs := { (GameStateCutscene.init env gs).1 with
                  scenes := (sceneLoop env obs 0 gs.scenes).scenes },
          snd := (GameStateCutscene.init env gs).2 ++ (sceneLoop env obs 0 gs.scenes).snd,
          calls := (sceneLoop env obs 0 gs.scenes).calls } := by
      unfold GameStateCutscene.logic
      simp only [hemp, Bool.false_eq_true, if_false]
      rw [i1]
    rw [e]
    exact ⟨i4, removed, kept, hsplit, hfin, hnil, hcons⟩

/-- Witness of C14 on the sample sequencer: its first two Scenes finish at once,
the third keeps running. -/
theorem sequencer_logic_pops_finished_witness :
    (GameStateCutscene.logic sampleEnv sampleSequencer (fun _ => idleTick)).gs.requested
      = sampleSequencer.requested :=
  ((sequencer_logic_pops_finished sampleEnv sampleSequencer (fun _ => idleTick)).2
    (by decide)).1

/-! ### Music is started once -/

theorem applyComponent_no_music {F : Type} (env : Env F) (s : Scene F) (c : SceneComponent) :
    musicRequests (Scene.applyComponent env s c).2 = [] := by
  unfold Scene.applyComponent
  split
  · rfl
  · split
    · rfl
    · split
      · split <;> rfl
      · rfl

theorem musicRequests_append (a b : List SndReq) :
    musicRequests (a ++ b) = musicRequests a ++ musicRequests b := by
  simp [musicRequests]

theorem drain_no_music {F : Type} (env : Env F) (q : List SceneComponent) :
    ∀ (s : Scene F) (out : List SndReq), musicRequests out = [] →
      musicRequests (Scene.drain env q s out).2 = [] := by
  induction q with
  | nil =>
    intro s out h
    exact h
  | cons c q ih =>
    intro s out h
    simp only [Scene.drain]
    split
    · exact h
    · apply ih
      rw [musicRequests_append, h, applyComponent_no_music]
      rfl

/-- No call of `Scene::logic` sends a request about the background music. -/
theorem logic_no_music {F : Type} (env : Env F) (s : Scene F) (t : Tick) :
    musicRequests (Scene.logic env s t).snd = [] := by
  have hd := drain_no_music env (s.enter t).components (s.enter t) [] rfl
  unfold Scene.logic
  split
  · rfl
  · split
    · unfold Scene.logicStatic
      split
      · rfl
      · dsimp only
        split <;> exact hd
    · split
      · unfold Scene.logicVScroll
        dsimp only
        split <;> rfl
      · rfl

theorem sceneLoop_no_music {F : Type} (env : Env F) (obs : Nat → Tick) (scenes : List (Scene F)) :
    ∀ k : Nat, musicRequests (sceneLoop env obs k scenes).snd = [] := by
  induction scenes with
  | nil =>
    intro k
    rfl
  | cons s rest ih =>
    intro k
    simp only [sceneLoop]
    split
    · exact logic_no_music env s (obs k)
    · rw [musicRequests_append, logic_no_music, ih]
      rfl

theorem init_of_initialized {F : Type} (env : Env F) (z : GameStateCutscene F)
    (h : z.initialized = true) : GameStateCutscene.init env z = (z, []) := by
  unfold GameStateCutscene.init
  rw [if_pos h]

/-- The music requests of `init`: the stop and start pair when the sequencer is
not initialised yet, the volume is positive and a track is configured. -/
theorem init_music {F : Type} (env : Env F) (gs : GameStateCutscene F) :
    (GameStateCutscene.init env gs).2
      = (if gs.initialized = false ∧ env.music_volume > 0 ∧ gs.music ≠ "" then
          [SndReq.stopMusic, SndReq.loadMusic gs.music]
         else []) ∧
    musicRequests (GameStateCutscene.init env gs).2 = (GameStateCutscene.init env gs).2 := by
  unfold GameStateCutscene.init
  cases hi : gs.initialized with
  | true => simp [musicRequests]
  | false =>
    by_cases hm : env.music_volume > 0 ∧ gs.music ≠ ""
    · simp [hm, musicRequests, SndReq.isMusic]
    · simp [hm, musicRequests]

theorem sequencer_logic_music {F : Type} (env : Env F) (gs : GameStateCutscene F)
    (obs : Nat → Tick) :
    musicRequests (GameStateCutscene.logic env gs obs).snd = (GameStateCutscene.init env gs).2 ∧
    (GameStateCutscene.logic env gs obs).gs.initialized = true ∧
    (GameStateCutscene.logic env gs obs).gs.music = gs.music := by
  obtain ⟨_, _, _, _, i5, i6⟩ := init_fields env gs
  obtain ⟨_, m2⟩ := init_music env gs
  unfold GameStateCutscene.logic
  dsimp only
  split
  · split
    · exact ⟨m2, i6, i5⟩
    · exact ⟨m2, i6, i5⟩
  · refine ⟨?_, i6, i5⟩
    show musicRequests ((GameStateCutscene.init env gs).2 ++ _) = _
    rw [musicRequests_append, sceneLoop_no_music, m2, List.append_nil]

/-- C15: `init` is idempotent (a second call leaves the state of the first and
sends nothing more); and over any sequence of calls of `logic` the stop and
start requests for the music are sent only in the first call, and there only if
the sequencer was not initialised yet, the music volume is positive and a track
is configured; no later call sends a music request. -/
theorem init_runs_once {F : Type} (env : Env F) (gs : GameStateCutscene F) :
    GameStateCutscene.init env (GameStateCutscene.init env gs).1
      = ((GameStateCutscene.init env gs).1, []) ∧
    (∀ (obs : Nat → Tick) (more : List (Nat → Tick)),
      (GameStateCutscene.frames env gs (obs :: more)).2.map musicRequests
        = (if gs.initialized = false ∧ env.music_volume > 0 ∧ gs.music ≠ "" then
            [SndReq.stopMusic, SndReq.loadMusic gs.music]
           else []) :: List.replicate more.length []) := by
  constructor
  · exact init_of_initialized env _ (init_fields env gs).2.2.2.2.2
  · have later : ∀ (more : List (Nat → Tick)) (z : GameStateCutscene F), z.initialized = true →
        (GameStateCutscene.frames env z more).2.map musicRequests
          = List.replicate more.length [] := by
      intro more
      induction more with
      | nil =>
        intro z _
        rfl
      | cons o rest ih =>
        intro z hz
        obtain ⟨s1, s2, _⟩ := sequencer_logic_music env z o
        have hz2 : (GameStateCutscene.init env z).2 = [] := by
          rw [(init_music env z).1]
          simp [hz]
        simp only [GameStateCutscene.frames, List.map_cons, List.length_cons,
          List.replicate_succ, s1, hz2, ih _ s2]
    intro obs more
    obtain ⟨s1, s2, _⟩ := sequencer_logic_music env gs obs
    simp only [GameStateCutscene.frames, List.map_cons, s1, (init_music env gs).1,
      later more _ s2]

/-- Witness of C15: three frames of the sample sequencer (music configured, volume
64) send the stop and start pair in the first frame only. -/
theorem init_runs_once_witness :
    (GameStateCutscene.frames sampleEnv sampleSequencer
        [fun _ => idleTick, fun _ => idleTick, fun _ => idleTick]).2.map musicRequests
      = [[SndReq.stopMusic, SndReq.loadMusic "theme.ogg"], [], []] :=
  ((init_runs_once sampleEnv sampleSequencer).2 (fun _ => idleTick)
    [fun _ => idleTick, fun _ => idleTick]).trans (by decide)

/-! ### Settings are copied into a Scene when it is created -/

theorem settingsOf_pushIfTyped {F : Type} (scenes l : List (Scene F)) (sc : SceneComponent)
    (h : pushIfTyped scenes sc = some l) : settingsOf l = settingsOf scenes := by
  unfold pushIfTyped at h
  by_cases ht : sc.type = ""
  · simp [ht] at h
    rw [h]
  · rcases List.eq_nil_or_concat scenes with h0 | ⟨L, b, hL⟩
    · simp [ht, h0, backPush] at h
    · have hL2 : scenes = L ++ [b] := by simpa using hL
      subst hL2
      simp only [ne_eq, ht, not_false_eq_true, if_true, backPush, List.getLast?_concat,
        List.dropLast_concat, Option.map_some', Option.some.injEq] at h
      rw [← h]
      simp [settingsOf]

theorem settingsOf_flagLast {F : Type} (scenes : List (Scene F)) :
    settingsOf (flagLast scenes) = settingsOf scenes := by
  unfold flagLast
  rcases List.eq_nil_or_concat scenes with h0 | ⟨L, b, hL⟩
  · subst h0
    rfl
  · have hL2 : scenes = L ++ [b] := by simpa using hL
    subst hL2
    simp [settingsOf, List.getLast?_concat, List.dropLast_concat]

/-- One record: the settings move by the global key, the Scenes there keep their
settings, and a Scene the record creates holds the settings of before the
record. -/
theorem loadStep_settings {F : Type} (env : Env F) (st st2 : LoadState F) (r : Record)
    (h : loadStep env st r = some st2) :
    st2.cutscene_settings = globalKey env st.cutscene_settings r ∧
    ∃ created, settingsOf st2.gs.scenes = settingsOf st.gs.scenes ++ created ∧
      ∀ c ∈ created, c = st.cutscene_settings := by
  obtain ⟨created, hc, h1, _, _⟩ := loadHeader_appends st.cutscene_settings st.gs.scenes r
  have hH : settingsOf (loadHeader st.cutscene_settings st.gs.scenes r)
      = settingsOf st.gs.scenes ++ settingsOf created := by
    rw [hc]
    simp [settingsOf]
  have hcr : ∀ c ∈ settingsOf created, c = st.cutscene_settings := by
    intro c hcm
    simp only [settingsOf, List.mem_map] at hcm
    obtain ⟨s, hs, rfl⟩ := hcm
    exact (h1 s hs).2
  unfold loadStep at h
  unfold globalKey
  by_cases h0 : r.section_ = ""
  · rw [if_pos h0] at h
    rw [if_pos h0]
    split_ifs at h ⊢ <;>
      (simp only [Option.some.injEq] at h; rw [← h]; exact ⟨rfl, _, hH, hcr⟩)
  · rw [if_neg h0] at h
    rw [if_neg h0]
    by_cases h1 : r.section_ = "scene"
    · rw [if_pos h1] at h
      cases hp : pushIfTyped (loadHeader st.cutscene_settings st.gs.scenes r) (sceneKey env r).1 with
      | none => simp [hp] at h
      | some l =>
        simp only [hp, Option.map_some', Option.some.injEq] at h
        rw [← h]
        exact ⟨rfl, _, (settingsOf_pushIfTyped _ l _ hp).trans hH, hcr⟩
    · rw [if_neg h1] at h
      by_cases h2 : r.section_ = "vscroll"
      · rw [if_pos h2] at h
        cases hp : pushIfTyped (loadHeader st.cutscene_settings st.gs.scenes r)
            (vscrollKey env r).1 with
        | none => simp [hp] at h
        | some l =>
          simp only [hp, Option.map_some', Option.some.injEq] at h
          rw [← h]
          exact ⟨rfl, _, (settingsOf_pushIfTyped _ l _ hp).trans hH, hcr⟩
      · rw [if_neg h2] at h
        simp only [Option.some.injEq] at h
        rw [← h]
        exact ⟨rfl, _, hH, hcr⟩

theorem loadLoop_settings {F : Type} (env : Env F) (records : List Record) :
    ∀ st st2 : LoadState F, loadLoop env records st = some st2 →
      st2.cutscene_settings = globalSettings env st.cutscene_settings records ∧
      ∃ extra, settingsOf st2.gs.scenes = settingsOf st.gs.scenes ++ extra := by
  induction records with
  | nil =>
    intro st st2 h
    simp only [loadLoop, Option.some.injEq] at h
    rw [← h]
    exact ⟨rfl, [], by simp⟩
  | cons r rs ih =>
    intro st st2 h
    simp only [loadLoop] at h
    cases h1 : loadStep env st r with
    | none => simp [h1] at h
    | some st1 =>
      rw [h1] at h
      obtain ⟨a1, created, a2, _⟩ := loadStep_settings env st st1 r h1
      obtain ⟨b1, extra, b2⟩ := ih st1 st2 h
      refine ⟨?_, created ++ extra, ?_⟩
      · rw [b1, a1]
        rfl
      · rw [b2, a2, List.append_assoc]
/-- C16: when `load` succeeds in reading `pre ++ r :: post`, every Scene created by
the record `r` (the Scenes at the positions the queue gains while `r` is handled)
holds, in the result of `load`, the settings accumulated from the global keys of
`pre`, the records before `r`: neither `r` itself nor any global key of `post`
changes them. -/
theorem scene_settings_snapshot {F : Type} (env : Env F) (game_state : Nat)
    (pre : List Record) (r : Record) (post : List Record) (res : LoadResult F) (i : Nat)
    (hload : GameStateCutscene.load env (GameStateCutscene.ctor game_state)
      (some (pre ++ r :: post)) = some res)
    (hlo : scenesAfter env game_state pre ≤ i)
    (hhi : i < scenesAfter env game_state (pre ++ [r])) :
    ∃ s, res.gs.scenes[i]? = some s ∧
      s.cutscene_settings = globalSettings env env.settings_ctor pre := by
  simp only [GameStateCutscene.load] at hload
  cases h3 : loadLoop env (pre ++ r :: post)
      { cutscene_settings := env.settings_ctor, gs := GameStateCutscene.ctor game_state,
        errors := [] } with
  | none => simp [h3] at hload
  | some st3 =>
    have hres : settingsOf res.gs.scenes = settingsOf st3.gs.scenes := by
      simp only [h3, Option.map_some', Option.some.injEq] at hload
      rw [← hload]
      split
      · rfl
      · exact settingsOf_flagLast _
    rw [loadLoop_append] at h3
    cases h1 : loadLoop env pre
        { cutscene_settings := env.settings_ctor, gs := GameStateCutscene.ctor game_state,
          errors := [] } with
    | none => simp [h1] at h3
    | some st1 =>
      simp only [h1, Option.some_bind, loadLoop] at h3
      cases h2 : loadStep env st1 r with
      | none => simp [h2] at h3
      | some st2 =>
        simp only [h2, Option.some_bind] at h3
        have hn1 : scenesAfter env game_state pre = st1.gs.scenes.length := by
          simp [scenesAfter, h1]
        have hn2 : scenesAfter env game_state (pre ++ [r]) = st2.gs.scenes.length := by
          simp [scenesAfter, loadLoop_append, h1, loadLoop, h2]
        rw [hn1] at hlo
        rw [hn2] at hhi
        obtain ⟨a1, _⟩ := loadLoop_settings env pre _ st1 h1
        obtain ⟨_, created, b2, b3⟩ := loadStep_settings env st1 st2 r h2
        obtain ⟨_, extra, c2⟩ := loadLoop_settings env post st2 st3 h3
        have hl1 : (settingsOf st1.gs.scenes).length = st1.gs.scenes.length := by
          simp [settingsOf]
        have hl2 : (settingsOf st2.gs.scenes).length = st2.gs.scenes.length := by
          simp [settingsOf]
        have hlen : st2.gs.scenes.length = st1.gs.scenes.length + created.length := by
          rw [← hl2, b2, List.length_append, hl1]
        have hget : (settingsOf res.gs.scenes)[i]? = created[i - st1.gs.scenes.length]? := by
          rw [hres, c2, List.getElem?_append_left (by rw [hl2]; exact hhi), b2,
            List.getElem?_append_right (by rw [hl1]; exact hlo), hl1]
        have hsome : ∃ c, created[i - st1.gs.scenes.length]? = some c := by
          have hlt : i - st1.gs.scenes.length < created.length := by omega
          exact ⟨created[i - st1.gs.scenes.length], List.getElem?_eq_getElem hlt⟩
        obtain ⟨c, hc⟩ := hsome
        rw [hc] at hget
        simp only [settingsOf, List.getElem?_map] at hget
        cases hs : res.gs.scenes[i]? with
        | none => simp [hs] at hget
        | some s =>
          rw [hs] at hget
          simp only [Option.map_some', Option.some.injEq] at hget
          refine ⟨s, rfl, ?_⟩
          rw [hget, b3 c (List.getElem?_mem hc), a1]

/-- Witness of C16: in the sample file the `vscroll` Scene (position 0), created by
the second record, keeps the speed set before it, although a global key follows
it. -/
theorem scene_settings_snapshot_witness :
    ∃ res, GameStateCutscene.load sampleEnv (GameStateCutscene.ctor 0)
        (some ([⟨false, "", "vscroll_speed", "1"⟩] ++ ⟨true, "vscroll", "text", "a"⟩ ::
          [⟨false, "", "caption_margins", "5,5"⟩, ⟨true, "scene", "caption", "b"⟩])) = some res ∧
      ∃ s, res.gs.scenes[0]? = some s ∧
        s.cutscene_settings
          = globalSettings sampleEnv sampleEnv.settings_ctor [⟨false, "", "vscroll_speed", "1"⟩] :=
  ⟨(GameStateCutscene.load sampleEnv (GameStateCutscene.ctor 0) (some speedRecords)).get
      (by decide),
    (Option.some_get _).symm,
    scene_settings_snapshot sampleEnv 0 [⟨false, "", "vscroll_speed", "1"⟩]
      ⟨true, "vscroll", "text", "a"⟩
      [⟨false, "", "caption_margins", "5,5"⟩, ⟨true, "scene", "caption", "b"⟩] _ 0
      (Option.some_get _).symm (by decide) (by decide)⟩

/-! ### Materialisation of a vertical scroller -/

theorem materialize_cons_kind {F : Type} (env : Env F) (c : SceneComponent)
    (q : List SceneComponent) (y ht : Int) (h : elementHeight env c = some ht) :
    ∃ vsc, materialize env (c :: q) y = vsc :: materialize env q (wrapInt (y + ht)) ∧
      vsc.kind = c.type := by
  simp only [materialize]
  by_cases h1 : c.type = "text"
  · simp only [elementHeight, if_pos h1, Option.some.injEq] at h
    subst h
    rw [if_pos h1]
    exact ⟨_, rfl, by rw [h1]; rfl⟩
  · by_cases h2 : c.type = "image"
    · simp only [elementHeight, if_neg h1, if_pos h2] at h
      rw [if_neg h1, if_pos h2]
      cases hl : env.loadImage c.s with
      | none => simp [hl] at h
      | some g =>
        simp only [hl] at h ⊢
        cases hs : env.createSprite g with
        | none => simp [hs] at h
        | some sp =>
          simp only [hs, Option.map_some', Option.some.injEq] at h
          subst h
          exact ⟨_, rfl, by rw [h2]; rfl⟩
    · by_cases h3 : c.type = "separator"
      · simp only [elementHeight, if_neg h1, if_neg h2, if_pos h3, Option.some.injEq] at h
        subst h
        rw [if_neg h1, if_neg h2, if_pos h3]
        exact ⟨_, rfl, by rw [h3]; rfl⟩
      · simp [elementHeight, h1, h2, h3] at h

/-- The elements materialised from a queue are, in order, one per directive that
yields an element, of the kind of that directive. -/
theorem materialize_kinds {F : Type} (env : Env F) (q : List SceneComponent) :
    ∀ y : Int, (materialize env q y).map VScrollComponent.kind
      = (producers env q).map fun c => c.type := by
  induction q with
  | nil =>
    intro y
    rfl
  | cons c q ih =>
    intro y
    cases hc : elementHeight env c with
    | none =>
      rw [materialize_cons_none env c q y hc, ih y]
      simp [producers, List.filter_cons, hc]
    | some ht =>
      obtain ⟨vsc, hm, hk⟩ := materialize_cons_kind env c q y ht hc
      rw [hm, List.map_cons, ih (wrapInt (y + ht)), hk]
      simp [producers, List.filter_cons, hc]

/-- The element of a directive that yields one does not depend on what follows
it in the queue. -/
theorem materialize_cons_append {F : Type} (env : Env F) (c : SceneComponent)
    (q : List SceneComponent) (y ht : Int) (h : elementHeight env c = some ht) :
    materialize env (c :: q) y
      = materialize env [c] y ++ materialize env q (wrapInt (y + ht)) := by
  simp only [materialize]
  by_cases h1 : c.type = "text"
  · simp only [elementHeight, if_pos h1, Option.some.injEq] at h
    subst h
    simp only [if_pos h1]
    rfl
  · by_cases h2 : c.type = "image"
    · simp only [elementHeight, if_neg h1, if_pos h2] at h
      simp only [if_neg h1, if_pos h2]
      cases hl : env.loadImage c.s with
      | none => simp [hl] at h
      | some g =>
        simp only [hl] at h ⊢
        cases hs : env.createSprite g with
        | none => simp [hs] at h
        | some sp =>
          simp only [hs, Option.map_some', Option.some.injEq] at h
          subst h
          rfl
    · by_cases h3 : c.type = "separator"
      · simp only [elementHeight, if_neg h1, if_neg h2, if_pos h3, Option.some.injEq] at h
        subst h
        simp only [if_neg h1, if_neg h2, if_pos h3]
        rfl
      · simp [elementHeight, h1, h2, h3] at h

/-- A directive that yields nothing can be taken out of the queue, wherever it
stands: the elements materialised, positions included, are the same. -/
theorem materialize_skip {F : Type} (env : Env F) (c : SceneComponent)
    (post : List SceneComponent) (h : elementHeight env c = none)
    (pre : List SceneComponent) :
    ∀ y : Int, materialize env (pre ++ c :: post) y = materialize env (pre ++ post) y := by
  induction pre with
  | nil =>
    intro y
    exact materialize_cons_none env c post y h
  | cons d pre ih =>
    intro y
    cases hd : elementHeight env d with
    | none =>
      rw [List.cons_append, List.cons_append, materialize_cons_none env d _ y hd,
        materialize_cons_none env d _ y hd]
      exact ih y
    | some ht =>
      rw [List.cons_append, List.cons_append, materialize_cons_append env d _ y ht hd,
        materialize_cons_append env d (pre ++ post) y ht hd, ih]

theorem reposition_kind {F : Type} (env : Env F) (off : Int) (v : VScrollComponent) :
    (VScrollComponent.reposition env off v).kind = v.kind := by
  unfold VScrollComponent.reposition
  split
  · rename_i l hl
    simp [VScrollComponent.kind, hl]
  · rename_i hl
    split
    · rename_i sp hs
      simp [VScrollComponent.kind, hl, hs]
    · rfl

/-- The queue and the kinds of the elements after a call on a vertical scroller
that is not done. -/
theorem logic_vscroll_kinds {F : Type} (env : Env F) (s : Scene F) (t : Tick)
    (hty : s.cutscene_type = CUTSCENE_VSCROLL) (hdone : s.done = false) :
    (Scene.logic env s t).scene.components = [] ∧
    (Scene.logic env s t).scene.vscroll_components.map VScrollComponent.kind
      = s.vscroll_components.map VScrollComponent.kind
        ++ (producers env s.components).map fun c => c.type := by
  have hne : ¬ (CUTSCENE_VSCROLL = CUTSCENE_STATIC) := by decide
  rw [logic_vscroll env s t hty hdone, ← materialize_kinds env s.components 0]
  unfold Scene.logicVScroll
  dsimp only
  split
  · exact ⟨rfl, by simp [Scene.enter]⟩
  · constructor
    · exact (refreshWidgets_fields env _).1
    · simp only [Scene.refreshWidgets, Scene.enter, hty, hne, if_false, if_true]
      simp [List.map_map, Function.comp_def, reposition_kind]

/-- The stored Y of the elements a call leaves in a vertical scroller that is not
done: those it had, then those materialised from the queue. -/
theorem logic_vscroll_tops {F : Type} (env : Env F) (s : Scene F) (t : Tick)
    (hty : s.cutscene_type = CUTSCENE_VSCROLL) (hdone : s.done = false) :
    tops (Scene.logic env s t).scene.vscroll_components
      = tops s.vscroll_components ++ tops (materialize env s.components 0) := by
  have hne : ¬ (CUTSCENE_VSCROLL = CUTSCENE_STATIC) := by decide
  rw [logic_vscroll env s t hty hdone]
  unfold Scene.logicVScroll
  split
  · simp [tops, Scene.enter]
  · simp only [Scene.refreshWidgets, Scene.enter, hty, hne, if_false, if_true]
    simp [tops, List.map_map, Function.comp_def, reposition_pos]

/-- A call on a vertical scroller that is not done reads its queue through the
layout loop only: two queues with the same layout give the same result. -/
theorem logic_vscroll_queue {F : Type} (env : Env F) (s : Scene F) (t : Tick)
    (q : List SceneComponent) (hty : s.cutscene_type = CUTSCENE_VSCROLL)
    (hdone : s.done = false) (hq : materialize env q 0 = materialize env s.components 0) :
    Scene.logic env { s with components := q } t = Scene.logic env s t := by
  rw [logic_vscroll env s t hty hdone, logic_vscroll env { s with components := q } t hty hdone]
  have hb : (s.cutscene_type == CUTSCENE_VSCROLL) = true := by rw [hty]; rfl
  unfold Scene.logicVScroll
  simp only [Scene.enter, Scene.input, Scene.chooseAdvance, hq, hb, Bool.true_or]

/-- Along any run of ticks, a vertical scroller that started not done and still has
directives queued is not done: a call that takes a cancel also empties the
queue. -/
theorem run_pending_queue_not_done {F : Type} (env : Env F) (ticks : List Tick) :
    ∀ s : Scene F, s.cutscene_type = CUTSCENE_VSCROLL →
      (s.components ≠ [] → s.done = false) →
      (Scene.run env s ticks).cutscene_type = CUTSCENE_VSCROLL ∧
      ((Scene.run env s ticks).components ≠ [] → (Scene.run env s ticks).done = false) := by
  induction ticks with
  | nil =>
    intro s hty h
    exact ⟨hty, h⟩
  | cons t ts ih =>
    intro s hty h
    simp only [Scene.run]
    cases hd : s.done with
    | true =>
      rw [logic_done env s t hd]
      exact ih s hty h
    | false =>
      apply ih
      · rw [logic_vscroll env s t hty hd]
        unfold Scene.logicVScroll
        dsimp only
        split
        · exact hty
        · simp only [Scene.refreshWidgets]
          split
          · exact (refreshArt_fields env _).2.2.2.2.2.2.1.trans
              ((refreshCaption_fields env _).2.2.2.2.2.2.1.trans hty)
          · split <;> exact hty
      · intro hq
        exact absurd (logic_vscroll_kinds env s t hty hd).1 hq

/-- The layout of the queue `[text, separator 20, image]` with an image that
loads, and of the same queue without the separator: three elements, a text, a
separator and an image; the image is stored 20 lower, as an `int`, than without
the separator. -/
theorem materialize_text_separator_image {F : Type} (env : Env F) (a b c : SceneComponent)
    (g : Image) (sp : Sprite) (ha : a.type = "text") (hb : b.type = "separator")
    (hbx : b.x = 20) (hc : c.type = "image") (hl : env.loadImage c.s = some g)
    (hs : env.createSprite g = some sp) :
    (materialize env [a, b, c] 0).map VScrollComponent.kind = ["text", "separator", "image"] ∧
    ∃ y0 y1 y2 u, tops (materialize env [a, b, c] 0) = [y0, y1, y2] ∧
      tops (materialize env [a, c] 0) = [y0, u] ∧
      y2 = wrapInt (u + 20) := by
  have e1 : ¬ (b.type = "text") := by rw [hb]; decide
  have e2 : ¬ (b.type = "image") := by rw [hb]; decide
  have e3 : ¬ (c.type = "text") := by rw [hc]; decide
  refine ⟨?_, wrapInt (env.view_h.tdiv 2 + 0),
    wrapInt (wrapInt (env.view_h.tdiv 2 + wrapInt (0 + env.label_h a.s)) + Int.tdiv 20 2),
    wrapInt (env.view_h.tdiv 2 + wrapInt (wrapInt (0 + env.label_h a.s) + 20)),
    wrapInt (env.view_h.tdiv 2 + wrapInt (0 + env.label_h a.s)), ?_, ?_, ?_⟩
  · simp only [materialize, if_pos ha, if_neg e1, if_neg e2, if_pos hb, if_neg e3, if_pos hc,
      hl, hs, List.map_cons, List.map_nil]
    rfl
  · simp only [materialize, if_pos ha, if_neg e1, if_neg e2, if_pos hb, if_neg e3, if_pos hc,
      hl, hs, tops, List.map_cons, List.map_nil, hbx]
  · simp only [materialize, if_pos ha, if_neg e3, if_pos hc, hl, hs, tops, List.map_cons,
      List.map_nil]
  · unfold wrapInt
    omega

/-- C17: take a vertical scroller as `load` builds it, after any run of ticks, with
directives still queued. One call of `logic` leaves its queue empty and appends
to the element list, in queue order, one element per directive that yields one
(each text, each separator, each image that loads), of the kind of its directive
(a separator element has neither text nor image). An image that fails to load
adds no element and does not advance the running offset: the call gives the same
result, positions included, as with that directive taken out of the queue. As
long as no addition of the layout overflows `int`, the anchor of the `N`-th new
element is the sum of the heights and gaps of the new elements before it (plus
half the gap for a separator). For the queue `[text, separator 20, image]` with
an image that loads, three elements are appended, a text, a separator and an
image, and the image is stored 20 lower, as an `int`, than with the queue
`[text, image]`: exactly 20 lower whenever that position is in the range of
`int`. -/
theorem vscroll_queue_materialized {F : Type} (env : Env F) (cs : CutsceneSettings F)
    (q : List SceneComponent) (last : Bool) (ticks : List Tick) (t : Tick) (s : Scene F)
    (hs : s = Scene.run env (Scene.loaded cs q last) ticks) (hq : s.components ≠ []) :
    (Scene.logic env s t).scene.components = [] ∧
    (Scene.logic env s t).scene.vscroll_components.map VScrollComponent.kind
      = s.vscroll_components.map VScrollComponent.kind
        ++ (producers env s.components).map (fun c => c.type) ∧
    (∀ (pre post : List SceneComponent) (c : SceneComponent),
      s.components = pre ++ c :: post → c.type = "image" → env.loadImage c.s = none →
      Scene.logic env { s with components := pre ++ post } t = Scene.logic env s t) ∧
    (layoutFits env s.components 0 = true →
      ∀ (N : Nat) (y : Int),
        ((anchors env (Scene.logic env s t).scene.vscroll_components).drop
          s.vscroll_components.length)[N]? = some y →
        ∃ d, (producers env s.components)[N]? = some d ∧
          y = ((heights env s.components).take N).sum + anchorShift d) ∧
    (∀ (a b c : SceneComponent) (g : Image) (sp : Sprite),
      s.components = [a, b, c] → a.type = "text" → b.type = "separator" → b.x = 20 →
      c.type = "image" → env.loadImage c.s = some g → env.createSprite g = some sp →
      ((Scene.logic env s t).scene.vscroll_components.drop s.vscroll_components.length).map
          VScrollComponent.kind = ["text", "separator", "image"] ∧
      ∃ y0 y1 y2 u,
        (tops (Scene.logic env s t).scene.vscroll_components).drop
            s.vscroll_components.length = [y0, y1, y2] ∧
        (tops (Scene.logic env { s with components := [a, c] } t).scene.vscroll_components).drop
            s.vscroll_components.length = [y0, u] ∧
        y2 = wrapInt (u + 20) ∧ (fitsInt (u + 20) = true → y2 = u + 20)) := by
  have hinv := run_pending_queue_not_done env ticks (Scene.loaded cs q last) rfl (fun _ => rfl)
  rw [← hs] at hinv
  obtain ⟨hty, hnd⟩ := hinv
  have hdone : s.done = false := hnd hq
  obtain ⟨k1, k2⟩ := logic_vscroll_kinds env s t hty hdone
  have hlen : (anchors env s.vscroll_components).length = s.vscroll_components.length := by
    simp [anchors]
  have hlen2 : (tops s.vscroll_components).length = s.vscroll_components.length := by
    simp [tops]
  have hdrop : (anchors env (Scene.logic env s t).scene.vscroll_components).drop
      s.vscroll_components.length = anchors env (materialize env s.components 0) := by
    rw [logic_vscroll_anchors env s t hty hdone, ← hlen, List.drop_left]
  refine ⟨k1, k2, ?_, ?_, ?_⟩
  · intro pre post c hcomp hc hl
    have h1 : ¬ (c.type = "text") := by rw [hc]; decide
    have hnone : elementHeight env c = none := by
      simp only [elementHeight, if_neg h1, if_pos hc, hl]
    apply logic_vscroll_queue env s t (pre ++ post) hty hdone
    rw [hcomp, materialize_skip env c post hnone pre 0]
  · intro hfit N y h
    rw [hdrop] at h
    obtain ⟨d, h1, h2⟩ := materialize_anchor env s.components 0 N y hfit h
    exact ⟨d, h1, by rw [h2, zero_add]⟩
  · intro a b c g sp hcomp ha hb hbx hc hl hsp
    obtain ⟨m1, y0, y1, y2, u, m2, m3, m4⟩ :=
      materialize_text_separator_image env a b c g sp ha hb hbx hc hl hsp
    refine ⟨?_, y0, y1, y2, u, ?_, ?_, m4, ?_⟩
    · have hk : ((Scene.logic env s t).scene.vscroll_components.drop
          s.vscroll_components.length).map VScrollComponent.kind
          = ((Scene.logic env s t).scene.vscroll_components.map VScrollComponent.kind).drop
              (s.vscroll_components.map VScrollComponent.kind).length := by
        rw [List.map_drop, List.length_map]
      rw [hk, k2, List.drop_left, ← materialize_kinds env s.components 0, hcomp, m1]
    · rw [logic_vscroll_tops env s t hty hdone, ← hlen2, List.drop_left, hcomp, m2]
    · have hd2 := logic_vscroll_tops env { s with components := [a, c] } t hty hdone
      rw [hd2]
      show List.drop s.vscroll_components.length
        (tops s.vscroll_components ++ tops (materialize env [a, c] 0)) = _
      rw [← hlen2, List.drop_left, m3]
    · intro hf
      rw [m4, wrapInt_of_fits _ hf]

/-- Witness of C17 on the sample scroller, fresh from `load` with the queue
`[text, separator 20, image]`: its first call appends a text, a separator and an
image stored at 300, 330 and 340, and without the separator the image is stored
at 320. -/
theorem vscroll_queue_materialized_witness :
    (tops (Scene.logic sampleEnv layoutScene idleTick).scene.vscroll_components = [300, 330, 340] ∧
      tops (Scene.logic sampleEnv
        { layoutScene with components := [⟨"text", "Credits", 0⟩, ⟨"image", "logo.png", 0⟩] }
        idleTick).scene.vscroll_components = [300, 320]) ∧
    (Scene.logic sampleEnv layoutScene idleTick).scene.components = [] ∧
    (((Scene.logic sampleEnv layoutScene idleTick).scene.vscroll_components.drop
          layoutScene.vscroll_components.length).map
        VScrollComponent.kind = ["text", "separator", "image"] ∧
      ∃ y0 y1 y2 u,
        (tops (Scene.logic sampleEnv layoutScene idleTick).scene.vscroll_components).drop
            layoutScene.vscroll_components.length = [y0, y1, y2] ∧
        (tops (Scene.logic sampleEnv
            { layoutScene with components := [⟨"text", "Credits", 0⟩, ⟨"image", "logo.png", 0⟩] }
            idleTick).scene.vscroll_components).drop
            layoutScene.vscroll_components.length = [y0, u] ∧
        y2 = wrapInt (u + 20) ∧ (fitsInt (u + 20) = true → y2 = u + 20)) :=
  ⟨by decide,
   (vscroll_queue_materialized sampleEnv sampleEnv.settings_ctor
      [⟨"text", "Credits", 0⟩, ⟨"separator", "", 20⟩, ⟨"image", "logo.png", 0⟩] false
      [] idleTick layoutScene (by decide) (by decide)).1,
   (vscroll_queue_materialized sampleEnv sampleEnv.settings_ctor
      [⟨"text", "Credits", 0⟩, ⟨"separator", "", 20⟩, ⟨"image", "logo.png", 0⟩] false
      [] idleTick layoutScene (by decide) (by decide)).2.2.2.2
      ⟨"text", "Credits", 0⟩ ⟨"separator", "", 20⟩ ⟨"image", "logo.png", 0⟩
      ⟨64, 100⟩ ⟨64, 100, ⟨0, 0⟩⟩ rfl rfl rfl rfl rfl (by decide) (by decide)⟩

/-! ### Sound effects -/

/-- The requests of one `soundfx` directive (lines 167-173): an unload of the handle
held when that handle is not 0, then one load and one play, neither positional nor
looping, of the new sound. -/
theorem applyComponent_soundfx {F : Type} (env : Env F) (s : Scene F) (c : SceneComponent)
    (hc : c.type = "soundfx") :
    (Scene.applyComponent env s c).2
      = (if s.sid ≠ 0 then [SndReq.unload s.sid] else [])
        ++ [SndReq.load c.s "Cutscenes", SndReq.play (env.snd_load c.s) false false] ∧
    (Scene.applyComponent env s c).1.sid = env.snd_load c.s := by
  have h1 : ¬ (c.type = "caption") := by rw [hc]; decide
  have h2 : ¬ (c.type = "image") := by rw [hc]; decide
  unfold Scene.applyComponent
  rw [if_neg h1, if_neg h2, if_pos hc]
  exact ⟨rfl, rfl⟩

/-- C18, the code at the failing input: a freshly constructed static scene (`sid` is
-1, nothing loaded) applies its first `soundfx` directive and sends an unload of
handle -1 before the load and the play; the second directive unloads handle 7,
the sound the first one loaded. -/
theorem first_soundfx_sends_unload :
    soundScene.sid = -1 ∧
    (Scene.logic sampleEnv { soundScene with components := [⟨"soundfx", "boom.ogg", 0⟩] }
      idleTick).snd
      = [SndReq.unload (-1), SndReq.load "boom.ogg" "Cutscenes", SndReq.play 7 false false] ∧
    (Scene.logic sampleEnv soundScene idleTick).snd
      = [SndReq.unload (-1), SndReq.load "boom.ogg" "Cutscenes", SndReq.play 7 false false,
         SndReq.unload 7, SndReq.load "ding.ogg" "Cutscenes", SndReq.play 7 false false] := by
  decide

/-! ### The done flag -/

theorem drain_done {F : Type} (env : Env F) (q : List SceneComponent) :
    ∀ (s : Scene F) (out : List SndReq), (Scene.drain env q s out).1.done = s.done := by
  induction q with
  | nil =>
    intro s out
    rfl
  | cons c q ih =>
    intro s out
    simp only [Scene.drain]
    split
    · rfl
    · rw [ih]
      exact (applyComponent_fields env s c).2.2.2.2.1

/-- After a call on a scene that is not done, `done` tells whether the call took a
cancel. -/
theorem logic_done_flag {F : Type} (env : Env F) (s : Scene F) (t : Tick)
    (hdone : s.done = false) :
    (Scene.logic env s t).scene.done = (s.input t).done := by
  have hd := drain_done env (s.enter t).components (s.enter t) []
  unfold Scene.logic
  rw [if_neg (by simp [hdone])]
  split
  · unfold Scene.logicStatic
    split
    · rfl
    · dsimp only
      split
      · exact hd
      · exact (refreshWidgets_fields env _).2.2.2.2.2.1.trans hd
  · split
    · unfold Scene.logicVScroll
      dsimp only
      split
      · rfl
      · exact (refreshWidgets_fields env _).2.2.2.2.2.1
    · rfl

/-- C19: a call of `logic` on a scene that is done returns "finished" and changes
nothing: the scene (queue, caption, counters, scroll ticks, elements) and the
input state with its lock flags are as before, no request is sent; so any run
of calls leaves the scene as it is. Neither `logic` nor `refreshWidgets` resets
`done`; hence from a call that took a cancel on, `done` is set and every later
call returns "finished". -/
theorem done_is_absorbing {F : Type} (env : Env F) (s : Scene F) (t : Tick)
    (h : s.done = true) :
    Scene.logic env s t = { ret := false, scene := s, inpt := t.inpt, snd := [] } ∧
    (∀ ticks : List Tick, Scene.run env s ticks = s) ∧
    (Scene.refreshWidgets env s).done = true ∧
    (∀ (z : Scene F) (u : Tick), z.done = false → (z.input u).done = true →
      (Scene.logic env z u).scene.done = true ∧
      ∀ (ticks : List Tick) (v : Tick),
        (Scene.logic env (Scene.run env (Scene.logic env z u).scene ticks) v).ret = false) := by
  have hrun : ∀ (z : Scene F), z.done = true → ∀ ticks : List Tick, Scene.run env z ticks = z := by
    intro z hz ticks
    induction ticks with
    | nil => rfl
    | cons u us ih =>
      simp only [Scene.run, logic_done env z u hz]
      exact ih
  refine ⟨logic_done env s t h, hrun s h, (refreshWidgets_fields env s).2.2.2.2.2.1.trans h, ?_⟩
  intro z u hz hc
  have hd : (Scene.logic env z u).scene.done = true := by
    rw [logic_done_flag env z u hz, hc]
  refine ⟨hd, ?_⟩
  intro ticks v
  rw [hrun _ hd ticks, logic_done env _ v hd]

/-- Witness of C19: the sample done scene on a tick with cancel pressed. -/
theorem done_is_absorbing_witness :
    Scene.logic sampleEnv doneScene cancelTick
      = { ret := false, scene := doneScene, inpt := cancelTick.inpt, snd := [] } :=
  (done_is_absorbing sampleEnv doneScene cancelTick (by decide)).1

/-! ### The pause counters -/

/-- A call on a static scene that is not done and not held by a pause, whose queue
holds no pause: the counters stay as they are. -/
theorem logic_static_no_pause_left {F : Type} (env : Env F) (s : Scene F) (t : Tick)
    (hty : s.cutscene_type = CUTSCENE_STATIC) (hdone : s.done = false)
    (hfree : (s.input t).skip = true ∨ s.pause_frames = 0 ∨ s.pause_frames ≤ s.frame_counter)
    (hpre : ∀ c ∈ s.components, c.type ≠ "pause") :
    (Scene.logic env s t).scene.frame_counter = s.frame_counter ∧
    (Scene.logic env s t).scene.pause_frames = s.pause_frames ∧
    (Scene.logic env s t).scene.components = [] := by
  obtain ⟨hnil, _⟩ := logic_static_free env s t hty hdone hfree
  obtain ⟨d1, _, _, d4, d5, _⟩ :=
    drain_split env [] (by intro p hp; simp at hp) s.components (s.enter t) [] hpre
  rw [List.append_nil] at d1 d4 d5
  obtain ⟨_, hs⟩ := hnil d1
  rw [hs]
  exact ⟨d4, d5, d1⟩

/-- One call keeps the invariant of the pause counters and moves `frame_counter` in
one of the three ways of `CounterStep`. -/
theorem logic_pause_inv {F : Type} (env : Env F) (s : Scene F) (t : Tick) (h : PauseInv s) :
    PauseInv (Scene.logic env s t).scene ∧ CounterStep s t (Scene.logic env s t).scene := by
  obtain ⟨hty, h0, h1, hp⟩ := h
  cases hdone : s.done with
  | true =>
    rw [logic_done env s t hdone]
    exact ⟨⟨hty, h0, h1, hp⟩, Or.inl rfl⟩
  | false =>
    by_cases hheld : (s.input t).skip = false ∧ s.pause_frames ≠ 0 ∧
        s.frame_counter < s.pause_frames
    · obtain ⟨k1, k2, k3⟩ := hheld
      rw [logic_static env s t hty hdone, logicStatic_paused env (s.enter t) (s.input t) k1 k2 k3]
      refine ⟨⟨hty, ?_, ?_, hp⟩, Or.inr (Or.inl ⟨rfl, hdone, k1, k2, k3, rfl⟩)⟩
      · show 0 ≤ s.frame_counter + 1
        omega
      · show s.frame_counter + 1 ≤ s.pause_frames
        omega
    · have hfree : (s.input t).skip = true ∨ s.pause_frames = 0 ∨
          s.pause_frames ≤ s.frame_counter := by
        by_cases a : (s.input t).skip = true
        · exact Or.inl a
        · by_cases b : s.pause_frames = 0
          · exact Or.inr (Or.inl b)
          · refine Or.inr (Or.inr ?_)
            by_contra c
            exact hheld ⟨by simpa using a, b, by omega⟩
      have hq := (List.takeWhile_append_dropWhile
        (fun c : SceneComponent => decide (c.type ≠ "pause")) s.components).symm
      have hpre : ∀ c ∈ s.components.takeWhile (fun c => decide (c.type ≠ "pause")),
          c.type ≠ "pause" := by
        intro c hc
        simpa using List.mem_takeWhile_imp hc
      cases hrest : s.components.dropWhile (fun c => decide (c.type ≠ "pause")) with
      | nil =>
        have hall : ∀ c ∈ s.components, c.type ≠ "pause" := by
          intro c hc
          have := (List.dropWhile_eq_nil_iff.mp hrest) c hc
          simpa using this
        obtain ⟨e1, e2, e3⟩ := logic_static_no_pause_left env s t hty hdone hfree hall
        obtain ⟨_, _, _, e4, _⟩ := logic_static_split env s t s.components [] hty hdone hfree
          (by simp) hall (by intro p hp2; simp at hp2)
        refine ⟨⟨e4.trans hty, by rw [e1]; exact h0, by rw [e1, e2]; exact h1, ?_⟩, Or.inl e1⟩
        intro c hc
        rw [e3] at hc
        simp at hc
      | cons p rest =>
        rw [hrest] at hq
        have hptype : p.type = "pause" := by
          have := List.head?_dropWhile_not (fun c : SceneComponent => decide (c.type ≠ "pause"))
            s.components
          rw [hrest] at this
          simpa using this
        obtain ⟨_, _, _, e4, _, _, e7⟩ := logic_static_split env s t _ (p :: rest) hty hdone hfree
          hq hpre (by intro z hz; have : z = p := by simpa using hz.symm
                      rw [this]; exact hptype)
        obtain ⟨f1, f2, f3, _⟩ := e7 p rest rfl
        have hpmem : p ∈ s.components := by
          rw [hq]; simp
        refine ⟨⟨e4.trans hty, by rw [f2], by rw [f2, f3]; exact hp p hpmem hptype, ?_⟩,
          Or.inr (Or.inr ⟨f2, _, p, rest, hq, hpre, hptype, f1, f3⟩)⟩
        intro c hc hct
        rw [f1] at hc
        exact hp c (by rw [hq]; simp [hc]) hct

theorem run_pause_inv {F : Type} (env : Env F) (ticks : List Tick) :
    ∀ s : Scene F, PauseInv s → PauseInv (Scene.run env s ticks) := by
  induction ticks with
  | nil =>
    intro s h
    exact h
  | cons t ts ih =>
    intro s h
    exact ih _ (logic_pause_inv env s t h).1

/-- C20: a static scene started from its constructed counters (`frame_counter = 0`,
`pause_frames = 0`) whose queued pauses all have a length of 0 or more satisfies
`0 <= frame_counter <= pause_frames` after every sequence of calls of `logic`,
whatever the inputs; and each further call leaves `frame_counter` as it is, or
adds 1 to it on a tick held by a pause, or resets it to 0 while dequeuing a
pause. -/
theorem pause_counter_invariant {F : Type} (env : Env F) (s0 : Scene F) (ticks : List Tick)
    (t : Tick) (hty : s0.cutscene_type = CUTSCENE_STATIC) (hfc : s0.frame_counter = 0)
    (hpf : s0.pause_frames = 0) (hq : ∀ c ∈ s0.components, c.type = "pause" → 0 ≤ c.x) :
    0 ≤ (Scene.run env s0 ticks).frame_counter ∧
    (Scene.run env s0 ticks).frame_counter ≤ (Scene.run env s0 ticks).pause_frames ∧
    CounterStep (Scene.run env s0 ticks) t (Scene.logic env (Scene.run env s0 ticks) t).scene := by
  have h0 : PauseInv s0 := ⟨hty, by rw [hfc], by rw [hfc, hpf], hq⟩
  have h := run_pause_inv env ticks s0 h0
  exact ⟨h.2.1, h.2.2.1, (logic_pause_inv env _ t h).2⟩

/-- Witness of C20: the sample file's scene (image, pause of 60, caption) after
three idle ticks. -/
theorem pause_counter_invariant_witness :
    0 ≤ (Scene.run sampleEnv
      { Scene.ctor sampleEnv.settings_ctor CUTSCENE_STATIC with
        components := [⟨"image", "bg.png", 1⟩, ⟨"pause", "", 60⟩, ⟨"caption", "Hello", 0⟩] }
      [idleTick, idleTick, idleTick]).frame_counter :=
  (pause_counter_invariant sampleEnv
    { Scene.ctor sampleEnv.settings_ctor CUTSCENE_STATIC with
      components := [⟨"image", "bg.png", 1⟩, ⟨"pause", "", 60⟩, ⟨"caption", "Hello", 0⟩] }
    [idleTick, idleTick, idleTick] idleTick rfl rfl rfl (by decide)).1

end Cutscene
